import Mathlib

/-!
# Credential lifecycle engine of the Go/Gin blog platform

A shallow embedding of `backend/internal/{auth,models,repository,service}` and of the
authentication middleware and the error handlers of `backend/internal/transport/http`.

* Go strings are Lean strings (valid Unicode text); `len` is the UTF-8 byte size. The one
  exception is the value of a request header, which is the list of its bytes.
* Go errors are values of `GoError`; `errors.Is` walks the chain of wrapped causes.
* The relational database is a record of tables (lists of rows); the GORM calls used by
  the repositories are modelled by the functions of namespace `gorm`.
* Every reading of the wall clock, of the entropy source and of the database's
  `gen_random_uuid()` is an explicit argument, so each function is a pure function of its
  inputs, of the store and of what the environment handed to it.
* The external libraries (Unicode case mapping, SHA-256, bcrypt, the JWT codec) are the
  fields of `Lib`, together with the facts about them that the development relies on.
  `LibFormat` adds what digests and tokens look like, `LibIdeal` the cryptographic
  assumptions on bcrypt; only the statements that need them are about these.
* A handler of the gin framework is a function on the state of the request context that
  takes what `c.Next()` does as an argument.
* Values of type `int` and `int64` are integers; where the program computes with them the
  result is reduced to 64 bits by `int.wrap`.
* The listings take the methods of their repository, an interface, as arguments, and so do
  `RefreshWith` and `ConfirmPasswordResetWith` for the one method whose failure they
  handle; the other service functions run on the GORM repositories over the store.
-/

set_option autoImplicit false

/-- Instants and durations are counted in nanoseconds, as `time.Time` and `time.Duration` do. -/
abbrev Time := Int

/-- One second, in nanoseconds. -/
def Second : Int := 1000000000

/-! ## Errors -/

/-- Go error values: the sentinel errors of the packages, errors raised by external code,
and `fmt.Errorf("ctx: %w", cause)`. -/
inductive GoError where
  | svcErrValidation
  | svcErrInvalidCredentials
  | svcErrEmailAlreadyUsed
  | svcErrInvalidToken
  | svcErrUserNotFound
  | svcErrPostNotFound
  | svcErrForbidden
  | repoErrNotFound
  | repoErrDuplicate
  | authErrInvalidToken
  | external (msg : String)
  | wrap (ctx : String) (cause : GoError)
  deriving DecidableEq, Repr

/-- Equality of results is decidable. -/
instance instDecidableEqExcept {ε α : Type} [DecidableEq ε] [DecidableEq α] :
    DecidableEq (Except ε α) := fun a b =>
  match a, b with
  | Except.ok x, Except.ok y =>
    if h : x = y then isTrue (by rw [h]) else isFalse (fun e => h (Except.ok.inj e))
  | Except.error x, Except.error y =>
    if h : x = y then isTrue (by rw [h]) else isFalse (fun e => h (Except.error.inj e))
  | Except.ok _, Except.error _ => isFalse (fun e => by cases e)
  | Except.error _, Except.ok _ => isFalse (fun e => by cases e)

namespace GoError

/-- The text of `err.Error()`. -/
def Error : GoError → String
  | svcErrValidation => "validation error"
  | svcErrInvalidCredentials => "invalid credentials"
  | svcErrEmailAlreadyUsed => "email already exists"
  | svcErrInvalidToken => "invalid token"
  | svcErrUserNotFound => "user not found"
  | svcErrPostNotFound => "post not found"
  | svcErrForbidden => "forbidden"
  | repoErrNotFound => "record not found"
  | repoErrDuplicate => "duplicate record"
  | authErrInvalidToken => "invalid token"
  | external msg => msg
  | wrap ctx cause => ctx ++ ": " ++ cause.Error

end GoError

namespace errors

/-- The function `errors.Is`: the target occurs in the chain of wrapped causes. -/
def Is : GoError → GoError → Bool
  | GoError.wrap ctx cause, target =>
      decide (GoError.wrap ctx cause = target) || Is cause target
  | err, target => decide (err = target)

end errors

/-! ## Strings -/

namespace unicode

/-- The predicate `unicode.IsSpace`: the Unicode White_Space property. -/
def IsSpace (c : Char) : Bool :=
  let n := c.toNat
  (9 ≤ n && n ≤ 13) || n = 32 || n = 0x85 || n = 0xA0 || n = 0x1680 ||
    (0x2000 ≤ n && n ≤ 0x200A) || n = 0x2028 || n = 0x2029 || n = 0x202F ||
    n = 0x205F || n = 0x3000

end unicode

namespace strings

/-- The function `strings.TrimSpace`: drop leading and trailing white space. -/
def TrimSpace (s : String) : String :=
  String.mk ((s.data.dropWhile unicode.IsSpace).rdropWhile unicode.IsSpace)

/-- The function `strings.TrimRight s cutset`: drop trailing characters of the cut set. -/
def TrimRight (s cutset : String) : String :=
  String.mk (s.data.rdropWhile (fun c => cutset.data.contains c))

/-- The function `strings.Contains`: `substr` occurs somewhere within `s`. -/
def Contains (s substr : String) : Bool :=
  s.data.tails.any (fun t => substr.data.isPrefixOf t)

/-- The builtin `len` on a string: its size in bytes. -/
def len (s : String) : Nat := s.utf8ByteSize

end strings

/-! ## The entropy source -/

/-- The outcome of one read of `crypto/rand`: a failure, or a stream of bytes of which the
caller takes as many as it asked for. -/
structure Entropy where
  fails : Bool
  bytes : Nat → Nat

/-- The call `rand.Read(buf)` with `len(buf) = n`: the bytes read, or nothing on failure. -/
def Entropy.Read (e : Entropy) (n : Nat) : Option (List Nat) :=
  if e.fails then none else some ((List.range n).map (fun i => e.bytes i % 256))

/-! ## UTF-8 encoding -/

namespace utf8

/-- The function `utf8.AppendRune` on the empty slice: the UTF-8 encoding of a rune;
surrogates and values out of range are encoded as `RuneError`. -/
def AppendRune (r : Nat) : List Nat :=
  if r < 0x80 then [r]
  else if r < 0x800 then [0xC0 + r / 64, 0x80 + r % 64]
  else if 0x10FFFF < r ∨ (0xD800 ≤ r ∧ r ≤ 0xDFFF) then [0xEF, 0xBF, 0xBD]
  else if r < 0x10000 then [0xE0 + r / 4096, 0x80 + r / 64 % 64, 0x80 + r % 64]
  else [0xF0 + r / 262144, 0x80 + r / 4096 % 64, 0x80 + r / 64 % 64, 0x80 + r % 64]

/-- The bytes of a text: the conversion of a well-formed string to its bytes. -/
def bytes (s : String) : List Nat := s.data.flatMap (fun c => AppendRune c.toNat)

end utf8

namespace bcrypt

/-- The key bcrypt derives from a password: the bytes of the password followed by a zero
byte, read cyclically for the 72 bytes that the Blowfish key schedule consumes. Nothing
else of the password enters the hash. -/
def key (password : String) : List Nat :=
  (List.range 72).map (fun i =>
    (utf8.bytes password ++ [0]).getD (i % (utf8.bytes password ++ [0]).length) 0)

end bcrypt

/-! ## External libraries -/

namespace jwt

/-- The JSON claim set carried by a token. `role` is the member written by `AccessClaims`
only; the registered claims `sub` and `jti` are omitted from the JSON when empty, so the
empty string stands for an absent member; numeric dates are whole seconds. -/
structure Claims where
  role : Option String
  token_type : String
  sub : String
  iat : Option Int
  exp : Option Int
  nbf : Option Int
  jti : String
  deriving DecidableEq, Repr

/-- The constructor `jwt.NewNumericDate`: the instant cut down to whole seconds
(`jwt.TimePrecision` is one second). -/
def NewNumericDate (t : Time) : Int := t / Second

/-- The instant denoted by a numeric date. -/
def NumericDate.Time (d : Int) : Time := d * Second

end jwt

/-- The external libraries the packages call, with the facts relied upon. -/
structure Lib where
  /-- The rune mapping `unicode.ToLower`. -/
  lowerRune : Char → Char
  /-- The digest `hex.EncodeToString(sha256.Sum256(raw))`. -/
  sha256Hex : String → String
  /-- The hash `bcrypt.GenerateFromPassword(password, bcrypt.DefaultCost)` for a given salt;
  the library may refuse a password. -/
  bcryptGenerate : List Nat → String → Except GoError String
  /-- The check `bcrypt.CompareHashAndPassword(hash, password) == nil`. -/
  bcryptCompare : String → String → Bool
  /-- The call `jwt.NewWithClaims(jwt.SigningMethodHS256, claims).SignedString(key)`. -/
  jwtEncode : String → jwt.Claims → String
  /-- The header algorithm and the claim set of a well-formed compact token. -/
  jwtDecode : String → Option (String × jwt.Claims)
  /-- The signature check of the method named by the header, under a key. -/
  jwtVerify : String → String → String → Bool
  /-- The function `url.QueryEscape`. -/
  queryEscape : String → String
  /-- The function `strings.EqualFold`: equality under simple Unicode case folding. -/
  equalFold : String → String → Bool
  /-- A lower-case rune is its own lower case. -/
  lowerRune_idem : ∀ c, lowerRune (lowerRune c) = lowerRune c
  /-- Case mapping neither makes nor removes white space. -/
  lowerRune_space : ∀ c, unicode.IsSpace (lowerRune c) = unicode.IsSpace c
  /-- On ASCII the mapping sends `A` to `Z` to `a` to `z` and keeps the rest. -/
  lowerRune_ascii : ∀ c : Char, c.toNat < 128 → lowerRune c = c.toLower
  /-- A password matches the hash made of it. -/
  bcrypt_accepts : ∀ salt password hash,
    bcryptGenerate salt password = Except.ok hash → bcryptCompare hash password = true
  /-- A signed token decodes to the HS256 header and to the claims that were signed. -/
  jwt_decode_encode : ∀ key claims, jwtDecode (jwtEncode key claims) = some ("HS256", claims)
  /-- The signature of a signed token verifies under the key that signed it. -/
  jwt_verify_encode : ∀ key claims, jwtVerify "HS256" key (jwtEncode key claims) = true
  /-- The empty string is not a compact token. -/
  jwt_decode_empty : jwtDecode "" = none
  /-- A rune whose lower case is an ASCII character other than `i` and `k` is an ASCII
  character: the only runes outside ASCII with an ASCII lower case are U+0130 and U+212A. -/
  lowerRune_of_ascii : ∀ c : Char,
    (lowerRune c).toNat < 128 → lowerRune c ≠ 'i' → lowerRune c ≠ 'k' → c.toNat < 128
  /-- Against an ASCII text without the letters `k` and `s`, whose characters fold among
  themselves only, case folding is the ASCII case mapping. -/
  equalFold_ascii : ∀ s t : String,
    (∀ c ∈ t.data, c.toNat < 128 ∧ c.toLower ≠ 'k' ∧ c.toLower ≠ 's') →
      equalFold s t = decide (s.data.map Char.toLower = t.data.map Char.toLower)
  /-- The comparison reads the key of the password only: passwords with the same key, such as
  two passwords with the same first 72 bytes, are not told apart. -/
  bcrypt_key : ∀ hash p q, bcrypt.key p = bcrypt.key q → bcryptCompare hash p = bcryptCompare hash q
  /-- A hash made at the default cost starts with the version and the cost. -/
  bcrypt_version : ∀ salt password hash,
    bcryptGenerate salt password = Except.ok hash → "$2a$10$".data.isPrefixOf hash.data = true
  /-- A hash that does not start with a dollar sign is malformed and matches no password. -/
  bcrypt_dollar : ∀ hash password, bcryptCompare hash password = true → hash.data.head? = some '$'

namespace strings

/-- The function `strings.ToLower`. -/
def ToLower (L : Lib) (s : String) : String := String.mk (s.data.map L.lowerRune)

end strings

/-- The external libraries with what their outputs look like: a digest is written in 64
hexadecimal digits and a signed token in three segments joined by dots, so the digest of
a signed token is never that token. -/
structure LibFormat extends Lib where
  /-- The digest of a signed token is not the token. -/
  digest_ne_token : ∀ key claims, sha256Hex (jwtEncode key claims) ≠ jwtEncode key claims

/-- The external libraries with bcrypt as the password hash it is designed to be: no
password is its own hash, and under one salt passwords with different keys have different
digests. Neither a fixed point nor a collision of bcrypt is known; the two facts are
cryptographic assumptions, kept apart from `Lib`. -/
structure LibIdeal extends Lib where
  /-- The hash of a password is not the password. -/
  bcrypt_differs : ∀ salt password hash,
    bcryptGenerate salt password = Except.ok hash → hash ≠ password
  /-- A password whose key differs from that of the hashed one does not match the hash. -/
  bcrypt_rejects : ∀ salt p q hash,
    bcryptGenerate salt p = Except.ok hash → bcrypt.key q ≠ bcrypt.key p →
      bcryptCompare hash q = false

namespace base64

/-- The alphabet of `base64.RawURLEncoding`. -/
def alphabet : List Char :=
  "ABCDEFGHIJKLMNOPQRSTUVWXYZabcdefghijklmnopqrstuvwxyz0123456789-_".data

/-- The character of a six-bit value. -/
def digit (n : Nat) : Char := alphabet.getD (n % 64) 'A'

/-- Unpadded base64 of a list of bytes, three bytes to four characters. -/
def encodeBytes : List Nat → List Char
  | a :: b :: c :: rest =>
      digit (a / 4) :: digit (a % 4 * 16 + b / 16) :: digit (b % 16 * 4 + c / 64) ::
        digit (c % 64) :: encodeBytes rest
  | [a, b] => [digit (a / 4), digit (a % 4 * 16 + b / 16), digit (b % 16 * 4)]
  | [a] => [digit (a / 4), digit (a % 4 * 16)]
  | [] => []

/-- The call `base64.RawURLEncoding.EncodeToString`. -/
def RawURLEncoding (bytes : List Nat) : String := String.mk (encodeBytes bytes)

end base64

namespace jwt

/-- The call `jwt.ParseWithClaims(token, claims, keyFunc)` of golang-jwt, read at clock
time `now`: split and decode the token, ask `keyFunc` for the key of the header's method,
check the signature, then validate `exp` and `nbf`. It returns the decoded claims exactly
when the library returns a token with `Valid` set and a nil error. -/
def ParseWithClaims (L : Lib) (now : Time) (token : String)
    (keyFunc : String → Except GoError String) : Except GoError Claims :=
  match L.jwtDecode token with
  | none => Except.error (GoError.external "token is malformed")
  | some (alg, claims) =>
    match keyFunc alg with
    | Except.error err => Except.error (GoError.wrap "token is unverifiable" err)
    | Except.ok key =>
      if L.jwtVerify alg key token = false then
        Except.error (GoError.external "token signature is invalid")
      else if claims.exp.any (fun exp => decide (NumericDate.Time exp ≤ now)) then
        Except.error (GoError.external "token has invalid claims: token is expired")
      else if claims.nbf.any (fun nbf => decide (now < NumericDate.Time nbf)) then
        Except.error (GoError.external "token has invalid claims: token is not valid yet")
      else Except.ok claims

end jwt

/-! ## Data model (`internal/models`) -/

namespace models

/-- The string type `Role`. -/
abbrev Role := String

def RoleAdmin : Role := "admin"

def RoleAuthor : Role := "author"

def RoleReader : Role := "reader"

/-- The string type `PostStatus`. -/
abbrev PostStatus := String

def PostStatusDraft : PostStatus := "draft"

def PostStatusPublished : PostStatus := "published"

/-- A row of table `posts`. -/
structure Post where
  ID : String
  AuthorID : String
  Title : String
  Content : String
  Status : PostStatus
  CreatedAt : Time
  UpdatedAt : Time
  deriving DecidableEq, Repr

/-- A row of table `users`. -/
structure User where
  ID : String
  Email : String
  PasswordHash : String
  Role : Role
  CreatedAt : Time
  UpdatedAt : Time
  deriving DecidableEq, Repr

/-- A row of table `refresh_tokens`; `RevokedAt` is a nullable column. -/
structure RefreshToken where
  ID : String
  UserID : String
  TokenHash : String
  ExpiresAt : Time
  RevokedAt : Option Time
  CreatedAt : Time
  deriving DecidableEq, Repr

/-- A row of table `password_reset_tokens`; `UsedAt` is a nullable column. -/
structure PasswordResetToken where
  ID : String
  UserID : String
  TokenHash : String
  ExpiresAt : Time
  UsedAt : Option Time
  CreatedAt : Time
  deriving DecidableEq, Repr

end models

/-! ## The store -/

/-- The state of the database: the rows of the three tables of the credential engine, and
those of table `posts`, empty unless given. -/
structure DB where
  users : List models.User
  refresh_tokens : List models.RefreshToken
  password_reset_tokens : List models.PasswordResetToken
  posts : List models.Post := []
  deriving DecidableEq, Repr

namespace gorm

/-- The query `... ORDER BY id LIMIT 1` behind `First`: of the rows that matched, the one
with the least primary key, if any row matched. Keys are compared as texts, character by
character. -/
def First {α : Type} (key : α → String) : List α → Option α
  | [] => none
  | r :: rs =>
    match First key rs with
    | none => some r
    | some best => if (key best).data < (key r).data then some best else some r

/-- The error PostgreSQL reports when an insert breaks a unique constraint. -/
def uniqueViolation (constraint : String) : GoError :=
  GoError.external
    ("ERROR: duplicate key value violates unique constraint \"" ++ constraint ++
      "\" (SQLSTATE 23505)")

/-- The primary key of a new row: the one given, or when it is empty the column default
`gen_random_uuid()`, whose outcome is `uuid`. -/
def newID (given uuid : String) : String := if given = "" then uuid else given

/-- The call `db.Create(user)` on table `users`: the primary key and the email are unique;
GORM stamps the creation and update times. Returns the row as written back. -/
def CreateUser (uuid : String) (now : Time) (user : models.User) (db : DB) :
    Except GoError models.User × DB :=
  let row : models.User :=
    { user with ID := newID user.ID uuid, CreatedAt := now, UpdatedAt := now }
  if db.users.any (fun u => decide (u.ID = row.ID)) then
    (Except.error (uniqueViolation "users_pkey"), db)
  else if db.users.any (fun u => decide (u.Email = row.Email)) then
    (Except.error (uniqueViolation "idx_users_email"), db)
  else (Except.ok row, { db with users := db.users ++ [row] })

/-- The call `db.Create(token)` on table `refresh_tokens`. -/
def CreateRefreshToken (uuid : String) (now : Time) (token : models.RefreshToken) (db : DB) :
    Except GoError models.RefreshToken × DB :=
  let row : models.RefreshToken := { token with ID := newID token.ID uuid, CreatedAt := now }
  if db.refresh_tokens.any (fun r => decide (r.ID = row.ID)) then
    (Except.error (uniqueViolation "refresh_tokens_pkey"), db)
  else (Except.ok row, { db with refresh_tokens := db.refresh_tokens ++ [row] })

/-- The call `db.Create(token)` on table `password_reset_tokens`. -/
def CreatePasswordResetToken (uuid : String) (now : Time) (token : models.PasswordResetToken)
    (db : DB) : Except GoError models.PasswordResetToken × DB :=
  let row : models.PasswordResetToken :=
    { token with ID := newID token.ID uuid, CreatedAt := now }
  if db.password_reset_tokens.any (fun r => decide (r.ID = row.ID)) then
    (Except.error (uniqueViolation "password_reset_tokens_pkey"), db)
  else (Except.ok row, { db with password_reset_tokens := db.password_reset_tokens ++ [row] })

/-- The statement `Model(..).Where(..).Updates(..)`: every row that matches is rewritten;
the second component is `RowsAffected`. -/
def Updates {α : Type} (matches_ : α → Bool) (set : α → α) (rows : List α) : List α × Nat :=
  (rows.map (fun r => if matches_ r then set r else r), (rows.filter matches_).length)

/-- The call `db.Create(post)` on table `posts`: the primary key is unique; GORM stamps the
creation and update times. Returns the row as written back. -/
def CreatePost (uuid : String) (now : Time) (post : models.Post) (db : DB) :
    Except GoError models.Post × DB :=
  let row : models.Post :=
    { post with ID := newID post.ID uuid, CreatedAt := now, UpdatedAt := now }
  if db.posts.any (fun p => decide (p.ID = row.ID)) then
    (Except.error (uniqueViolation "posts_pkey"), db)
  else (Except.ok row, { db with posts := db.posts ++ [row] })

/-- The statement `Where(..).Delete(..)`: every row that matches is removed; the second
component is `RowsAffected`. -/
def Delete {α : Type} (matches_ : α → Bool) (rows : List α) : List α × Nat :=
  (rows.filter (fun r => !matches_ r), (rows.filter matches_).length)

end gorm

/-! ## Repositories (`internal/repository`) -/

namespace repository

/-- Modelled from the spec: the sentinel error `ErrNotFound` of package `repository`, whose
declaration is not among the source files; the store fails `NotFound` when the row asked
for is absent. Its message text is not known and plays no part. -/
def ErrNotFound : GoError := GoError.repoErrNotFound

/-- Modelled from the spec: the sentinel error `ErrDuplicate` of package `repository`, whose
declaration is not among the source files; the store fails `Duplicate` on a uniqueness
conflict. Its message text is not known and plays no part. -/
def ErrDuplicate : GoError := GoError.repoErrDuplicate

namespace GormUserRepository

def Create (L : Lib) (uuid : String) (now : Time) (user : models.User) (db : DB) :
    Except GoError models.User × DB :=
  match gorm.CreateUser uuid now user db with
  | (Except.error err, db1) =>
    if strings.Contains (strings.ToLower L err.Error) "duplicate" ||
        strings.Contains (strings.ToLower L err.Error) "unique" then
      (Except.error (GoError.wrap "create user" ErrDuplicate), db1)
    else (Except.error (GoError.wrap "create user" err), db1)
  | (Except.ok row, db1) => (Except.ok row, db1)

def GetByEmail (L : Lib) (email : String) (db : DB) : Except GoError models.User :=
  match gorm.First models.User.ID
      (db.users.filter
        (fun u => decide (u.Email = strings.ToLower L (strings.TrimSpace email)))) with
  | none => Except.error ErrNotFound
  | some user => Except.ok user

def GetByID (id : String) (db : DB) : Except GoError models.User :=
  match gorm.First models.User.ID (db.users.filter (fun u => decide (u.ID = id))) with
  | none => Except.error ErrNotFound
  | some user => Except.ok user

def UpdatePasswordHash (now : Time) (id passwordHash : String) (db : DB) :
    Option GoError × DB :=
  let result := gorm.Updates (fun u : models.User => decide (u.ID = id))
    (fun u => { u with PasswordHash := passwordHash, UpdatedAt := now }) db.users
  if result.2 = 0 then (some ErrNotFound, { db with users := result.1 })
  else (none, { db with users := result.1 })

def UpdateRole (now : Time) (id : String) (role : models.Role) (db : DB) : Option GoError × DB :=
  let result := gorm.Updates (fun u : models.User => decide (u.ID = id))
    (fun u => { u with Role := role, UpdatedAt := now }) db.users
  if result.2 = 0 then (some ErrNotFound, { db with users := result.1 })
  else (none, { db with users := result.1 })

end GormUserRepository

namespace GormRefreshTokenRepository

def Create (uuid : String) (now : Time) (token : models.RefreshToken) (db : DB) :
    Option GoError × DB :=
  match gorm.CreateRefreshToken uuid now token db with
  | (Except.error err, db1) => (some (GoError.wrap "create refresh token" err), db1)
  | (Except.ok _, db1) => (none, db1)

def GetActiveByHash (now : Time) (tokenHash : String) (db : DB) :
    Except GoError models.RefreshToken :=
  match gorm.First models.RefreshToken.ID
      (db.refresh_tokens.filter
        (fun t => decide (t.TokenHash = tokenHash) && t.RevokedAt.isNone &&
          decide (t.ExpiresAt > now))) with
  | none => Except.error ErrNotFound
  | some token => Except.ok token

def RevokeByHash (now : Time) (tokenHash : String) (db : DB) : Option GoError × DB :=
  let result := gorm.Updates
    (fun t : models.RefreshToken => decide (t.TokenHash = tokenHash) && t.RevokedAt.isNone)
    (fun t => { t with RevokedAt := some now }) db.refresh_tokens
  if result.2 = 0 then (some ErrNotFound, { db with refresh_tokens := result.1 })
  else (none, { db with refresh_tokens := result.1 })

end GormRefreshTokenRepository

namespace GormPasswordResetTokenRepository

def Create (uuid : String) (now : Time) (token : models.PasswordResetToken) (db : DB) :
    Option GoError × DB :=
  match gorm.CreatePasswordResetToken uuid now token db with
  | (Except.error err, db1) => (some (GoError.wrap "create password reset token" err), db1)
  | (Except.ok _, db1) => (none, db1)

def GetActiveByHash (now : Time) (tokenHash : String) (db : DB) :
    Except GoError models.PasswordResetToken :=
  match gorm.First models.PasswordResetToken.ID
      (db.password_reset_tokens.filter
        (fun t => decide (t.TokenHash = tokenHash) && t.UsedAt.isNone &&
          decide (t.ExpiresAt > now))) with
  | none => Except.error ErrNotFound
  | some token => Except.ok token

def MarkUsedByID (now : Time) (tokenID : String) (db : DB) : Option GoError × DB :=
  let result := gorm.Updates
    (fun t : models.PasswordResetToken => decide (t.ID = tokenID) && t.UsedAt.isNone)
    (fun t => { t with UsedAt := some now }) db.password_reset_tokens
  if result.2 = 0 then (some ErrNotFound, { db with password_reset_tokens := result.1 })
  else (none, { db with password_reset_tokens := result.1 })

end GormPasswordResetTokenRepository

/-- The map `updates` handed to `Update` by the post service: its keys are among `title`,
`content` and `status`; a key that is absent is `none`. -/
structure PostUpdates where
  title : Option String
  content : Option String
  status : Option models.PostStatus
  deriving DecidableEq, Repr

/-- The number of keys of the map, `len(updates)`. -/
def PostUpdates.len (updates : PostUpdates) : Nat :=
  (if updates.title.isSome then 1 else 0) + (if updates.content.isSome then 1 else 0) +
    (if updates.status.isSome then 1 else 0)

namespace GormPostRepository

def Create (uuid : String) (now : Time) (post : models.Post) (db : DB) :
    Except GoError models.Post × DB :=
  match gorm.CreatePost uuid now post db with
  | (Except.error err, db1) => (Except.error (GoError.wrap "create post" err), db1)
  | (Except.ok row, db1) => (Except.ok row, db1)

def GetByID (id : String) (db : DB) : Except GoError models.Post :=
  match gorm.First models.Post.ID (db.posts.filter (fun p => decide (p.ID = id))) with
  | none => Except.error ErrNotFound
  | some post => Except.ok post

def Update (now : Time) (id : String) (updates : PostUpdates) (db : DB) : Option GoError × DB :=
  if updates.len = 0 then (none, db)
  else
    let result := gorm.Updates (fun p : models.Post => decide (p.ID = id))
      (fun p =>
        { p with
          Title := updates.title.getD p.Title, Content := updates.content.getD p.Content,
          Status := updates.status.getD p.Status, UpdatedAt := now })
      db.posts
    if result.2 = 0 then (some ErrNotFound, { db with posts := result.1 })
    else (none, { db with posts := result.1 })

def Delete (id : String) (db : DB) : Option GoError × DB :=
  let result := gorm.Delete (fun p : models.Post => decide (p.ID = id)) db.posts
  if result.2 = 0 then (some ErrNotFound, { db with posts := result.1 })
  else (none, { db with posts := result.1 })

end GormPostRepository

end repository

/-! ## Secret hasher and token codec (`internal/auth`) -/

namespace bcrypt

/-- The call `bcrypt.GenerateFromPassword(password, bcrypt.DefaultCost)`: a 16-byte salt is
drawn from the entropy source, then the password is hashed under it. -/
def GenerateFromPassword (L : Lib) (rand : Entropy) (password : String) :
    Except GoError String :=
  match rand.Read 16 with
  | none => Except.error (GoError.external "entropy source failed")
  | some salt => L.bcryptGenerate salt password

end bcrypt

namespace auth

def TokenTypeAccess : String := "access"

def TokenTypeRefresh : String := "refresh"

def ErrInvalidToken : GoError := GoError.authErrInvalidToken

/-- The struct `AccessClaims`, with the fields of the embedded `jwt.RegisteredClaims` that
the JSON claim set carries. -/
structure AccessClaims where
  Role : String
  TokenType : String
  Subject : String
  IssuedAt : Option Int
  ExpiresAt : Option Int
  NotBefore : Option Int
  ID : String
  deriving DecidableEq, Repr

/-- The struct `RefreshClaims`. -/
structure RefreshClaims where
  TokenType : String
  Subject : String
  IssuedAt : Option Int
  ExpiresAt : Option Int
  NotBefore : Option Int
  ID : String
  deriving DecidableEq, Repr

/-- JSON encoding of `AccessClaims`: member `role` is always written. -/
def AccessClaims.toJSON (c : AccessClaims) : jwt.Claims :=
  { role := some c.Role, token_type := c.TokenType, sub := c.Subject, iat := c.IssuedAt,
    exp := c.ExpiresAt, nbf := c.NotBefore, jti := c.ID }

/-- JSON decoding into `AccessClaims`: an absent `role` leaves the zero value. -/
def AccessClaims.ofJSON (j : jwt.Claims) : AccessClaims :=
  { Role := j.role.getD "", TokenType := j.token_type, Subject := j.sub, IssuedAt := j.iat,
    ExpiresAt := j.exp, NotBefore := j.nbf, ID := j.jti }

/-- JSON encoding of `RefreshClaims`: there is no member `role`. -/
def RefreshClaims.toJSON (c : RefreshClaims) : jwt.Claims :=
  { role := none, token_type := c.TokenType, sub := c.Subject, iat := c.IssuedAt,
    exp := c.ExpiresAt, nbf := c.NotBefore, jti := c.ID }

/-- JSON decoding into `RefreshClaims`: unknown members are ignored. -/
def RefreshClaims.ofJSON (j : jwt.Claims) : RefreshClaims :=
  { TokenType := j.token_type, Subject := j.sub, IssuedAt := j.iat, ExpiresAt := j.exp,
    NotBefore := j.nbf, ID := j.jti }

structure TokenManager where
  accessSecret : String
  refreshSecret : String
  accessTTL : Int
  refreshTTL : Int

def NewTokenManager (accessSecret refreshSecret : String) (accessTTL refreshTTL : Int) :
    TokenManager :=
  { accessSecret := accessSecret, refreshSecret := refreshSecret, accessTTL := accessTTL,
    refreshTTL := refreshTTL }

/-- What `generateTokenID` takes from the environment: one entropy read, and the clock
reading used when that read fails. -/
structure TokenIDEnv where
  rand : Entropy
  now : Time

def generateTokenID (env : TokenIDEnv) : String :=
  match env.rand.Read 18 with
  | none => toString env.now
  | some bytes => base64.RawURLEncoding bytes

/-- The token and its expiry; `now` is the reading of `time.Now()`. -/
def TokenManager.GenerateAccessToken (L : Lib) (m : TokenManager) (now : Time)
    (idEnv : TokenIDEnv) (userID role : String) : Except GoError (String × Time) :=
  let expiresAt := now + m.accessTTL
  let claims : AccessClaims :=
    { Role := role, TokenType := TokenTypeAccess, Subject := userID,
      IssuedAt := some (jwt.NewNumericDate now),
      ExpiresAt := some (jwt.NewNumericDate expiresAt), NotBefore := none,
      ID := generateTokenID idEnv }
  Except.ok (L.jwtEncode m.accessSecret claims.toJSON, expiresAt)

/-- The token, its token id and its expiry. -/
def TokenManager.GenerateRefreshToken (L : Lib) (m : TokenManager) (now : Time)
    (idEnv : TokenIDEnv) (userID : String) : Except GoError (String × String × Time) :=
  let expiresAt := now + m.refreshTTL
  let tokenID := generateTokenID idEnv
  let claims : RefreshClaims :=
    { TokenType := TokenTypeRefresh, Subject := userID,
      IssuedAt := some (jwt.NewNumericDate now),
      ExpiresAt := some (jwt.NewNumericDate expiresAt), NotBefore := none, ID := tokenID }
  Except.ok (L.jwtEncode m.refreshSecret claims.toJSON, tokenID, expiresAt)

/-- The key function handed to `jwt.ParseWithClaims`: only HS256 is admitted. -/
def keyFunc (secret : String) (alg : String) : Except GoError String :=
  if alg ≠ "HS256" then Except.error ErrInvalidToken else Except.ok secret

def TokenManager.ParseAccessToken (L : Lib) (m : TokenManager) (now : Time) (token : String) :
    Except GoError AccessClaims :=
  match jwt.ParseWithClaims L now token (keyFunc m.accessSecret) with
  | Except.error _ => Except.error ErrInvalidToken
  | Except.ok json =>
    let parsedClaims := AccessClaims.ofJSON json
    if parsedClaims.TokenType ≠ TokenTypeAccess then Except.error ErrInvalidToken
    else if parsedClaims.Subject = "" || parsedClaims.Role = "" then
      Except.error ErrInvalidToken
    else Except.ok parsedClaims

def TokenManager.ParseRefreshToken (L : Lib) (m : TokenManager) (now : Time) (token : String) :
    Except GoError RefreshClaims :=
  match jwt.ParseWithClaims L now token (keyFunc m.refreshSecret) with
  | Except.error _ => Except.error ErrInvalidToken
  | Except.ok json =>
    let parsedClaims := RefreshClaims.ofJSON json
    if parsedClaims.TokenType ≠ TokenTypeRefresh then Except.error ErrInvalidToken
    else if parsedClaims.Subject = "" || parsedClaims.ID = "" then
      Except.error ErrInvalidToken
    else Except.ok parsedClaims

def GenerateRandomToken (rand : Entropy) (length : Int) : Except GoError String :=
  let length := if length ≤ 0 then 32 else length
  match rand.Read length.toNat with
  | none =>
    Except.error (GoError.wrap "generate random token" (GoError.external "entropy source failed"))
  | some bytes => Except.ok (base64.RawURLEncoding bytes)

def HashPassword (L : Lib) (rand : Entropy) (password : String) : Except GoError String :=
  match bcrypt.GenerateFromPassword L rand password with
  | Except.error err => Except.error (GoError.wrap "hash password" err)
  | Except.ok hash => Except.ok hash

def VerifyPassword (L : Lib) (hash password : String) : Bool :=
  L.bcryptCompare hash password

def HashToken (L : Lib) (raw : String) : String := L.sha256Hex raw

end auth

namespace email

structure Message where
  To : String
  Subject : String
  Body : String
  deriving DecidableEq, Repr

end email

/-! ## Credential lifecycle engine (`internal/service/auth_service.go`) -/

namespace service

open repository

def ErrValidation : GoError := GoError.svcErrValidation

def ErrInvalidCredentials : GoError := GoError.svcErrInvalidCredentials

def ErrEmailAlreadyUsed : GoError := GoError.svcErrEmailAlreadyUsed

def ErrInvalidToken : GoError := GoError.svcErrInvalidToken

def ErrUserNotFound : GoError := GoError.svcErrUserNotFound

structure RegisterInput where
  Email : String
  Password : String

structure LoginInput where
  Email : String
  Password : String

structure RefreshInput where
  RefreshToken : String

structure LogoutInput where
  RefreshToken : String

structure RequestResetInput where
  Email : String

structure ConfirmResetInput where
  Token : String
  NewPassword : String

structure RegisteredUser where
  ID : String
  Email : String
  Role : models.Role
  deriving DecidableEq, Repr

structure TokenPair where
  AccessToken : String
  RefreshToken : String
  TokenType : String
  AccessExpiresAt : Time
  RefreshExpiresAt : Time
  deriving DecidableEq, Repr

/-- The fields of `AuthService` that are data; its repositories are the GORM repositories
over the store, its mail sender and logger belong to the environment. -/
structure AuthService where
  tokenManager : auth.TokenManager
  defaultRole : models.Role
  passwordResetTTL : Int
  frontendBaseURL : String

def NewAuthService (tokenManager : auth.TokenManager) (passwordResetTTL : Int)
    (frontendBaseURL : String) : AuthService :=
  { tokenManager := tokenManager, defaultRole := models.RoleAuthor,
    passwordResetTTL := passwordResetTTL,
    frontendBaseURL := strings.TrimRight frontendBaseURL "/" }

def normalizeEmail (L : Lib) (email : String) : String :=
  strings.ToLower L (strings.TrimSpace email)

def isValidEmail (email : String) : Bool :=
  strings.Contains email "@" && decide (strings.len email ≥ 5)

/-- What one run of `issueTokenPair` takes from the environment: the clock reading and the
token-id source of each of the two tokens, and the primary key and creation stamp the
database gives the new refresh row. -/
structure IssueEnv where
  accessNow : Time
  accessID : auth.TokenIDEnv
  refreshNow : Time
  refreshID : auth.TokenIDEnv
  rowID : String
  rowNow : Time

def AuthService.issueTokenPair (L : Lib) (s : AuthService) (env : IssueEnv)
    (userID role : String) (db : DB) : Except GoError TokenPair × DB :=
  match s.tokenManager.GenerateAccessToken L env.accessNow env.accessID userID role with
  | Except.error err => (Except.error (GoError.wrap "generate access token" err), db)
  | Except.ok (accessToken, accessExpiresAt) =>
    match s.tokenManager.GenerateRefreshToken L env.refreshNow env.refreshID userID with
    | Except.error err => (Except.error (GoError.wrap "generate refresh token" err), db)
    | Except.ok (refreshToken, _, refreshExpiresAt) =>
      match GormRefreshTokenRepository.Create env.rowID env.rowNow
          { ID := "", UserID := userID, TokenHash := auth.HashToken L refreshToken,
            ExpiresAt := refreshExpiresAt, RevokedAt := none, CreatedAt := 0 } db with
      | (some err, db1) => (Except.error (GoError.wrap "store refresh token" err), db1)
      | (none, db1) =>
        (Except.ok
          { AccessToken := accessToken, RefreshToken := refreshToken, TokenType := "Bearer",
            AccessExpiresAt := accessExpiresAt, RefreshExpiresAt := refreshExpiresAt }, db1)

/-- Environment of `Register`: the salt source of the password hash, the primary key and
time stamp of the new user row, and the environment of the token issue. -/
structure RegisterEnv where
  hashRand : Entropy
  userID : String
  userNow : Time
  issue : IssueEnv

def AuthService.Register (L : Lib) (s : AuthService) (env : RegisterEnv)
    (input : RegisterInput) (db : DB) : Except GoError (RegisteredUser × TokenPair) × DB :=
  let email := normalizeEmail L input.Email
  if !isValidEmail email || decide (strings.len input.Password < 8) then
    (Except.error (GoError.wrap "register input invalid" ErrValidation), db)
  else
    match GormUserRepository.GetByEmail L email db with
    | Except.ok _ => (Except.error ErrEmailAlreadyUsed, db)
    | Except.error err =>
      if !errors.Is err ErrNotFound then
        (Except.error (GoError.wrap "check existing user" err), db)
      else
        match auth.HashPassword L env.hashRand input.Password with
        | Except.error err => (Except.error (GoError.wrap "hash password" err), db)
        | Except.ok hashedPassword =>
          match GormUserRepository.Create L env.userID env.userNow
              { ID := "", Email := email, PasswordHash := hashedPassword,
                Role := s.defaultRole, CreatedAt := 0, UpdatedAt := 0 } db with
          | (Except.error err, db1) =>
            if errors.Is err ErrDuplicate then (Except.error ErrEmailAlreadyUsed, db1)
            else (Except.error (GoError.wrap "create user" err), db1)
          | (Except.ok user, db1) =>
            match s.issueTokenPair L env.issue user.ID user.Role db1 with
            | (Except.error err, db2) => (Except.error err, db2)
            | (Except.ok pair, db2) =>
              (Except.ok ({ ID := user.ID, Email := user.Email, Role := user.Role }, pair), db2)

def AuthService.Login (L : Lib) (s : AuthService) (env : IssueEnv) (input : LoginInput)
    (db : DB) : Except GoError (RegisteredUser × TokenPair) × DB :=
  let email := normalizeEmail L input.Email
  if !isValidEmail email || decide (strings.TrimSpace input.Password = "") then
    (Except.error (GoError.wrap "login input invalid" ErrValidation), db)
  else
    match GormUserRepository.GetByEmail L email db with
    | Except.error err =>
      if errors.Is err ErrNotFound then (Except.error ErrInvalidCredentials, db)
      else (Except.error (GoError.wrap "fetch user by email" err), db)
    | Except.ok user =>
      if !auth.VerifyPassword L user.PasswordHash input.Password then
        (Except.error ErrInvalidCredentials, db)
      else
        match s.issueTokenPair L env user.ID user.Role db with
        | (Except.error err, db1) => (Except.error err, db1)
        | (Except.ok pair, db1) =>
          (Except.ok ({ ID := user.ID, Email := user.Email, Role := user.Role }, pair), db1)

/-- Environment of `Refresh`: the clock as read by the token parser, by the active-record
lookup and by the revocation, and the environment of the token issue. -/
structure RefreshEnv where
  parseNow : Time
  lookupNow : Time
  revokeNow : Time
  issue : IssueEnv

/-- The method `Refresh` of `AuthService`. The service reaches its refresh-token repository
through the interface `RefreshTokenRepository`; the method `RevokeByHash` of the
implementation it was built with is the argument `revokeByHash`, a function of the clock
reading, the fingerprint and the store that returns its error and the store it leaves. The
other repository calls are those of the GORM repositories. -/
def AuthService.RefreshWith (L : Lib) (s : AuthService)
    (revokeByHash : Time → String → DB → Option GoError × DB) (env : RefreshEnv)
    (input : RefreshInput) (db : DB) : Except GoError TokenPair × DB :=
  let rawToken := strings.TrimSpace input.RefreshToken
  if rawToken = "" then
    (Except.error (GoError.wrap "refresh input invalid" ErrValidation), db)
  else
    match s.tokenManager.ParseRefreshToken L env.parseNow rawToken with
    | Except.error _ => (Except.error ErrInvalidToken, db)
    | Except.ok claims =>
      let hashed := auth.HashToken L rawToken
      match GormRefreshTokenRepository.GetActiveByHash env.lookupNow hashed db with
      | Except.error err =>
        if errors.Is err ErrNotFound then (Except.error ErrInvalidToken, db)
        else (Except.error (GoError.wrap "lookup refresh token" err), db)
      | Except.ok storedToken =>
        if storedToken.UserID ≠ claims.Subject then (Except.error ErrInvalidToken, db)
        else
          match GormUserRepository.GetByID claims.Subject db with
          | Except.error err =>
            if errors.Is err ErrNotFound then (Except.error ErrInvalidToken, db)
            else (Except.error (GoError.wrap "get user for refresh" err), db)
          | Except.ok user =>
            match revokeByHash env.revokeNow hashed db with
            | (some err, db1) =>
              if !errors.Is err ErrNotFound then
                (Except.error (GoError.wrap "revoke old refresh token" err), db1)
              else s.issueTokenPair L env.issue user.ID user.Role db1
            | (none, db1) => s.issueTokenPair L env.issue user.ID user.Role db1

/-- The method `Refresh` of an `AuthService` built with the GORM refresh-token repository. -/
def AuthService.Refresh (L : Lib) (s : AuthService) (env : RefreshEnv) (input : RefreshInput)
    (db : DB) : Except GoError TokenPair × DB :=
  s.RefreshWith L GormRefreshTokenRepository.RevokeByHash env input db

/-- Environment of `Logout`: the clock as read by the token parser and by the revocation. -/
structure LogoutEnv where
  parseNow : Time
  revokeNow : Time

def AuthService.Logout (L : Lib) (s : AuthService) (env : LogoutEnv) (input : LogoutInput)
    (db : DB) : Option GoError × DB :=
  let rawToken := strings.TrimSpace input.RefreshToken
  if rawToken = "" then (some (GoError.wrap "logout input invalid" ErrValidation), db)
  else
    match s.tokenManager.ParseRefreshToken L env.parseNow rawToken with
    | Except.error _ => (some ErrInvalidToken, db)
    | Except.ok _ =>
      let hashed := auth.HashToken L rawToken
      match GormRefreshTokenRepository.RevokeByHash env.revokeNow hashed db with
      | (some err, db1) =>
        if !errors.Is err ErrNotFound then
          (some (GoError.wrap "revoke refresh token" err), db1)
        else (none, db1)
      | (none, db1) => (none, db1)

/-- Environment of `RequestPasswordReset`: the entropy read of the raw token, the clock
reading the expiry is counted from, the primary key and creation stamp of the new reset
row, and the outcome of handing the message to the mail sender. -/
structure RequestResetEnv where
  tokenRand : Entropy
  now : Time
  rowID : String
  rowNow : Time
  sendErr : Option GoError

/-- The result, the store, and the messages handed to the mail sender. A failure of the
sender is only logged. -/
def AuthService.RequestPasswordReset (L : Lib) (s : AuthService) (env : RequestResetEnv)
    (input : RequestResetInput) (db : DB) : Option GoError × DB × List email.Message :=
  let emailAddress := normalizeEmail L input.Email
  if !isValidEmail emailAddress then
    (some (GoError.wrap "password reset request invalid" ErrValidation), db, [])
  else
    match GormUserRepository.GetByEmail L emailAddress db with
    | Except.error err =>
      if errors.Is err ErrNotFound then (none, db, [])
      else (some (GoError.wrap "lookup user for reset" err), db, [])
    | Except.ok user =>
      match auth.GenerateRandomToken env.tokenRand 32 with
      | Except.error err =>
        (some (GoError.wrap "generate password reset token" err), db, [])
      | Except.ok rawToken =>
        let hashedToken := auth.HashToken L rawToken
        let expiresAt := env.now + s.passwordResetTTL
        match GormPasswordResetTokenRepository.Create env.rowID env.rowNow
            { ID := "", UserID := user.ID, TokenHash := hashedToken, ExpiresAt := expiresAt,
              UsedAt := none, CreatedAt := 0 } db with
        | (some err, db1) => (some (GoError.wrap "store password reset token" err), db1, [])
        | (none, db1) =>
          let resetURL := s.frontendBaseURL ++ "/reset-password?token=" ++ L.queryEscape rawToken
          let message : email.Message :=
            { To := user.Email, Subject := "Password Reset Request",
              Body := "Use this link to reset your password: " ++ resetURL }
          (none, db1, [message])

/-- Environment of `ConfirmPasswordReset`: the clock as read by the active-record lookup,
the salt source of the password hash, and the clock as read by the two updates. -/
structure ConfirmResetEnv where
  lookupNow : Time
  hashRand : Entropy
  updateNow : Time
  markNow : Time

/-- The method `ConfirmPasswordReset` of `AuthService`. The service reaches its reset-token
repository through the interface `PasswordResetTokenRepository`; the method `MarkUsedByID`
of the implementation it was built with is the argument `markUsedByID`, a function of the
clock reading, the record id and the store that returns its error and the store it leaves.
The other repository calls are those of the GORM repositories. -/
def AuthService.ConfirmPasswordResetWith (L : Lib) (_s : AuthService)
    (markUsedByID : Time → String → DB → Option GoError × DB) (env : ConfirmResetEnv)
    (input : ConfirmResetInput) (db : DB) : Option GoError × DB :=
  let rawToken := strings.TrimSpace input.Token
  if rawToken = "" || decide (strings.len input.NewPassword < 8) then
    (some (GoError.wrap "password reset confirm invalid" ErrValidation), db)
  else
    let hashedToken := auth.HashToken L rawToken
    match GormPasswordResetTokenRepository.GetActiveByHash env.lookupNow hashedToken db with
    | Except.error err =>
      if errors.Is err ErrNotFound then (some ErrInvalidToken, db)
      else (some (GoError.wrap "load reset token" err), db)
    | Except.ok storedToken =>
      match auth.HashPassword L env.hashRand input.NewPassword with
      | Except.error err => (some (GoError.wrap "hash new password" err), db)
      | Except.ok hashedPassword =>
        match GormUserRepository.UpdatePasswordHash env.updateNow storedToken.UserID
            hashedPassword db with
        | (some err, db1) =>
          if errors.Is err ErrNotFound then (some ErrInvalidToken, db1)
          else (some (GoError.wrap "update password hash" err), db1)
        | (none, db1) =>
          match markUsedByID env.markNow storedToken.ID db1 with
          | (some err, db2) =>
            if errors.Is err ErrNotFound then (some ErrInvalidToken, db2)
            else (some (GoError.wrap "mark reset token used" err), db2)
          | (none, db2) => (none, db2)

/-- The method `ConfirmPasswordReset` of an `AuthService` built with the GORM reset-token
repository. -/
def AuthService.ConfirmPasswordReset (L : Lib) (s : AuthService) (env : ConfirmResetEnv)
    (input : ConfirmResetInput) (db : DB) : Option GoError × DB :=
  s.ConfirmPasswordResetWith L GormPasswordResetTokenRepository.MarkUsedByID env input db

end service

/-! ## Machine integers

A Go `int` is 64 bits wide here, as is an `int64`; the result of an addition, subtraction
or multiplication is the exact result reduced to 64 bits in two's complement, and the
quotient of a division is truncated toward zero. -/

namespace int

/-- The value of type `int` that an exact result `x` is reduced to. -/
def wrap (x : Int) : Int := (x + 2 ^ 63) % 2 ^ 64 - 2 ^ 63

/-- The values of type `int`. -/
def InRange (x : Int) : Prop := -2 ^ 63 ≤ x ∧ x < 2 ^ 63

instance (x : Int) : Decidable (InRange x) := by unfold InRange; exact inferInstance

end int

/-! ## Posts and pagination (`internal/service/post_service.go`) -/

namespace service

open repository

def ErrPostNotFound : GoError := GoError.svcErrPostNotFound

def ErrForbidden : GoError := GoError.svcErrForbidden

structure CreatePostInput where
  ActorID : String
  ActorRole : String
  Title : String
  Content : String
  Status : String
  deriving DecidableEq, Repr

/-- The input of `Update`; a nil pointer is `none`. -/
structure UpdatePostInput where
  PostID : String
  ActorID : String
  ActorRole : String
  Title : Option String
  Content : Option String
  Status : Option String
  deriving DecidableEq, Repr

structure DeletePostInput where
  PostID : String
  ActorID : String
  ActorRole : String
  deriving DecidableEq, Repr

structure ListPostsInput where
  Page : Int
  Limit : Int
  deriving DecidableEq, Repr

structure PostItem where
  ID : String
  AuthorID : String
  Title : String
  Content : String
  Status : models.PostStatus
  CreatedAt : Time
  UpdatedAt : Time
  deriving DecidableEq, Repr

structure Pagination where
  Page : Int
  Limit : Int
  Total : Int
  TotalPages : Int
  deriving DecidableEq, Repr

def toPostItem (post : models.Post) : PostItem :=
  { ID := post.ID, AuthorID := post.AuthorID, Title := post.Title, Content := post.Content,
    Status := post.Status, CreatedAt := post.CreatedAt, UpdatedAt := post.UpdatedAt }

def normalizePagination (page limit : Int) : Int × Int :=
  let page := if page ≤ 0 then 1 else page
  let limit := if limit ≤ 0 then 10 else limit
  let limit := if limit > 50 then 50 else limit
  (page, limit)

def normalizeStatus (L : Lib) (status : String) : Except GoError models.PostStatus :=
  let value := strings.ToLower L (strings.TrimSpace status)
  if value = "" then Except.ok models.PostStatusPublished
  else if value ≠ models.PostStatusDraft ∧ value ≠ models.PostStatusPublished then
    Except.error (GoError.wrap "status must be draft or published" ErrValidation)
  else Except.ok value

def canWritePosts (L : Lib) (role : String) : Bool :=
  decide (strings.ToLower L (strings.TrimSpace role) = models.RoleAdmin) ||
    decide (strings.ToLower L (strings.TrimSpace role) = models.RoleAuthor)

def canModifyPost (L : Lib) (actorRole actorID authorID : String) : Bool :=
  if L.equalFold (strings.TrimSpace actorRole) models.RoleAdmin then true
  else
    decide (strings.TrimSpace actorID ≠ "") &&
      decide (strings.TrimSpace actorID = strings.TrimSpace authorID)

/-- The expression `(page - 1) * limit` of `List` and of `ListUsers`, on values of type
`int`. -/
def pageOffset (page limit : Int) : Int := int.wrap (int.wrap (page - 1) * limit)

/-- The expression `int((total + int64(limit) - 1) / int64(limit))` of `List` and of
`ListUsers`, on values of type `int64`. -/
def totalPages (total limit : Int) : Int :=
  int.wrap (Int.tdiv (int.wrap (int.wrap (total + limit) - 1)) limit)

/-- The method `Create` of `PostService`, whose repository is the GORM repository over the
store; `uuid` and `now` are the key and the clock reading of the insert. -/
def PostService.Create (L : Lib) (uuid : String) (now : Time) (input : CreatePostInput)
    (db : DB) : Except GoError PostItem × DB :=
  if !canWritePosts L input.ActorRole then (Except.error ErrForbidden, db)
  else
    if strings.TrimSpace input.Title = "" ∨ strings.TrimSpace input.Content = "" then
      (Except.error (GoError.wrap "title and content are required" ErrValidation), db)
    else
      match normalizeStatus L input.Status with
      | Except.error err => (Except.error err, db)
      | Except.ok status =>
        match GormPostRepository.Create uuid now
            { ID := "", AuthorID := input.ActorID, Title := strings.TrimSpace input.Title,
              Content := strings.TrimSpace input.Content, Status := status, CreatedAt := 0,
              UpdatedAt := 0 } db with
        | (Except.error err, db1) => (Except.error (GoError.wrap "create post" err), db1)
        | (Except.ok post, db1) => (Except.ok (toPostItem post), db1)

def PostService.GetByID (postID : String) (db : DB) : Except GoError PostItem :=
  match GormPostRepository.GetByID (strings.TrimSpace postID) db with
  | Except.error err =>
    if errors.Is err ErrNotFound then Except.error ErrPostNotFound
    else Except.error (GoError.wrap "get post by id" err)
  | Except.ok post => Except.ok (toPostItem post)

/-- The method `List` of `PostService`; `list` is the method `List` of its repository, an
interface, taking the limit and the offset. -/
def PostService.List (list : Int → Int → Except GoError (List models.Post × Int))
    (input : ListPostsInput) : Except GoError (List PostItem × Pagination) :=
  let page := (normalizePagination input.Page input.Limit).1
  let limit := (normalizePagination input.Page input.Limit).2
  let offset := pageOffset page limit
  match list limit offset with
  | Except.error err => Except.error (GoError.wrap "list posts" err)
  | Except.ok (posts, total) =>
    Except.ok
      (posts.map toPostItem,
        { Page := page, Limit := limit, Total := total, TotalPages := totalPages total limit })

/-- The map `updates` that `Update` builds from its input, or the validation error it
returns on the way. -/
def PostService.updatesOf (L : Lib) (input : UpdatePostInput) : Except GoError PostUpdates :=
  match
    (match input.Title with
      | none => Except.ok none
      | some title =>
        if strings.TrimSpace title = "" then
          Except.error (GoError.wrap "title cannot be empty" ErrValidation)
        else Except.ok (some (strings.TrimSpace title)) : Except GoError (Option String)) with
  | Except.error err => Except.error err
  | Except.ok title =>
    match
      (match input.Content with
        | none => Except.ok none
        | some content =>
          if strings.TrimSpace content = "" then
            Except.error (GoError.wrap "content cannot be empty" ErrValidation)
          else Except.ok (some (strings.TrimSpace content)) :
        Except GoError (Option String)) with
    | Except.error err => Except.error err
    | Except.ok content =>
      match
        (match input.Status with
          | none => Except.ok none
          | some status =>
            match normalizeStatus L status with
            | Except.error err => Except.error err
            | Except.ok status => Except.ok (some status) :
          Except GoError (Option models.PostStatus)) with
      | Except.error err => Except.error err
      | Except.ok status =>
        if PostUpdates.len { title := title, content := content, status := status } = 0 then
          Except.error (GoError.wrap "no update fields provided" ErrValidation)
        else Except.ok { title := title, content := content, status := status }

/-- The method `Update` of `PostService`; `updateNow` is the clock as read by the update. -/
def PostService.Update (L : Lib) (updateNow : Time) (input : UpdatePostInput) (db : DB) :
    Except GoError PostItem × DB :=
  if !canWritePosts L input.ActorRole then (Except.error ErrForbidden, db)
  else
    match GormPostRepository.GetByID (strings.TrimSpace input.PostID) db with
    | Except.error err =>
      if errors.Is err ErrNotFound then (Except.error ErrPostNotFound, db)
      else (Except.error (GoError.wrap "get existing post" err), db)
    | Except.ok post =>
      if !canModifyPost L input.ActorRole input.ActorID post.AuthorID then
        (Except.error ErrForbidden, db)
      else
        match PostService.updatesOf L input with
        | Except.error err => (Except.error err, db)
        | Except.ok updates =>
          match GormPostRepository.Update updateNow post.ID updates db with
          | (some err, db1) =>
            if errors.Is err ErrNotFound then (Except.error ErrPostNotFound, db1)
            else (Except.error (GoError.wrap "update post" err), db1)
          | (none, db1) =>
            match GormPostRepository.GetByID post.ID db1 with
            | Except.error err =>
              if errors.Is err ErrNotFound then (Except.error ErrPostNotFound, db1)
              else (Except.error (GoError.wrap "reload updated post" err), db1)
            | Except.ok updated => (Except.ok (toPostItem updated), db1)

def PostService.Delete (L : Lib) (input : DeletePostInput) (db : DB) : Option GoError × DB :=
  if !canWritePosts L input.ActorRole then (some ErrForbidden, db)
  else
    match GormPostRepository.GetByID (strings.TrimSpace input.PostID) db with
    | Except.error err =>
      if errors.Is err ErrNotFound then (some ErrPostNotFound, db)
      else (some (GoError.wrap "get existing post" err), db)
    | Except.ok post =>
      if !canModifyPost L input.ActorRole input.ActorID post.AuthorID then
        (some ErrForbidden, db)
      else
        match GormPostRepository.Delete post.ID db with
        | (some err, db1) =>
          if errors.Is err ErrNotFound then (some ErrPostNotFound, db1)
          else (some (GoError.wrap "delete post" err), db1)
        | (none, db1) => (none, db1)

end service

/-! ## Role changes and the list of users (`internal/service/admin_service.go`) -/

namespace service

open repository

structure UserSummary where
  ID : String
  Email : String
  Role : models.Role
  deriving DecidableEq, Repr

def normalizeRole (L : Lib) (role : String) : Except GoError models.Role :=
  let value := strings.ToLower L (strings.TrimSpace role)
  if value = models.RoleAdmin ∨ value = models.RoleAuthor ∨ value = models.RoleReader then
    Except.ok value
  else Except.error (GoError.wrap "role must be admin, author, or reader" ErrValidation)

/-- The method `ListUsers` of `AdminService`; `list` and `count` are the methods `List` and
`Count` of its user repository, an interface. -/
def AdminService.ListUsers (list : Int → Int → Except GoError (List models.User))
    (count : Except GoError Int) (page limit : Int) :
    Except GoError (List UserSummary × Pagination) :=
  let page1 := (normalizePagination page limit).1
  let limit1 := (normalizePagination page limit).2
  let offset := pageOffset page1 limit1
  match list limit1 offset with
  | Except.error err => Except.error (GoError.wrap "list users" err)
  | Except.ok users =>
    match count with
    | Except.error err => Except.error (GoError.wrap "count users" err)
    | Except.ok total =>
      Except.ok
        (users.map (fun user => { ID := user.ID, Email := user.Email, Role := user.Role }),
          { Page := page1, Limit := limit1, Total := total,
            TotalPages := totalPages total limit1 })

/-- The method `UpdateUserRole` of `AdminService`, whose user repository is the GORM
repository over the store; `updateNow` is the clock as read by the update. -/
def AdminService.UpdateUserRole (L : Lib) (updateNow : Time) (userID role : String) (db : DB) :
    Except GoError UserSummary × DB :=
  match normalizeRole L role with
  | Except.error err => (Except.error err, db)
  | Except.ok normalizedRole =>
    if strings.TrimSpace userID = "" then
      (Except.error (GoError.wrap "user id is required" ErrValidation), db)
    else
      match GormUserRepository.UpdateRole updateNow userID normalizedRole db with
      | (some err, db1) =>
        if errors.Is err ErrNotFound then (Except.error ErrUserNotFound, db1)
        else (Except.error (GoError.wrap "update user role" err), db1)
      | (none, db1) =>
        match GormUserRepository.GetByID userID db1 with
        | Except.error err =>
          if errors.Is err ErrNotFound then (Except.error ErrUserNotFound, db1)
          else (Except.error (GoError.wrap "load updated user" err), db1)
        | Except.ok user =>
          (Except.ok { ID := user.ID, Email := user.Email, Role := user.Role }, db1)

end service

/-! ## Strings as bytes

A Go string is a sequence of bytes. The texts of the service layer are well-formed UTF-8
and are modelled by `String`; the value of a request header is whatever bytes the client
sent, and is modelled by the list of its bytes. The functions of packages `unicode/utf8`
and `strings` below are those of the Go library, on such lists. -/

namespace utf8

def RuneError : Nat := 0xFFFD

def RuneSelf : Nat := 0x80

/-- The function `utf8.DecodeRuneInString`: the first rune of `p` and its width in bytes; an
ill-formed or incomplete sequence yields `RuneError` with width 1, the empty string
`RuneError` with width 0. Overlong forms, surrogates and values above `0x10FFFF` are ill
formed. -/
def DecodeRune (p : List Nat) : Nat × Nat :=
  match p with
  | [] => (RuneError, 0)
  | s0 :: rest =>
    if s0 < 0x80 then (s0, 1)
    else if s0 < 0xC2 ∨ 0xF4 < s0 then (RuneError, 1)
    else
      let lo := if s0 = 0xE0 then 0xA0 else if s0 = 0xF0 then 0x90 else 0x80
      let hi := if s0 = 0xED then 0x9F else if s0 = 0xF4 then 0x8F else 0xBF
      match rest with
      | [] => (RuneError, 1)
      | s1 :: rest1 =>
        if s1 < lo ∨ hi < s1 then (RuneError, 1)
        else if s0 < 0xE0 then (s0 % 32 * 64 + s1 % 64, 2)
        else
          match rest1 with
          | [] => (RuneError, 1)
          | s2 :: rest2 =>
            if s2 < 0x80 ∨ 0xBF < s2 then (RuneError, 1)
            else if s0 < 0xF0 then (s0 % 16 * 4096 + s1 % 64 * 64 + s2 % 64, 3)
            else
              match rest2 with
              | [] => (RuneError, 1)
              | s3 :: _ =>
                if s3 < 0x80 ∨ 0xBF < s3 then (RuneError, 1)
                else (s0 % 8 * 262144 + s1 % 64 * 4096 + s2 % 64 * 64 + s3 % 64, 4)

/-- The function `utf8.RuneStart`: the byte is not a continuation byte. -/
def RuneStart (b : Nat) : Bool := b / 64 % 4 ≠ 2

/-- The function `utf8.DecodeLastRuneInString`: the last rune of `p` and its width. The
start of the rune is looked for among the up to three bytes before the last one. -/
def DecodeLastRune (p : List Nat) : Nat × Nat :=
  match p.getLast? with
  | none => (RuneError, 0)
  | some last =>
    if last < RuneSelf then (last, 1)
    else
      let n := p.length
      let start :=
        if 2 ≤ n ∧ RuneStart (p.getD (n - 2) 0) then n - 2
        else if 3 ≤ n ∧ RuneStart (p.getD (n - 3) 0) then n - 3
        else if 4 ≤ n ∧ RuneStart (p.getD (n - 4) 0) then n - 4
        else n - 5
      let decoded := DecodeRune (p.drop start)
      if start + decoded.2 ≠ n then (RuneError, 1) else decoded

/-- The runes met by `for _, r := range s`, read off the first `fuel` bytes at most; each step
consumes at least one byte. -/
def rangeRunes : Nat → List Nat → List Nat
  | 0, _ => []
  | _ + 1, [] => []
  | fuel + 1, s0 :: rest =>
    (DecodeRune (s0 :: rest)).1 :: rangeRunes fuel (rest.drop ((DecodeRune (s0 :: rest)).2 - 1))

/-- The text held by a sequence of bytes, when the sequence is well-formed UTF-8. -/
def text? : Nat → List Nat → Option (List Char)
  | 0, _ => some []
  | _ + 1, [] => some []
  | fuel + 1, s0 :: rest =>
    if (DecodeRune (s0 :: rest)).1 = RuneError ∧ (DecodeRune (s0 :: rest)).2 = 1 then none
    else
      (text? fuel (rest.drop ((DecodeRune (s0 :: rest)).2 - 1))).map
        (fun cs => Char.ofNat (DecodeRune (s0 :: rest)).1 :: cs)

/-- The conversion of bytes to a text; none when the bytes are not well-formed UTF-8. -/
def toString? (p : List Nat) : Option String := (text? p.length p).map String.mk

end utf8

namespace strings

namespace bytes

/-- The function `strings.HasPrefix`. -/
def HasPrefix (s pre : List Nat) : Bool := pre.isPrefixOf s

/-- The function `strings.Map` with a mapping that never drops a rune: every rune of the
string, an ill-formed byte counting as `RuneError`, is replaced by the encoding of its
image. -/
def Map (mapping : Nat → Nat) (s : List Nat) : List Nat :=
  (utf8.rangeRunes s.length s).flatMap (fun r => utf8.AppendRune (mapping r))

/-- The function `strings.ToLower`: a string of ASCII bytes is mapped byte by byte, any other
one rune by rune with `unicode.ToLower`. -/
def ToLower (L : Lib) (s : List Nat) : List Nat :=
  if s.all (fun c => decide (c < utf8.RuneSelf)) then
    s.map (fun c => if 0x41 ≤ c ∧ c ≤ 0x5A then c + 32 else c)
  else Map (fun r => (L.lowerRune (Char.ofNat r)).toNat) s

/-- The function `strings.TrimLeftFunc(s, unicode.IsSpace)`, on the first `fuel` runes at most. -/
def trimLeft : Nat → List Nat → List Nat
  | 0, s => s
  | _ + 1, [] => []
  | fuel + 1, s0 :: rest =>
    if unicode.IsSpace (Char.ofNat (utf8.DecodeRune (s0 :: rest)).1) then
      trimLeft fuel (rest.drop ((utf8.DecodeRune (s0 :: rest)).2 - 1))
    else s0 :: rest

/-- The function `strings.TrimRightFunc(s, unicode.IsSpace)`, on the last `fuel` runes at most. -/
def trimRight : Nat → List Nat → List Nat
  | 0, s => s
  | fuel + 1, s =>
    if s = [] then []
    else if unicode.IsSpace (Char.ofNat (utf8.DecodeLastRune s).1) then
      trimRight fuel (s.take (s.length - (utf8.DecodeLastRune s).2))
    else s

/-- The function `strings.TrimSpace`: leading and trailing white space removed, the runes
being decoded from the front and from the back. -/
def TrimSpace (s : List Nat) : List Nat :=
  trimRight s.length (trimLeft s.length s)

/-- The slice expression `s[n:]`: the bytes from offset `n` on; it panics when `n` exceeds
the length, which is the result `none`. -/
def sliceFrom (s : List Nat) (n : Nat) : Option (List Nat) :=
  if n ≤ s.length then some (s.drop n) else none

end bytes

end strings

/-! ## The request context (`github.com/gin-gonic/gin`) -/

namespace gin

/-- A value of the interface type `any`, as far as the handlers tell values apart: a
string, or a value of another dynamic type (nil included). -/
inductive Any where
  | string (s : String)
  | other (description : String)
  deriving DecidableEq, Repr

/-- A response written by `c.JSON(status, gin.H{"error": ...})`: the status and the members
`code` and `message` of the error object, and its member `details` when there is one,
an object of string members. -/
structure Response where
  status : Nat
  code : String
  message : String
  details : Option (List (String × String))
  deriving DecidableEq, Repr

/-- The state of a `*gin.Context` that the middleware reads and writes: the request headers
under their canonical names, the key-value pairs of the context, the responses written so
far, whether `Abort` was called, and the message of a run-time panic, if the handler
panicked. -/
structure Context where
  headers : List (String × List Nat)
  Keys : List (String × Any)
  written : List Response
  aborted : Bool
  panicked : Option String
  deriving DecidableEq, Repr

/-- The method `GetHeader`: the value of the header, empty when the header is absent. -/
def Context.GetHeader (c : Context) (key : String) : List Nat := (c.headers.lookup key).getD []

/-- The method `Set`: the pair is stored, replacing what the key held. -/
def Context.Set (c : Context) (key : String) (value : Any) : Context :=
  { c with Keys := (key, value) :: c.Keys.filter (fun kv => decide (kv.1 ≠ key)) }

/-- The method `Get`: the value for the key, and whether it exists. -/
def Context.Get (c : Context) (key : String) : Option Any := c.Keys.lookup key

/-- The method `Abort`: the pending handlers will not be called. -/
def Context.Abort (c : Context) : Context := { c with aborted := true }

/-- The method `JSON`, for a body that is an error object. -/
def Context.JSON (c : Context) (response : Response) : Context :=
  { c with written := c.written ++ [response] }

/-- A run-time panic in a handler: the handler stops there. -/
def Context.Panic (c : Context) (message : String) : Context :=
  { c with panicked := some message }

/-- A handler, given what `c.Next()` does: the run of the pending handlers of the chain. -/
abbrev HandlerFunc := (Context → Context) → Context → Context

end gin

/-! ## Authentication middleware (`internal/transport/http`) -/

namespace http

def StatusBadRequest : Nat := 400

def StatusUnauthorized : Nat := 401

def StatusForbidden : Nat := 403

def StatusNotFound : Nat := 404

def StatusConflict : Nat := 409

def StatusInternalServerError : Nat := 500

def StatusServiceUnavailable : Nat := 503

def ContextKeyUserID : String := "auth_user_id"

def ContextKeyRole : String := "auth_role"

/-- The interface `AccessTokenVerifier`: its one method `ParseAccessToken`, taking the
token as the bytes cut from the header. -/
abbrev AccessTokenVerifier := List Nat → Except GoError auth.AccessClaims

def writeError (c : gin.Context) (statusCode : Nat) (code message : String)
    (details : Option (List (String × String))) : gin.Context :=
  c.JSON { status := statusCode, code := code, message := message, details := details }

def handleAuthError (c : gin.Context) (err : GoError) : gin.Context :=
  if errors.Is err service.ErrValidation then
    writeError c StatusBadRequest "validation_error" "Request validation failed"
      (some [("reason", err.Error)])
  else if errors.Is err service.ErrEmailAlreadyUsed then
    writeError c StatusConflict "email_already_exists" "Email is already registered" none
  else if errors.Is err service.ErrInvalidCredentials then
    writeError c StatusUnauthorized "invalid_credentials" "Email or password is incorrect" none
  else if errors.Is err service.ErrInvalidToken then
    writeError c StatusUnauthorized "invalid_token" "Token is invalid or expired" none
  else writeError c StatusInternalServerError "internal_error" "Unexpected server error" none

def handlePostError (c : gin.Context) (err : GoError) : gin.Context :=
  if errors.Is err service.ErrValidation then
    writeError c StatusBadRequest "validation_error" "Request validation failed"
      (some [("reason", err.Error)])
  else if errors.Is err service.ErrForbidden then
    writeError c StatusForbidden "forbidden" "Insufficient permissions" none
  else if errors.Is err service.ErrPostNotFound then
    writeError c StatusNotFound "post_not_found" "Post was not found" none
  else writeError c StatusInternalServerError "internal_error" "Unexpected server error" none

def handleAdminError (c : gin.Context) (err : GoError) : gin.Context :=
  if errors.Is err service.ErrValidation then
    writeError c StatusBadRequest "validation_error" "Request validation failed"
      (some [("reason", err.Error)])
  else if errors.Is err service.ErrUserNotFound then
    writeError c StatusNotFound "user_not_found" "User was not found" none
  else writeError c StatusInternalServerError "internal_error" "Unexpected server error" none

/-- The middleware `AuthRequired`; a nil verifier is `none`. -/
def AuthRequired (L : Lib) (verifier : Option AccessTokenVerifier) : gin.HandlerFunc :=
  fun next c =>
    match verifier with
    | none =>
      (writeError c StatusServiceUnavailable "auth_unavailable"
        "Authentication is not configured" none).Abort
    | some verifier =>
      let header := c.GetHeader "Authorization"
      if !strings.bytes.HasPrefix (strings.bytes.ToLower L header) (utf8.bytes "bearer ") then
        (writeError c StatusUnauthorized "missing_token" "Authorization token is required"
          none).Abort
      else
        match strings.bytes.sliceFrom header (strings.len "Bearer ") with
        | none => c.Panic "slice bounds out of range"
        | some rest =>
          let rawToken := strings.bytes.TrimSpace rest
          if rawToken = [] then
            (writeError c StatusUnauthorized "missing_token" "Authorization token is required"
              none).Abort
          else
            match verifier rawToken with
            | Except.error err =>
              if errors.Is err auth.ErrInvalidToken then
                (writeError c StatusUnauthorized "invalid_token"
                  "Access token is invalid or expired" none).Abort
              else
                (writeError c StatusUnauthorized "invalid_token" "Access token is invalid"
                  none).Abort
            | Except.ok claims =>
              next ((c.Set ContextKeyUserID (gin.Any.string claims.Subject)).Set ContextKeyRole
                (gin.Any.string claims.Role))

/-- The middleware `RequireRoles`. -/
def RequireRoles (L : Lib) (roles : List String) : gin.HandlerFunc :=
  let allowed := roles.map (fun role => strings.ToLower L (strings.TrimSpace role))
  fun next c =>
    match c.Get ContextKeyRole with
    | none =>
      (writeError c StatusForbidden "forbidden" "Insufficient permissions" none).Abort
    | some value =>
      match value with
      | gin.Any.other _ =>
        (writeError c StatusForbidden "forbidden" "Insufficient permissions" none).Abort
      | gin.Any.string role =>
        if !allowed.contains (strings.ToLower L role) then
          (writeError c StatusForbidden "forbidden" "Insufficient permissions" none).Abort
        else next c

/-- The token manager as an `AccessTokenVerifier`, its clock reading `now`. A token that
is not well-formed UTF-8 is not a compact token, its segments not being base64url, and
is rejected as every malformed token is. -/
def tokenVerifier (L : Lib) (now : Time) (m : auth.TokenManager) : AccessTokenVerifier :=
  fun token =>
    match utf8.toString? token with
    | none => Except.error auth.ErrInvalidToken
    | some text => m.ParseAccessToken L now text

end http

/-! ## A concrete instance of the libraries

A small executable instance of `Lib`, used to run the model on concrete inputs: ASCII case
mapping, a transparent digest and password hash, and a token codec that writes the key and
the claims as escaped text fields. -/

namespace Toy

/-- A field as text: every character is preceded by a dot, a bar ends the field. -/
def escape : List Char → List Char
  | [] => ['|']
  | c :: cs => '.' :: c :: escape cs

def join : List (List Char) → List Char
  | [] => []
  | f :: fs => escape f ++ join fs

/-- Inverse of `join`; `cur` holds the characters of the field being read, last first. -/
def split : List Char → List Char → Option (List (List Char))
  | [], cur => if cur = [] then some [] else none
  | c :: rest, cur =>
    if c = '|' then (split rest []).map (fun fs => cur.reverse :: fs)
    else
      match rest with
      | [] => none
      | d :: rest2 => split rest2 (d :: cur)

/-- An optional numeric date as text: a sign and a tally. -/
def encDate : Option Int → List Char
  | none => []
  | some (Int.ofNat n) => 'p' :: List.replicate n '1'
  | some (Int.negSucc n) => 'n' :: List.replicate n '1'

def decDate : List Char → Option Int
  | [] => none
  | c :: rest =>
    if c = 'p' then some (Int.ofNat rest.length) else some (Int.negSucc rest.length)

def jwtEncode (key : String) (c : jwt.Claims) : String :=
  String.mk (join [key.data, (if c.role.isSome then ['r'] else []), (c.role.getD "").data,
    c.token_type.data, c.sub.data, encDate c.iat, encDate c.exp, encDate c.nbf, c.jti.data])

def jwtDecode (token : String) : Option (String × jwt.Claims) :=
  match split token.data [] with
  | some [_, tag, role, tt, sub, iat, exp, nbf, jti] =>
    some ("HS256",
      { role := if tag = [] then none else some (String.mk role), token_type := String.mk tt,
        sub := String.mk sub, iat := decDate iat, exp := decDate exp, nbf := decDate nbf,
        jti := String.mk jti })
  | _ => none

def jwtVerify (alg key token : String) : Bool :=
  decide (alg = "HS256") &&
    match split token.data [] with
    | some (k :: _) => decide (k = key.data)
    | _ => false

def bcryptGenerate (_salt : List Nat) (password : String) : Except GoError String :=
  if password.utf8ByteSize > 72 then
    Except.error (GoError.external "bcrypt: password length exceeds 72 bytes")
  else Except.ok ("$2a$10$" ++ password)

/-- The hash holds the password; as bcrypt does, the comparison tells passwords apart by
their keys. -/
def bcryptCompare (hash password : String) : Bool :=
  match hash.data with
  | '$' :: '2' :: 'a' :: '$' :: '1' :: '0' :: '$' :: rest =>
    decide (bcrypt.key (String.mk rest) = bcrypt.key password)
  | _ => false

def equalFold (s t : String) : Bool :=
  decide (s.data.map Char.toLower = t.data.map Char.toLower)

/-- The concrete instance, with the proofs of the facts `Lib` asks for. -/
def lib : Lib :=
  have split_escape : ∀ f tail cur : List Char,
      split (escape f ++ tail) cur =
        (split tail []).map (fun fs => (cur.reverse ++ f) :: fs) := by
    intro f
    induction f with
    | nil => intro tail cur; cases tail <;> simp [escape, split]
    | cons c cs ih =>
      intro tail cur
      simp only [escape, List.cons_append]
      rw [split]
      simp [ih]
  have split_join : ∀ fs : List (List Char), split (join fs) [] = some fs := by
    intro fs
    induction fs with
    | nil => simp [join, split]
    | cons f fs ih => simp [join, split_escape, ih]
  have decDate_encDate : ∀ d : Option Int, decDate (encDate d) = d := by
    intro d
    rcases d with _ | (n | n) <;> simp [encDate, decDate]
  have toLower_upper : ∀ n : Nat, 65 ≤ n → n ≤ 90 →
      (Char.ofNat n).toLower.toLower = (Char.ofNat n).toLower ∧
        unicode.IsSpace (Char.ofNat n).toLower = unicode.IsSpace (Char.ofNat n) := by
    intro n h1 h2
    interval_cases n <;> decide
  { lowerRune := Char.toLower
    sha256Hex := fun raw => "sha256:" ++ raw
    bcryptGenerate := bcryptGenerate
    bcryptCompare := bcryptCompare
    jwtEncode := jwtEncode
    jwtDecode := jwtDecode
    jwtVerify := jwtVerify
    queryEscape := fun s => s
    equalFold := equalFold
    lowerRune_idem := by
      intro c
      by_cases h : c.toNat ≥ 65 ∧ c.toNat ≤ 90
      · have := (toLower_upper c.toNat h.1 h.2).1
        rwa [Char.ofNat_toNat] at this
      · have e : c.toLower = c := by simp [Char.toLower, h]
        rw [e, e]
    lowerRune_space := by
      intro c
      by_cases h : c.toNat ≥ 65 ∧ c.toNat ≤ 90
      · have := (toLower_upper c.toNat h.1 h.2).2
        rwa [Char.ofNat_toNat] at this
      · have e : c.toLower = c := by simp [Char.toLower, h]
        rw [e]
    lowerRune_ascii := fun _ _ => rfl
    bcrypt_accepts := by
      intro salt password hash h
      unfold bcryptGenerate at h
      split at h
      · cases h
      · cases h
        simp [bcryptCompare]
    lowerRune_of_ascii := by
      intro c h _ _
      by_cases hu : c.toNat ≥ 65 ∧ c.toNat ≤ 90
      · omega
      · have e : c.toLower = c := by simp [Char.toLower, hu]
        rwa [e] at h
    equalFold_ascii := fun _ _ _ => rfl
    bcrypt_key := by
      intro hash p q h
      unfold bcryptCompare
      split
      · rw [h]
      · rfl
    bcrypt_version := by
      intro salt password hash h
      unfold bcryptGenerate at h
      split at h
      · cases h
      · cases h
        rw [String.data_append, List.isPrefixOf_iff_prefix]
        exact List.prefix_append _ _
    bcrypt_dollar := by
      intro hash password h
      unfold bcryptCompare at h
      split at h
      · rename_i rest heq
        rw [heq]
        rfl
      · cases h
    jwt_decode_encode := by
      intro key c
      obtain ⟨role, tt, sub, iat, exp, nbf, jti⟩ := c
      cases role <;> simp [jwtDecode, jwtEncode, split_join, decDate_encDate]
    jwt_verify_encode := by
      intro key c
      simp [jwtVerify, jwtEncode, split_join]
    jwt_decode_empty := rfl }

/-- The concrete instance writes a digest that is longer than the text digested. -/
def libFormat : LibFormat :=
  { toLib := lib
    digest_ne_token := by
      intro key claims h
      have hlen := congrArg String.length h
      change ("sha256:" ++ jwtEncode key claims).length = (jwtEncode key claims).length at hlen
      rw [String.length_append] at hlen
      have h7 : ("sha256:" : String).length = 7 := by decide
      omega }

/-- The concrete instance keeps the password in the hash and compares keys. -/
def libIdeal : LibIdeal :=
  have bcryptGenerate_eq : ∀ (salt : List Nat) (password hash : String),
      bcryptGenerate salt password = Except.ok hash → hash = "$2a$10$" ++ password := by
    intro salt password hash h
    unfold bcryptGenerate at h
    split at h
    · cases h
    · exact (Except.ok.inj h).symm
  { toLib := lib
    bcrypt_differs := by
      intro salt password hash h
      have hh : hash = "$2a$10$" ++ password := bcryptGenerate_eq salt password hash h
      intro e
      rw [e] at hh
      have hlen := congrArg String.length hh
      rw [String.length_append] at hlen
      have h7 : ("$2a$10$" : String).length = 7 := by decide
      omega
    bcrypt_rejects := by
      intro salt p q hash h hkey
      have hh : hash = "$2a$10$" ++ p := bcryptGenerate_eq salt p hash h
      subst hh
      change bcryptCompare ("$2a$10$" ++ p) q = false
      have hdata : ("$2a$10$" ++ p).data =
          '$' :: '2' :: 'a' :: '$' :: '1' :: '0' :: '$' :: p.data := by
        rw [String.data_append]
        rfl
      unfold bcryptCompare
      rw [hdata]
      simp only [decide_eq_false_iff_not]
      intro e
      exact hkey e.symm }

end Toy

/-! ## Interleaved runs of `Refresh`

Each repository call is one atomic statement on the store. `Refresh` first reads
(`refreshCheck`), then writes (`refreshRotate`); two requests may interleave between
the two. -/

namespace service

open repository

/-- The steps of `Refresh` up to and including the load of the credential; they only read
the store. On success: the credential of the subject and the fingerprint of the token. -/
def AuthService.refreshCheck (L : Lib) (s : AuthService) (parseNow lookupNow : Time)
    (input : RefreshInput) (db : DB) : Except GoError (models.User × String) :=
  let rawToken := strings.TrimSpace input.RefreshToken
  if rawToken = "" then Except.error (GoError.wrap "refresh input invalid" ErrValidation)
  else
    match s.tokenManager.ParseRefreshToken L parseNow rawToken with
    | Except.error _ => Except.error ErrInvalidToken
    | Except.ok claims =>
      let hashed := auth.HashToken L rawToken
      match GormRefreshTokenRepository.GetActiveByHash lookupNow hashed db with
      | Except.error err =>
        if errors.Is err ErrNotFound then Except.error ErrInvalidToken
        else Except.error (GoError.wrap "lookup refresh token" err)
      | Except.ok storedToken =>
        if storedToken.UserID ≠ claims.Subject then Except.error ErrInvalidToken
        else
          match GormUserRepository.GetByID claims.Subject db with
          | Except.error err =>
            if errors.Is err ErrNotFound then Except.error ErrInvalidToken
            else Except.error (GoError.wrap "get user for refresh" err)
          | Except.ok user => Except.ok (user, hashed)

/-- The remaining steps of `Refresh`: revoke the presented token, issue a new pair. -/
def AuthService.refreshRotate (L : Lib) (s : AuthService) (revokeNow : Time) (issue : IssueEnv)
    (user : models.User) (hashed : String) (db : DB) : Except GoError TokenPair × DB :=
  match GormRefreshTokenRepository.RevokeByHash revokeNow hashed db with
  | (some err, db1) =>
    if !errors.Is err ErrNotFound then
      (Except.error (GoError.wrap "revoke old refresh token" err), db1)
    else s.issueTokenPair L issue user.ID user.Role db1
  | (none, db1) => s.issueTokenPair L issue user.ID user.Role db1

/-- Two `Refresh` requests A and B on one store, interleaved so that both complete their
reads before either writes: check A, check B, rotate A, rotate B. The results of A and
of B, and the final store. -/
def AuthService.refreshRace (L : Lib) (s : AuthService) (envA envB : RefreshEnv)
    (inputA inputB : RefreshInput) (db : DB) :
    Except GoError TokenPair × Except GoError TokenPair × DB :=
  match s.refreshCheck L envA.parseNow envA.lookupNow inputA db,
      s.refreshCheck L envB.parseNow envB.lookupNow inputB db with
  | Except.error errA, Except.error errB => (Except.error errA, Except.error errB, db)
  | Except.error errA, Except.ok (userB, hashedB) =>
    let rB := s.refreshRotate L envB.revokeNow envB.issue userB hashedB db
    (Except.error errA, rB.1, rB.2)
  | Except.ok (userA, hashedA), Except.error errB =>
    let rA := s.refreshRotate L envA.revokeNow envA.issue userA hashedA db
    (rA.1, Except.error errB, rA.2)
  | Except.ok (userA, hashedA), Except.ok (userB, hashedB) =>
    let rA := s.refreshRotate L envA.revokeNow envA.issue userA hashedA db
    let rB := s.refreshRotate L envB.revokeNow envB.issue userB hashedB rA.2
    (rA.1, rB.1, rB.2)

end service

/-! ## The steps of the service functions, one repository call at a time

A repository method is an interface method: the service sees the error it returns and
the store it leaves. The functions below are the service functions cut at a repository
call, the later part taking what the call returned. -/

namespace service

open repository

/-- The last step of `Refresh` (lines 199 to 203), entered when `RevokeByHash` has returned:
`revoked` is the error it reported and the store it left. -/
def AuthService.refreshRevoked (L : Lib) (s : AuthService) (issue : IssueEnv)
    (user : models.User) (revoked : Option GoError × DB) : Except GoError TokenPair × DB :=
  match revoked with
  | (some err, db1) =>
    if !errors.Is err ErrNotFound then
      (Except.error (GoError.wrap "revoke old refresh token" err), db1)
    else s.issueTokenPair L issue user.ID user.Role db1
  | (none, db1) => s.issueTokenPair L issue user.ID user.Role db1

/-- The steps of `Register` up to the hashing of the password (lines 102 to 119); they only
read the store. On success: the password hash. -/
def AuthService.registerCheck (L : Lib) (hashRand : Entropy) (input : RegisterInput)
    (db : DB) : Except GoError String :=
  let email := normalizeEmail L input.Email
  if !isValidEmail email || decide (strings.len input.Password < 8) then
    Except.error (GoError.wrap "register input invalid" ErrValidation)
  else
    match GormUserRepository.GetByEmail L email db with
    | Except.ok _ => Except.error ErrEmailAlreadyUsed
    | Except.error err =>
      if !errors.Is err ErrNotFound then Except.error (GoError.wrap "check existing user" err)
      else
        match auth.HashPassword L hashRand input.Password with
        | Except.error err => Except.error (GoError.wrap "hash password" err)
        | Except.ok hashedPassword => Except.ok hashedPassword

/-- The remaining steps of `Register` (lines 121 to 138): create the credential, issue the
token pair. -/
def AuthService.registerCreate (L : Lib) (s : AuthService) (env : RegisterEnv)
    (input : RegisterInput) (hashedPassword : String) (db : DB) :
    Except GoError (RegisteredUser × TokenPair) × DB :=
  match GormUserRepository.Create L env.userID env.userNow
      { ID := "", Email := normalizeEmail L input.Email, PasswordHash := hashedPassword,
        Role := s.defaultRole, CreatedAt := 0, UpdatedAt := 0 } db with
  | (Except.error err, db1) =>
    if errors.Is err ErrDuplicate then (Except.error ErrEmailAlreadyUsed, db1)
    else (Except.error (GoError.wrap "create user" err), db1)
  | (Except.ok user, db1) =>
    match s.issueTokenPair L env.issue user.ID user.Role db1 with
    | (Except.error err, db2) => (Except.error err, db2)
    | (Except.ok pair, db2) =>
      (Except.ok ({ ID := user.ID, Email := user.Email, Role := user.Role }, pair), db2)

/-- The steps of `ConfirmPasswordReset` up to the hashing of the new password (lines 267 to
284); they only read the store. On success: the reset record found and the password hash. -/
def AuthService.confirmCheck (L : Lib) (lookupNow : Time) (hashRand : Entropy)
    (input : ConfirmResetInput) (db : DB) :
    Except GoError (models.PasswordResetToken × String) :=
  let rawToken := strings.TrimSpace input.Token
  if rawToken = "" || decide (strings.len input.NewPassword < 8) then
    Except.error (GoError.wrap "password reset confirm invalid" ErrValidation)
  else
    let hashedToken := auth.HashToken L rawToken
    match GormPasswordResetTokenRepository.GetActiveByHash lookupNow hashedToken db with
    | Except.error err =>
      if errors.Is err ErrNotFound then Except.error ErrInvalidToken
      else Except.error (GoError.wrap "load reset token" err)
    | Except.ok storedToken =>
      match auth.HashPassword L hashRand input.NewPassword with
      | Except.error err => Except.error (GoError.wrap "hash new password" err)
      | Except.ok hashedPassword => Except.ok (storedToken, hashedPassword)

/-- The last step of `ConfirmPasswordReset` (lines 293 to 300), entered when `MarkUsedByID`
has returned: `marked` is the error it reported and the store it left. -/
def AuthService.confirmMarked (marked : Option GoError × DB) : Option GoError × DB :=
  match marked with
  | (some err, db2) =>
    if errors.Is err ErrNotFound then (some ErrInvalidToken, db2)
    else (some (GoError.wrap "mark reset token used" err), db2)
  | (none, db2) => (none, db2)

/-- The steps of `ConfirmPasswordReset` from line 286 on, entered when `UpdatePasswordHash`
has returned: `updated` is the error it reported and the store it left. -/
def AuthService.confirmUpdated (markNow : Time) (storedToken : models.PasswordResetToken)
    (updated : Option GoError × DB) : Option GoError × DB :=
  match updated with
  | (some err, db1) =>
    if errors.Is err ErrNotFound then (some ErrInvalidToken, db1)
    else (some (GoError.wrap "update password hash" err), db1)
  | (none, db1) =>
    AuthService.confirmMarked
      (GormPasswordResetTokenRepository.MarkUsedByID markNow storedToken.ID db1)

/-- The two writes of `ConfirmPasswordReset` (lines 286 to 300) on store `db`. -/
def AuthService.confirmWrite (env : ConfirmResetEnv) (storedToken : models.PasswordResetToken)
    (hashedPassword : String) (db : DB) : Option GoError × DB :=
  AuthService.confirmUpdated env.markNow storedToken
    (GormUserRepository.UpdatePasswordHash env.updateNow storedToken.UserID hashedPassword db)

/-- The steps of `UpdateUserRole` after the call of `UpdateRole` (lines 60 to 75), given
the outcome of that call: the error it returned and the store it left. -/
def AdminService.roleUpdated (userID : String) (updated : Option GoError × DB) :
    Except GoError UserSummary × DB :=
  match updated with
  | (some err, db1) =>
    if errors.Is err ErrNotFound then (Except.error ErrUserNotFound, db1)
    else (Except.error (GoError.wrap "update user role" err), db1)
  | (none, db1) =>
    match GormUserRepository.GetByID userID db1 with
    | Except.error err =>
      if errors.Is err ErrNotFound then (Except.error ErrUserNotFound, db1)
      else (Except.error (GoError.wrap "load updated user" err), db1)
    | Except.ok user =>
      (Except.ok { ID := user.ID, Email := user.Email, Role := user.Role }, db1)

end service

/-! ## A worked example

A token manager with lifetimes of two and three seconds and a service over it; one user
registers on the empty store at clock time 0, and the requests of the examples follow
within the next seconds. -/

namespace Example

/-- The token manager of the example. -/
def tm : auth.TokenManager :=
  auth.NewTokenManager "access-secret" "refresh-secret" (2 * Second) (3 * Second)

/-- The service of the example. -/
def svc : service.AuthService := service.NewAuthService tm (5 * Second) "http://localhost:5173/"

/-- An entropy source that works and yields the byte `k` over and over. -/
def entropy (k : Nat) : Entropy := { fails := false, bytes := fun _ => k }

/-- Environment of a token issue at clock time `now`, with entropy bytes `k` and `k + 1` for the
two token ids and primary key `rowID` for the refresh row. -/
def issueEnv (now : Time) (k : Nat) (rowID : String) : service.IssueEnv :=
  { accessNow := now, accessID := { rand := entropy k, now := now }, refreshNow := now,
    refreshID := { rand := entropy (k + 1), now := now }, rowID := rowID, rowNow := now }

/-- The store without any row. -/
def emptyDB : DB := { users := [], refresh_tokens := [], password_reset_tokens := [] }

/-- The registration of the example: its result and the store it leaves. -/
def registered : Except GoError (service.RegisteredUser × service.TokenPair) × DB :=
  svc.Register Toy.lib
    { hashRand := entropy 7, userID := "u-1", userNow := 0, issue := issueEnv 0 1 "r-1" }
    { Email := " Ann@Example.com ", Password := "password123" } emptyDB


/-- The refresh token handed out by the example registration. -/
def token1 : String :=
  match Example.registered.1 with
  | Except.ok (_, pair) => pair.RefreshToken
  | Except.error _ => ""

/-- Environment of a `Refresh` at clock time `now`. -/
def refreshEnv (now : Time) (k : Nat) (rowID : String) : service.RefreshEnv :=
  { parseNow := now, lookupNow := now, revokeNow := now, issue := Example.issueEnv now k rowID }

/-- The example store after a password-reset request for the registered user, made at clock
time one second. -/
def resetRequested : Option GoError × DB × List email.Message :=
  Example.svc.RequestPasswordReset Toy.lib
    { tokenRand := Example.entropy 9, now := 1 * Second, rowID := "p-1", rowNow := 1 * Second,
      sendErr := none }
    { Email := "ann@example.com" } Example.registered.2

/-- The raw reset token of that request: 32 bytes of value 9, in base64. -/
def resetToken : String := base64.RawURLEncoding (List.replicate 32 9)

/-- Environment of a reset confirmation at clock time `now`. -/
def confirmEnv (now : Time) : service.ConfirmResetEnv :=
  { lookupNow := now, hashRand := Example.entropy 11, updateNow := now, markNow := now }

/-- The credential row of the example registration. -/
def user1 : models.User :=
  { ID := "u-1", Email := "ann@example.com", PasswordHash := "$2a$10$password123",
    Role := "author", CreatedAt := 0, UpdatedAt := 0 }

/-- The token pair handed out by the example registration. -/
def pair1 : service.TokenPair :=
  match Example.registered.1 with
  | Except.ok (_, pair) => pair
  | Except.error _ =>
    { AccessToken := "", RefreshToken := "", TokenType := "", AccessExpiresAt := 0,
      RefreshExpiresAt := 0 }

/-- The claims of the refresh token of the example registration. -/
def claims1 : auth.RefreshClaims :=
  { TokenType := "refresh", Subject := "u-1", IssuedAt := some 0, ExpiresAt := some 3,
    NotBefore := none, ID := "AgICAgICAgICAgICAgICAgIC" }

/-- A `Refresh` with the refresh token of the example registration, one second later. -/
def refreshed : Except GoError service.TokenPair × DB :=
  Example.svc.Refresh Toy.lib (Example.refreshEnv (1 * Second) 3 "r-2")
    { RefreshToken := Example.token1 } Example.registered.2

/-- The token pair handed out by that `Refresh`. -/
def pair2 : service.TokenPair :=
  match Example.refreshed.1 with
  | Except.ok pair => pair
  | Except.error _ =>
    { AccessToken := "", RefreshToken := "", TokenType := "", AccessExpiresAt := 0,
      RefreshExpiresAt := 0 }

/-- The reset row written by the example reset request. -/
def resetRow : models.PasswordResetToken :=
  { ID := "p-1", UserID := "u-1", TokenHash := auth.HashToken Toy.lib Example.resetToken,
    ExpiresAt := 6 * Second, UsedAt := none, CreatedAt := 1 * Second }

/-- A `Login` of the registered user of the example, one second after the registration. -/
def loggedIn : Except GoError (service.RegisteredUser × service.TokenPair) × DB :=
  Example.svc.Login Toy.lib (Example.issueEnv (1 * Second) 3 "r-2")
    { Email := " Ann@Example.com", Password := "password123" } Example.registered.2

/-- The token pair handed out by that `Login`. -/
def loginPair : service.TokenPair :=
  match Example.loggedIn.1 with
  | Except.ok (_, pair) => pair
  | Except.error _ =>
    { AccessToken := "", RefreshToken := "", TokenType := "", AccessExpiresAt := 0,
      RefreshExpiresAt := 0 }

/-- The store of the example with the refresh record of the registered user handed to
another owner, `u-2`. -/
def foreignDB : DB :=
  { Example.registered.2 with
    refresh_tokens :=
      Example.registered.2.refresh_tokens.map (fun r => { r with UserID := "u-2" }) }

/-- The confirmation of the example reset request with a new password, one second after the
request. -/
def confirmed : Option GoError × DB :=
  Example.svc.ConfirmPasswordReset Toy.lib (Example.confirmEnv (2 * Second))
    { Token := Example.resetToken, NewPassword := "new-password" } Example.resetRequested.2.1

/-- The role of the registered user of the example changed to `admin`, one second after the
registration. -/
def promoted : Except GoError service.UserSummary × DB :=
  service.AdminService.UpdateUserRole Toy.lib (1 * Second) "u-1" " Admin " Example.registered.2

/-- A `Refresh` with the refresh token of the example registration after that change. -/
def promotedRefresh : Except GoError service.TokenPair × DB :=
  Example.svc.Refresh Toy.lib (Example.refreshEnv (1 * Second) 3 "r-2")
    { RefreshToken := Example.token1 } Example.promoted.2

/-- The token pair handed out by that `Refresh`. -/
def promotedPair : service.TokenPair :=
  match Example.promotedRefresh.1 with
  | Except.ok pair => pair
  | Except.error _ =>
    { AccessToken := "", RefreshToken := "", TokenType := "", AccessExpiresAt := 0,
      RefreshExpiresAt := 0 }

/-- A request context with the given `Authorization` header and one key set by an earlier
handler. -/
def request (authorization : String) : gin.Context :=
  { headers := [("Authorization", utf8.bytes authorization)],
    Keys := [("request_id", gin.Any.other "int")], written := [], aborted := false,
    panicked := none }

/-- The final handler of the example chain: it records that it ran. -/
def handler : gin.Context → gin.Context := fun c => c.Set "handled" (gin.Any.string "yes")

/-- A post repository that holds 120 posts and answers the one query for the first page of
50 with an empty page, as the fake repository of the package tests does. -/
def listPosts : Int → Int → Except GoError (List models.Post × Int) :=
  fun limit offset =>
    if limit = 50 ∧ offset = 0 then Except.ok ([], 120)
    else Except.error (GoError.external "unexpected query")

/-- A repository whose `List` fails with a message that tells the limit and the offset it
was called with. -/
def echoPosts : Int → Int → Except GoError (List models.Post × Int) :=
  fun limit offset =>
    Except.error (GoError.external (toString limit ++ " offset " ++ toString offset))

/-- The same for the user repository. -/
def echoUsers : Int → Int → Except GoError (List models.User) :=
  fun limit offset =>
    Except.error (GoError.external (toString limit ++ " offset " ++ toString offset))

/-- A store with one published post, written by user `u1`. -/
def blog : DB :=
  { users := [], refresh_tokens := [], password_reset_tokens := [],
    posts :=
      [{ ID := "p1", AuthorID := "u1", Title := "Hello", Content := "First post",
         Status := "published", CreatedAt := 1, UpdatedAt := 1 }] }

/-- A password of 72 bytes, the most that bcrypt reads. -/
def longPassword : String := String.mk (List.replicate 72 'a')

/-- A `Refresh` with the refresh token of the example registration half a second after it,
the entropy source yielding the bytes of the registration once more: the refresh token it
issues is the token presented. -/
def repeated : Except GoError service.TokenPair × DB :=
  Example.svc.Refresh Toy.lib (Example.refreshEnv 500000000 1 "r-2")
    { RefreshToken := Example.token1 } Example.registered.2

/-- A password of 73 bytes, one more than bcrypt hashes. -/
def tooLongPassword : String := String.mk (List.replicate 73 'a')

/-- The registration of a user whose password has 72 bytes, on the empty store. -/
def registeredLong : Except GoError (service.RegisteredUser × service.TokenPair) × DB :=
  Example.svc.Register Toy.lib
    { hashRand := Example.entropy 7, userID := "u-1", userNow := 0,
      issue := Example.issueEnv 0 1 "r-1" }
    { Email := "bob@example.com", Password := Example.longPassword } Example.emptyDB

/-- The method `RevokeByHash` of a store on which another request revokes the record
first: the call finds the record revoked and reports `ErrNotFound`. -/
def revokedMeanwhile : Time → String → DB → Option GoError × DB :=
  fun now tokenHash db =>
    repository.GormRefreshTokenRepository.RevokeByHash now tokenHash
      (repository.GormRefreshTokenRepository.RevokeByHash now tokenHash db).2

/-- The method `RevokeByHash` of a store that has lost its connection. -/
def revokeFails : Time → String → DB → Option GoError × DB :=
  fun _ _ db => (some (GoError.external "connection reset"), db)

/-- The method `MarkUsedByID` of a store on which another request marks the record first:
the call finds the record used and reports `ErrNotFound`. -/
def usedMeanwhile : Time → String → DB → Option GoError × DB :=
  fun now tokenID db =>
    repository.GormPasswordResetTokenRepository.MarkUsedByID now tokenID
      (repository.GormPasswordResetTokenRepository.MarkUsedByID now tokenID db).2

/-- The method `MarkUsedByID` of a store that has lost its connection. -/
def markFails : Time → String → DB → Option GoError × DB :=
  fun _ _ db => (some (GoError.external "connection reset"), db)

end Example

/-! ## Auxiliary definitions for the statements -/

namespace service

open repository

/-- The user row `Register` writes. -/
def AuthService.newUser (L : Lib) (s : AuthService) (env : RegisterEnv) (input : RegisterInput)
    (hashedPassword : String) : models.User :=
  { ID := env.userID, Email := normalizeEmail L input.Email, PasswordHash := hashedPassword,
    Role := s.defaultRole, CreatedAt := env.userNow, UpdatedAt := env.userNow }

/-- The store after a successful `ConfirmPasswordReset` that consumed row `r`. -/
def confirmedStore (env : ConfirmResetEnv) (r : models.PasswordResetToken) (hashed : String)
    (db : DB) : DB :=
  (GormPasswordResetTokenRepository.MarkUsedByID env.markNow r.ID
    (GormUserRepository.UpdatePasswordHash env.updateNow r.UserID hashed db).2).2

end service

namespace http

/-- The test of `AuthRequired` on the header: its lower-case form starts with `bearer `. -/
def hasBearerPrefix (L : Lib) (header : List Nat) : Bool :=
  strings.bytes.HasPrefix (strings.bytes.ToLower L header) (utf8.bytes "bearer ")

/-- The token `AuthRequired` takes from the header: the bytes after the first seven, trimmed
of white space. -/
def bearerToken (header : List Nat) : List Nat := strings.bytes.TrimSpace (header.drop 7)

/-- The context after `writeError(c, status, code, message, nil)` and `c.Abort()`. -/
def rejected (c : gin.Context) (status : Nat) (code message : String) : gin.Context :=
  { c with
    written := c.written ++ [{ status := status, code := code, message := message,
                               details := none }],
    aborted := true }

end http

namespace GoError

/-- The innermost error of a chain of wrapped causes. -/
def root : GoError → GoError
  | wrap _ cause => root cause
  | err => err

/-- The error wraps another one. -/
def isWrap : GoError → Bool
  | wrap _ _ => true
  | _ => false

end GoError

namespace http

/-- The status of the response written last. -/
def lastStatus (c : gin.Context) : Option Nat := c.written.getLast?.map (fun r => r.status)

end http

namespace strings

namespace bytes

/-- The ASCII lower case of a byte: `A` to `Z` become `a` to `z`. -/
def asciiLower (c : Nat) : Nat := if 0x41 ≤ c ∧ c ≤ 0x5A then c + 32 else c

end bytes

end strings

/-! ## Facts about the store operations -/

namespace gorm

theorem First_eq_none {α : Type} (key : α → String) (rows : List α) :
    First key rows = none ↔ rows = [] := by
  cases rows with
  | nil => simp [First]
  | cons r rs =>
    simp only [First]
    split
    · simp
    · split <;> simp

theorem First_mem {α : Type} (key : α → String) (rows : List α) (a : α)
    (h : First key rows = some a) : a ∈ rows := by
  induction rows generalizing a with
  | nil => simp [First] at h
  | cons r rs ih =>
    simp only [First] at h
    split at h
    · cases h; simp
    · rename_i best hb
      split at h
      · cases h; exact List.mem_cons_of_mem _ (ih _ hb)
      · cases h; simp

theorem First_filter_none {α : Type} (key : α → String) (p : α → Bool) (rows : List α) :
    First key (rows.filter p) = none ↔ ∀ r ∈ rows, p r = false := by
  rw [First_eq_none, List.filter_eq_nil_iff]
  simp

theorem First_filter_some {α : Type} (key : α → String) (p : α → Bool) (rows : List α) (a : α)
    (h : First key (rows.filter p) = some a) : a ∈ rows ∧ p a = true := by
  have := First_mem key _ a h
  simpa [List.mem_filter] using this

end gorm

namespace repository

namespace GormRefreshTokenRepository

/-- The table left by `RevokeByHash`. -/
theorem RevokeByHash_db (now : Time) (h : String) (db : DB) :
    (RevokeByHash now h db).2 =
      { db with refresh_tokens := db.refresh_tokens.map (fun t =>
          if decide (t.TokenHash = h) && t.RevokedAt.isNone then
            { t with RevokedAt := some now } else t) } := by
  unfold RevokeByHash gorm.Updates
  dsimp only
  split <;> rfl

theorem RevokeByHash_err (now : Time) (h : String) (db : DB) :
    (RevokeByHash now h db).1 = none ∨ (RevokeByHash now h db).1 = some ErrNotFound := by
  unfold RevokeByHash
  dsimp only
  split
  · right; rfl
  · left; rfl

/-- After `RevokeByHash`, no row with that fingerprint is unrevoked. -/
theorem RevokeByHash_revoked (now : Time) (h : String) (db : DB) (r : models.RefreshToken)
    (hr : r ∈ (RevokeByHash now h db).2.refresh_tokens) (hh : r.TokenHash = h) :
    r.RevokedAt.isNone = false := by
  rw [RevokeByHash_db] at hr
  simp only [List.mem_map] at hr
  obtain ⟨t, _, rfl⟩ := hr
  by_cases c : (decide (t.TokenHash = h) && t.RevokedAt.isNone) = true
  · simp [c]
  · simp only [c] at hh ⊢
    simp only [Bool.and_eq_true, decide_eq_true_eq, not_and, Bool.not_eq_true] at c
    simpa using c (by simpa using hh)

/-- When no row with the fingerprint is unrevoked, `RevokeByHash` changes nothing and
reports `ErrNotFound`. -/
theorem RevokeByHash_noop (now : Time) (h : String) (db : DB)
    (hno : ∀ r ∈ db.refresh_tokens, r.TokenHash = h → r.RevokedAt.isNone = false) :
    RevokeByHash now h db = (some ErrNotFound, db) := by
  have hf : ∀ r ∈ db.refresh_tokens,
      (decide (r.TokenHash = h) && r.RevokedAt.isNone) = false := by
    intro r hr
    by_cases c : r.TokenHash = h
    · simp [c, hno r hr c]
    · simp [c]
  have hmap : db.refresh_tokens.map (fun t =>
      if (decide (t.TokenHash = h) && t.RevokedAt.isNone) = true then
        { t with RevokedAt := some now } else t) = db.refresh_tokens := by
    conv_rhs => rw [← List.map_id db.refresh_tokens]
    apply List.map_congr_left
    intro r hr
    simp [hf r hr]
  have hfil : db.refresh_tokens.filter
      (fun t => decide (t.TokenHash = h) && t.RevokedAt.isNone) = [] := by
    rw [List.filter_eq_nil_iff]
    intro r hr
    simp [hf r hr]
  unfold RevokeByHash gorm.Updates
  simp only [hmap, hfil, List.length_nil, if_true]

theorem GetActiveByHash_notFound (now : Time) (h : String) (db : DB)
    (hno : ∀ r ∈ db.refresh_tokens, r.TokenHash = h → r.RevokedAt.isNone = false) :
    GetActiveByHash now h db = Except.error ErrNotFound := by
  unfold GetActiveByHash
  have : gorm.First models.RefreshToken.ID (db.refresh_tokens.filter (fun t =>
      decide (t.TokenHash = h) && t.RevokedAt.isNone && decide (t.ExpiresAt > now))) = none := by
    rw [gorm.First_filter_none]
    intro r hr
    by_cases c : r.TokenHash = h
    · simp [c, hno r hr c]
    · simp [c]
  rw [this]

end GormRefreshTokenRepository

end repository

namespace gorm

@[simp] theorem newID_empty (uuid : String) : newID "" uuid = uuid := by
  simp [newID]

end gorm

namespace service

open repository

/-- A successful `issueTokenPair` appends exactly one row, unrevoked, holding the
fingerprint of the returned refresh token, and touches nothing else. -/
theorem AuthService.issueTokenPair_ok (L : Lib) (s : AuthService) (env : IssueEnv)
    (userID role : String) (db db1 : DB) (pair : TokenPair)
    (h : s.issueTokenPair L env userID role db = (Except.ok pair, db1)) :
    db1 = { db with refresh_tokens := db.refresh_tokens ++
      [{ ID := env.rowID, UserID := userID, TokenHash := auth.HashToken L pair.RefreshToken,
         ExpiresAt := pair.RefreshExpiresAt, RevokedAt := none, CreatedAt := env.rowNow }] } ∧
    pair.TokenType = "Bearer" ∧
    s.tokenManager.GenerateAccessToken L env.accessNow env.accessID userID role =
      Except.ok (pair.AccessToken, pair.AccessExpiresAt) ∧
    (∃ tokenID, s.tokenManager.GenerateRefreshToken L env.refreshNow env.refreshID userID =
      Except.ok (pair.RefreshToken, tokenID, pair.RefreshExpiresAt)) ∧
    ∀ r ∈ db.refresh_tokens, r.ID ≠ env.rowID := by
  by_cases hany : db.refresh_tokens.any (fun r => decide (r.ID = env.rowID)) = true
  · simp [AuthService.issueTokenPair, auth.TokenManager.GenerateAccessToken,
      auth.TokenManager.GenerateRefreshToken, GormRefreshTokenRepository.Create,
      gorm.CreateRefreshToken, hany] at h
  · simp only [AuthService.issueTokenPair, auth.TokenManager.GenerateAccessToken,
      auth.TokenManager.GenerateRefreshToken, GormRefreshTokenRepository.Create,
      gorm.CreateRefreshToken, gorm.newID_empty, hany, if_false, Bool.false_eq_true,
      Prod.mk.injEq, Except.ok.injEq] at h
    obtain ⟨rfl, rfl⟩ := h
    refine ⟨rfl, rfl, rfl, ⟨_, rfl⟩, ?_⟩
    intro r hr hid
    apply hany
    simp only [List.any_eq_true, decide_eq_true_eq]
    exact ⟨r, hr, hid⟩

/-- The pair `issueTokenPair` returns when the store accepts the new row. -/
theorem AuthService.issueTokenPair_fresh (L : Lib) (s : AuthService) (env : IssueEnv)
    (userID role : String) (db : DB) (hfresh : ∀ r ∈ db.refresh_tokens, r.ID ≠ env.rowID) :
    ∃ pair db1, s.issueTokenPair L env userID role db = (Except.ok pair, db1) := by
  have hany : db.refresh_tokens.any (fun r => decide (r.ID = env.rowID)) = false := by
    simp only [List.any_eq_false, decide_eq_true_eq]
    exact hfresh
  simp [AuthService.issueTokenPair, auth.TokenManager.GenerateAccessToken,
    auth.TokenManager.GenerateRefreshToken, GormRefreshTokenRepository.Create,
    gorm.CreateRefreshToken, hany]

end service

namespace service

open repository

/-- `Refresh` is its read phase followed by its write phase. -/
theorem AuthService.Refresh_eq_phases (L : Lib) (s : AuthService) (env : RefreshEnv)
    (input : RefreshInput) (db : DB) :
    s.Refresh L env input db =
      match s.refreshCheck L env.parseNow env.lookupNow input db with
      | Except.error err => (Except.error err, db)
      | Except.ok (user, hashed) => s.refreshRotate L env.revokeNow env.issue user hashed db := by
  unfold AuthService.Refresh AuthService.RefreshWith AuthService.refreshCheck AuthService.refreshRotate
  dsimp only
  repeat (first | rfl | split)

/-- The write phase never stops at the revocation: it is the token issue on the store
left by `RevokeByHash`, whether or not a row was revoked. -/
theorem AuthService.refreshRotate_eq (L : Lib) (s : AuthService) (revokeNow : Time)
    (issue : IssueEnv) (user : models.User) (hashed : String) (db : DB) :
    s.refreshRotate L revokeNow issue user hashed db =
      s.issueTokenPair L issue user.ID user.Role
        (GormRefreshTokenRepository.RevokeByHash revokeNow hashed db).2 := by
  unfold AuthService.refreshRotate
  rcases h : GormRefreshTokenRepository.RevokeByHash revokeNow hashed db with ⟨e, db1⟩
  have he := GormRefreshTokenRepository.RevokeByHash_err revokeNow hashed db
  rw [h] at he
  rcases he with he | he
  · simp only at he; subst he; rfl
  · simp only at he; subst he
    simp [errors.Is, ErrNotFound]

/-- What a successful read phase established. -/
theorem AuthService.refreshCheck_ok (L : Lib) (s : AuthService) (parseNow lookupNow : Time)
    (input : RefreshInput) (db : DB) (user : models.User) (hashed : String)
    (h : s.refreshCheck L parseNow lookupNow input db = Except.ok (user, hashed)) :
    strings.TrimSpace input.RefreshToken ≠ "" ∧
    hashed = auth.HashToken L (strings.TrimSpace input.RefreshToken) ∧
    ∃ claims stored,
      s.tokenManager.ParseRefreshToken L parseNow (strings.TrimSpace input.RefreshToken) =
        Except.ok claims ∧
      GormRefreshTokenRepository.GetActiveByHash lookupNow hashed db = Except.ok stored ∧
      stored.UserID = claims.Subject ∧
      GormUserRepository.GetByID claims.Subject db = Except.ok user := by
  unfold AuthService.refreshCheck at h
  dsimp only at h
  split at h
  · simp at h
  · rename_i hne
    split at h
    · simp at h
    · rename_i claims hparse
      split at h
      · split at h <;> simp at h
      · rename_i stored hstored
        split at h
        · simp at h
        · rename_i hsub
          split at h
          · split at h <;> simp at h
          · rename_i u hu
            simp only [Except.ok.injEq, Prod.mk.injEq] at h
            obtain ⟨rfl, rfl⟩ := h
            refine ⟨hne, rfl, claims, stored, hparse, hstored, ?_, hu⟩
            simpa using hsub

/-- With no unrevoked row for the fingerprint of the presented token, `Refresh` fails with
`ErrInvalidToken` (or with the validation error on a blank token) and leaves the store. -/
theorem AuthService.Refresh_no_active (L : Lib) (s : AuthService) (env : RefreshEnv)
    (input : RefreshInput) (db : DB)
    (hne : strings.TrimSpace input.RefreshToken ≠ "")
    (hno : ∀ r ∈ db.refresh_tokens,
      r.TokenHash = auth.HashToken L (strings.TrimSpace input.RefreshToken) →
        r.RevokedAt.isNone = false) :
    s.Refresh L env input db = (Except.error ErrInvalidToken, db) := by
  unfold AuthService.Refresh AuthService.RefreshWith
  dsimp only
  rw [if_neg hne, GormRefreshTokenRepository.GetActiveByHash_notFound _ _ _ hno]
  split
  · rfl
  · simp [errors.Is, ErrNotFound]

end service


/-! ## Facts about the token codec -/

namespace jwt

/-- Claims come out of `ParseWithClaims` only as the decoded claim set of the token. -/
theorem ParseWithClaims_ok (L : Lib) (now : Time) (token : String)
    (keyFunc : String → Except GoError String) (c : Claims)
    (h : ParseWithClaims L now token keyFunc = Except.ok c) :
    ∃ alg, L.jwtDecode token = some (alg, c) := by
  unfold ParseWithClaims at h
  split at h
  · simp at h
  · rename_i alg claims hdec
    split at h
    · simp at h
    · split at h
      · simp at h
      · split at h
        · simp at h
        · split at h
          · simp at h
          · simp only [Except.ok.injEq] at h
            subst h
            exact ⟨alg, hdec⟩

/-- Parsing a token signed under the key the key function hands out, before its `exp`. -/
theorem ParseWithClaims_encode (L : Lib) (now : Time) (key : String) (c : Claims)
    (hexp : ∀ exp, c.exp = some exp → now < NumericDate.Time exp)
    (hnbf : c.nbf = none) :
    ParseWithClaims L now (L.jwtEncode key c) (auth.keyFunc key) = Except.ok c := by
  unfold ParseWithClaims
  rw [L.jwt_decode_encode]
  simp only [auth.keyFunc, ne_eq, not_true_eq_false, if_false, L.jwt_verify_encode, Bool.true_eq_false, hnbf,
    Option.any_none]
  have : c.exp.any (fun exp => decide (NumericDate.Time exp ≤ now)) = false := by
    cases hc : c.exp with
    | none => rfl
    | some exp =>
      have := hexp exp hc
      simp only [Option.any_some, decide_eq_false_iff_not, not_le]
      exact this
  simp [this]

end jwt

namespace auth

theorem toDigitsCore_ne_nil (b f n : Nat) (ds : List Char) (h : ds ≠ []) :
    Nat.toDigitsCore b f n ds ≠ [] := by
  induction f generalizing n ds with
  | zero => simpa [Nat.toDigitsCore] using h
  | succ f ih =>
    simp only [Nat.toDigitsCore]
    split
    · simp
    · exact ih _ _ (by simp)

theorem toString_nat_ne_empty (n : Nat) : toString n ≠ "" := by
  show Nat.repr n ≠ ""
  unfold Nat.repr Nat.toDigits
  intro h
  have h2 := congrArg String.data h
  simp only [List.asString] at h2
  revert h2
  simp only [Nat.toDigitsCore]
  split
  · simp
  · exact toDigitsCore_ne_nil _ _ _ _ (by simp)

theorem toString_int_ne_empty (n : Int) : toString n ≠ "" := by
  cases n with
  | ofNat m => exact toString_nat_ne_empty m
  | negSucc m =>
    show "-" ++ toString (Nat.succ m) ≠ ""
    intro h
    have h2 := congrArg String.data h
    simp at h2

/-- A token id is never empty: 18 bytes give 24 characters, the fallback is a numeral. -/
theorem generateTokenID_ne_empty (env : TokenIDEnv) : generateTokenID env ≠ "" := by
  unfold generateTokenID Entropy.Read
  split
  · rename_i h
    split at h
    · exact toString_int_ne_empty _
    · simp at h
  · rename_i bytes h
    split at h
    · simp at h
    · simp only [Option.some.injEq] at h
      subst h
      intro h2
      have h3 := congrArg String.data h2
      simp [base64.RawURLEncoding, List.range, List.range.loop, base64.encodeBytes] at h3

end auth

namespace auth

theorem AccessClaims.ofJSON_toJSON (c : AccessClaims) : AccessClaims.ofJSON c.toJSON = c := by
  cases c; rfl

theorem RefreshClaims.ofJSON_toJSON_refresh (c : RefreshClaims) :
    RefreshClaims.ofJSON c.toJSON = c := by
  cases c; rfl

/-- A token whose claim set is not of kind `access` is rejected by `ParseAccessToken`. -/
theorem TokenManager.ParseAccessToken_wrong_kind (L : Lib) (m : TokenManager) (now : Time)
    (key : String) (c : jwt.Claims) (hkind : c.token_type ≠ TokenTypeAccess) :
    m.ParseAccessToken L now (L.jwtEncode key c) = Except.error ErrInvalidToken := by
  unfold TokenManager.ParseAccessToken
  split
  · rfl
  · rename_i json hparse
    obtain ⟨alg, hdec⟩ := jwt.ParseWithClaims_ok L _ _ _ _ hparse
    rw [L.jwt_decode_encode] at hdec
    simp only [Option.some.injEq, Prod.mk.injEq] at hdec
    obtain ⟨-, rfl⟩ := hdec
    simp [AccessClaims.ofJSON, hkind]

/-- A token whose claim set is not of kind `refresh` is rejected by `ParseRefreshToken`. -/
theorem TokenManager.ParseRefreshToken_wrong_kind (L : Lib) (m : TokenManager) (now : Time)
    (key : String) (c : jwt.Claims) (hkind : c.token_type ≠ TokenTypeRefresh) :
    m.ParseRefreshToken L now (L.jwtEncode key c) = Except.error ErrInvalidToken := by
  unfold TokenManager.ParseRefreshToken
  split
  · rfl
  · rename_i json hparse
    obtain ⟨alg, hdec⟩ := jwt.ParseWithClaims_ok L _ _ _ _ hparse
    rw [L.jwt_decode_encode] at hdec
    simp only [Option.some.injEq, Prod.mk.injEq] at hdec
    obtain ⟨-, rfl⟩ := hdec
    simp [RefreshClaims.ofJSON, hkind]

/-- A token without subject is rejected by `ParseAccessToken`, and so is one without role. -/
theorem TokenManager.ParseAccessToken_empty (L : Lib) (m : TokenManager) (now : Time)
    (key : String) (c : AccessClaims) (hempty : c.Subject = "" ∨ c.Role = "") :
    m.ParseAccessToken L now (L.jwtEncode key c.toJSON) = Except.error ErrInvalidToken := by
  unfold TokenManager.ParseAccessToken
  split
  · rfl
  · rename_i json hparse
    obtain ⟨alg, hdec⟩ := jwt.ParseWithClaims_ok L _ _ _ _ hparse
    rw [L.jwt_decode_encode] at hdec
    simp only [Option.some.injEq, Prod.mk.injEq] at hdec
    obtain ⟨-, rfl⟩ := hdec
    rw [AccessClaims.ofJSON_toJSON]
    rcases hempty with h | h <;> simp [h]

/-- A token without subject is rejected by `ParseRefreshToken`. -/
theorem TokenManager.ParseRefreshToken_empty (L : Lib) (m : TokenManager) (now : Time)
    (key : String) (c : RefreshClaims) (hempty : c.Subject = "") :
    m.ParseRefreshToken L now (L.jwtEncode key c.toJSON) = Except.error ErrInvalidToken := by
  unfold TokenManager.ParseRefreshToken
  split
  · rfl
  · rename_i json hparse
    obtain ⟨alg, hdec⟩ := jwt.ParseWithClaims_ok L _ _ _ _ hparse
    rw [L.jwt_decode_encode] at hdec
    simp only [Option.some.injEq, Prod.mk.injEq] at hdec
    obtain ⟨-, rfl⟩ := hdec
    rw [RefreshClaims.ofJSON_toJSON_refresh]
    simp [hempty]

/-- An access token parsed under the secret it was signed with, before its `exp`. -/
theorem TokenManager.ParseAccessToken_encode (L : Lib) (m : TokenManager) (now : Time)
    (c : AccessClaims) (hkind : c.TokenType = TokenTypeAccess) (hsub : c.Subject ≠ "")
    (hrole : c.Role ≠ "") (hnbf : c.NotBefore = none)
    (hexp : ∀ exp, c.ExpiresAt = some exp → now < jwt.NumericDate.Time exp) :
    m.ParseAccessToken L now (L.jwtEncode m.accessSecret c.toJSON) = Except.ok c := by
  unfold TokenManager.ParseAccessToken
  rw [jwt.ParseWithClaims_encode L now m.accessSecret c.toJSON hexp hnbf]
  simp [AccessClaims.ofJSON_toJSON, hkind, hsub, hrole]

/-- A refresh token parsed under the secret it was signed with, before its `exp`. -/
theorem TokenManager.ParseRefreshToken_encode (L : Lib) (m : TokenManager) (now : Time)
    (c : RefreshClaims) (hkind : c.TokenType = TokenTypeRefresh) (hsub : c.Subject ≠ "")
    (hid : c.ID ≠ "") (hnbf : c.NotBefore = none)
    (hexp : ∀ exp, c.ExpiresAt = some exp → now < jwt.NumericDate.Time exp) :
    m.ParseRefreshToken L now (L.jwtEncode m.refreshSecret c.toJSON) = Except.ok c := by
  unfold TokenManager.ParseRefreshToken
  rw [jwt.ParseWithClaims_encode L now m.refreshSecret c.toJSON hexp hnbf]
  simp [RefreshClaims.ofJSON_toJSON_refresh, hkind, hsub, hid]

end auth


namespace auth

/-- The empty string is not a token. -/
theorem TokenManager.ParseRefreshToken_blank (L : Lib) (m : TokenManager) (now : Time) :
    m.ParseRefreshToken L now "" = Except.error ErrInvalidToken := by
  simp [TokenManager.ParseRefreshToken, jwt.ParseWithClaims, L.jwt_decode_empty]

end auth

namespace service

open repository

/-- `Logout` on a token the parser accepts: the result is nil and the store is the one left
by `RevokeByHash`. -/
theorem AuthService.Logout_accepted (L : Lib) (s : AuthService) (env : LogoutEnv)
    (input : LogoutInput) (db : DB) (claims : auth.RefreshClaims)
    (hparse : s.tokenManager.ParseRefreshToken L env.parseNow
      (strings.TrimSpace input.RefreshToken) = Except.ok claims) :
    s.Logout L env input db =
      (none, (GormRefreshTokenRepository.RevokeByHash env.revokeNow
        (auth.HashToken L (strings.TrimSpace input.RefreshToken)) db).2) := by
  have hne : strings.TrimSpace input.RefreshToken ≠ "" := by
    intro h
    rw [h, auth.TokenManager.ParseRefreshToken_blank] at hparse
    simp at hparse
  unfold AuthService.Logout
  dsimp only
  rw [if_neg hne, hparse]
  dsimp only
  rcases h : GormRefreshTokenRepository.RevokeByHash env.revokeNow
    (auth.HashToken L (strings.TrimSpace input.RefreshToken)) db with ⟨e, db1⟩
  have he := GormRefreshTokenRepository.RevokeByHash_err env.revokeNow
    (auth.HashToken L (strings.TrimSpace input.RefreshToken)) db
  rw [h] at he
  rcases he with he | he
  · simp only at he; subst he; rfl
  · simp only at he; subst he
    simp [errors.Is, ErrNotFound]

/-- What a `Logout` that returned nil did. -/
theorem AuthService.Logout_nil (L : Lib) (s : AuthService) (env : LogoutEnv)
    (input : LogoutInput) (db db1 : DB) (h : s.Logout L env input db = (none, db1)) :
    strings.TrimSpace input.RefreshToken ≠ "" ∧
    (∃ claims, s.tokenManager.ParseRefreshToken L env.parseNow
      (strings.TrimSpace input.RefreshToken) = Except.ok claims) ∧
    db1 = (GormRefreshTokenRepository.RevokeByHash env.revokeNow
      (auth.HashToken L (strings.TrimSpace input.RefreshToken)) db).2 := by
  by_cases hne : strings.TrimSpace input.RefreshToken = ""
  · simp [AuthService.Logout, hne] at h
  · cases hparse : s.tokenManager.ParseRefreshToken L env.parseNow
        (strings.TrimSpace input.RefreshToken) with
    | error e => simp [AuthService.Logout, hne, hparse] at h
    | ok claims =>
      rw [AuthService.Logout_accepted L s env input db claims hparse] at h
      simp only [Prod.mk.injEq, true_and] at h
      exact ⟨hne, ⟨claims, rfl⟩, h.symm⟩

end service


namespace repository

/-- `RevokeByHash` keeps the primary keys of the rows. -/
theorem GormRefreshTokenRepository.RevokeByHash_ids (now : Time) (h : String) (db : DB)
    (id : String) (hid : ∀ r ∈ db.refresh_tokens, r.ID ≠ id) :
    ∀ r ∈ (GormRefreshTokenRepository.RevokeByHash now h db).2.refresh_tokens, r.ID ≠ id := by
  rw [GormRefreshTokenRepository.RevokeByHash_db]
  intro r hr
  simp only [List.mem_map] at hr
  obtain ⟨t, ht, rfl⟩ := hr
  split
  · exact hid t ht
  · exact hid t ht

end repository


/-! ## Facts about strings -/

namespace strings

theorem utf8ByteSize_go_ge (cs : List Char) : cs.length ≤ String.utf8ByteSize.go cs := by
  induction cs with
  | nil => simp [String.utf8ByteSize.go]
  | cons c cs ih =>
    have := Char.utf8Size_pos c
    simp only [String.utf8ByteSize.go, List.length_cons]
    omega

/-- A string has at least as many bytes as characters. -/
theorem length_le_len (s : String) : s.length ≤ len s := by
  cases s with
  | mk cs => exact utf8ByteSize_go_ge cs

theorem dropWhile_of_head {p : Char → Bool} :
    ∀ l : List Char, (∀ a as, l = a :: as → p a = false) → l.dropWhile p = l
  | [], _ => rfl
  | a :: as, h => by simp [List.dropWhile, h a as rfl]

theorem rdropWhile_of_last {p : Char → Bool} (l : List Char)
    (h : ∀ hl : l ≠ [], p (l.getLast hl) = false) : l.rdropWhile p = l := by
  rw [List.rdropWhile_eq_self_iff]
  intro hl
  simp [h hl]

/-- The trimmed text neither starts nor ends with a character of the class. -/
theorem trim_head {p : Char → Bool} (l : List Char) (a : Char) (as : List Char)
    (h : (l.dropWhile p).rdropWhile p = a :: as) : p a = false := by
  have hpre := List.rdropWhile_prefix p (l.dropWhile p)
  rw [h] at hpre
  obtain ⟨rest, hrest⟩ := hpre
  have hne : l.dropWhile p ≠ [] := by rw [← hrest]; simp
  have := List.head_dropWhile_not p l hne
  simpa [← hrest] using this

theorem trim_last {p : Char → Bool} (l : List Char)
    (hl : (l.dropWhile p).rdropWhile p ≠ []) :
    p (((l.dropWhile p).rdropWhile p).getLast hl) = false := by
  simpa using List.rdropWhile_last_not p (l.dropWhile p) hl

/-- Trimming the lower-cased trimmed text changes nothing. -/
theorem TrimSpace_ToLower_TrimSpace (L : Lib) (s : String) :
    TrimSpace (ToLower L (TrimSpace s)) = ToLower L (TrimSpace s) := by
  unfold TrimSpace ToLower
  simp only
  congr 1
  set t := (s.data.dropWhile unicode.IsSpace).rdropWhile unicode.IsSpace with ht
  have h1 : (t.map L.lowerRune).dropWhile unicode.IsSpace = t.map L.lowerRune := by
    apply dropWhile_of_head
    intro a as hm
    cases hcase : t with
    | nil => rw [hcase] at hm; simp at hm
    | cons b bs =>
      rw [hcase] at hm
      simp only [List.map_cons, List.cons.injEq] at hm
      rw [← hm.1, L.lowerRune_space]
      exact trim_head s.data b bs (ht ▸ hcase)
  rw [h1]
  apply rdropWhile_of_last
  intro hl
  have hne : t ≠ [] := by
    intro h; apply hl; rw [h]; rfl
  rw [List.getLast_map, L.lowerRune_space]
  · exact trim_last s.data hne

/-- Lower-casing twice is lower-casing once. -/
theorem ToLower_ToLower (L : Lib) (s : String) : ToLower L (ToLower L s) = ToLower L s := by
  unfold ToLower
  simp only [List.map_map]
  congr 1
  apply List.map_congr_left
  intro c _
  exact L.lowerRune_idem c

end strings

namespace service

/-- A normalized email is its own normal form. -/
theorem normalizeEmail_idem (L : Lib) (email : String) :
    normalizeEmail L (normalizeEmail L email) = normalizeEmail L email := by
  unfold normalizeEmail
  rw [strings.TrimSpace_ToLower_TrimSpace, strings.ToLower_ToLower]

end service

namespace repository

namespace GormUserRepository

theorem GetByEmail_notFound (L : Lib) (email : String) (db : DB)
    (h : ∀ u ∈ db.users, u.Email ≠ strings.ToLower L (strings.TrimSpace email)) :
    GetByEmail L email db = Except.error ErrNotFound := by
  unfold GetByEmail
  have : gorm.First models.User.ID (db.users.filter
      (fun u => decide (u.Email = strings.ToLower L (strings.TrimSpace email)))) = none := by
    rw [gorm.First_filter_none]
    intro u hu
    simpa using h u hu
  rw [this]

/-- `GetByEmail` fails only with `ErrNotFound`, and only when no row has the email. -/
theorem GetByEmail_error (L : Lib) (email : String) (db : DB) (err : GoError)
    (h : GetByEmail L email db = Except.error err) :
    err = ErrNotFound ∧
      ∀ u ∈ db.users, u.Email ≠ strings.ToLower L (strings.TrimSpace email) := by
  unfold GetByEmail at h
  split at h
  · rename_i hnone
    rw [gorm.First_filter_none] at hnone
    simp only [Except.error.injEq] at h
    refine ⟨h.symm, ?_⟩
    intro u hu
    simpa using hnone u hu
  · simp at h

theorem GetByEmail_ok (L : Lib) (email : String) (db : DB) (user : models.User)
    (h : GetByEmail L email db = Except.ok user) :
    user ∈ db.users ∧ user.Email = strings.ToLower L (strings.TrimSpace email) := by
  unfold GetByEmail at h
  split at h
  · simp at h
  · rename_i u hsome
    simp only [Except.ok.injEq] at h
    subst h
    simpa using gorm.First_filter_some _ _ _ _ hsome

/-- When a row has the email, `GetByEmail` returns such a row. -/
theorem GetByEmail_found (L : Lib) (email : String) (db : DB)
    (h : ∃ u ∈ db.users, u.Email = strings.ToLower L (strings.TrimSpace email)) :
    ∃ user, GetByEmail L email db = Except.ok user := by
  cases hget : GetByEmail L email db with
  | ok user => exact ⟨user, rfl⟩
  | error err =>
    obtain ⟨u, hu, he⟩ := h
    exact absurd he ((GetByEmail_error L email db err hget).2 u hu)

theorem GetByID_ok (id : String) (db : DB) (user : models.User)
    (h : GetByID id db = Except.ok user) : user ∈ db.users ∧ user.ID = id := by
  unfold GetByID at h
  split at h
  · simp at h
  · rename_i u hsome
    simp only [Except.ok.injEq] at h
    subst h
    simpa using gorm.First_filter_some _ _ _ _ hsome

/-- A successful `Create` appended the row, with the primary key and the time stamps filled
in, to a table that held neither that key nor that email. -/
theorem Create_ok (L : Lib) (uuid : String) (now : Time) (user row : models.User) (db db1 : DB)
    (h : Create L uuid now user db = (Except.ok row, db1)) :
    row = { user with ID := gorm.newID user.ID uuid, CreatedAt := now, UpdatedAt := now } ∧
    db1 = { db with users := db.users ++ [row] } ∧
    (∀ u ∈ db.users, u.ID ≠ row.ID) ∧ (∀ u ∈ db.users, u.Email ≠ row.Email) := by
  unfold Create gorm.CreateUser at h
  dsimp only at h
  by_cases h1 : db.users.any (fun u => decide (u.ID = gorm.newID user.ID uuid)) = true
  · rw [if_pos h1] at h
    dsimp only at h
    split at h <;> simp at h
  · rw [if_neg h1] at h
    by_cases h2 : db.users.any (fun u => decide (u.Email = user.Email)) = true
    · rw [if_pos h2] at h
      dsimp only at h
      split at h <;> simp at h
    · rw [if_neg h2] at h
      simp only [Prod.mk.injEq, Except.ok.injEq] at h
      obtain ⟨rfl, rfl⟩ := h
      refine ⟨rfl, rfl, ?_, ?_⟩
      · intro u hu hid
        apply h1
        simp only [List.any_eq_true, decide_eq_true_eq]
        exact ⟨u, hu, hid⟩
      · intro u hu hem
        apply h2
        simp only [List.any_eq_true, decide_eq_true_eq]
        exact ⟨u, hu, hem⟩

/-- `Create` succeeds on a table that holds neither the key nor the email. -/
theorem Create_fresh (L : Lib) (uuid : String) (now : Time) (user : models.User) (db : DB)
    (hid : ∀ u ∈ db.users, u.ID ≠ gorm.newID user.ID uuid)
    (hemail : ∀ u ∈ db.users, u.Email ≠ user.Email) :
    Create L uuid now user db =
      (Except.ok { user with ID := gorm.newID user.ID uuid, CreatedAt := now, UpdatedAt := now },
        { db with users := db.users ++
          [{ user with ID := gorm.newID user.ID uuid, CreatedAt := now, UpdatedAt := now }] }) := by
  have h1 : db.users.any (fun u => decide (u.ID = gorm.newID user.ID uuid)) = false := by
    simp only [List.any_eq_false, decide_eq_true_eq]
    exact hid
  have h2 : db.users.any (fun u => decide (u.Email = user.Email)) = false := by
    simp only [List.any_eq_false, decide_eq_true_eq]
    exact hemail
  simp [Create, gorm.CreateUser, h1, h2]

end GormUserRepository

end repository

namespace service

open repository

/-- What a successful `Register` did. -/
theorem AuthService.Register_ok (L : Lib) (s : AuthService) (env : RegisterEnv)
    (input : RegisterInput) (db db1 : DB) (user : RegisteredUser) (pair : TokenPair)
    (h : s.Register L env input db = (Except.ok (user, pair), db1)) :
    isValidEmail (normalizeEmail L input.Email) = true ∧ 8 ≤ strings.len input.Password ∧
    (∀ u ∈ db.users, u.Email ≠ normalizeEmail L input.Email) ∧
    (∀ u ∈ db.users, u.ID ≠ env.userID) ∧
    ∃ hashed, auth.HashPassword L env.hashRand input.Password = Except.ok hashed ∧
      user = { ID := env.userID, Email := normalizeEmail L input.Email,
               Role := s.defaultRole } ∧
      s.issueTokenPair L env.issue env.userID s.defaultRole
        { db with users := db.users ++ [s.newUser L env input hashed] } =
          (Except.ok pair, db1) := by
  unfold AuthService.Register at h
  dsimp only at h
  split at h
  · simp at h
  · rename_i hvalid
    simp only [Bool.or_eq_true, Bool.not_eq_true', decide_eq_true_eq, not_or,
      Bool.not_eq_false, not_lt] at hvalid
    split at h
    · simp at h
    · rename_i err hget
      obtain ⟨rfl, hnone⟩ := GormUserRepository.GetByEmail_error L _ db err hget
      rw [← normalizeEmail, normalizeEmail_idem] at hnone
      split at h
      · simp at h
      · split at h
        · simp at h
        · rename_i hashed hhash
          split at h
          · split at h <;> simp at h
          · rename_i row db2 hcreate
            obtain ⟨rfl, rfl, hid, -⟩ := GormUserRepository.Create_ok L _ _ _ _ _ _ hcreate
            simp only [gorm.newID_empty] at h hid
            split at h
            · simp at h
            · rename_i pair2 db3 hissue
              simp only [Prod.mk.injEq, Except.ok.injEq] at h
              obtain ⟨⟨rfl, rfl⟩, rfl⟩ := h
              exact ⟨hvalid.1, hvalid.2, hnone, hid, hashed, hhash, rfl, hissue⟩

/-- `Register` succeeds for a well-formed unregistered email and a password of at least
eight bytes, when the password hashes and the store accepts the two new rows. -/
theorem AuthService.Register_success (L : Lib) (s : AuthService) (env : RegisterEnv)
    (input : RegisterInput) (db : DB) (hashed : String)
    (hvalid : isValidEmail (normalizeEmail L input.Email) = true)
    (hpw : 8 ≤ strings.len input.Password)
    (hnew : ∀ u ∈ db.users, u.Email ≠ normalizeEmail L input.Email)
    (hhash : auth.HashPassword L env.hashRand input.Password = Except.ok hashed)
    (huser : ∀ u ∈ db.users, u.ID ≠ env.userID)
    (hrow : ∀ r ∈ db.refresh_tokens, r.ID ≠ env.issue.rowID) :
    ∃ pair db1,
      s.Register L env input db =
        (Except.ok ({ ID := env.userID, Email := normalizeEmail L input.Email,
                      Role := s.defaultRole }, pair), db1) ∧
      s.issueTokenPair L env.issue env.userID s.defaultRole
        { db with users := db.users ++ [s.newUser L env input hashed] } =
          (Except.ok pair, db1) := by
  obtain ⟨pair, db1, hissue⟩ := AuthService.issueTokenPair_fresh L s env.issue env.userID
    s.defaultRole { db with users := db.users ++ [s.newUser L env input hashed] } hrow
  refine ⟨pair, db1, ?_, hissue⟩
  have hget : GormUserRepository.GetByEmail L (normalizeEmail L input.Email) db =
      Except.error ErrNotFound := by
    apply GormUserRepository.GetByEmail_notFound
    rw [← normalizeEmail, normalizeEmail_idem]
    exact hnew
  have hcreate := GormUserRepository.Create_fresh L env.userID env.userNow
    { ID := "", Email := normalizeEmail L input.Email, PasswordHash := hashed,
      Role := s.defaultRole, CreatedAt := 0, UpdatedAt := 0 } db
    (by simpa using huser) hnew
  simp only [gorm.newID_empty] at hcreate
  unfold AuthService.newUser at hissue
  unfold AuthService.Register
  dsimp only
  have hlen : ¬ strings.len input.Password < 8 := by omega
  simp only [hvalid, hlen, Bool.not_true, decide_False, Bool.or_self, Bool.false_eq_true,
    if_false, hget, hhash, hcreate, hissue, errors.Is, ErrNotFound, decide_True]

end service

namespace service

open repository

/-- `issueTokenPair` leaves the table of users alone. -/
theorem AuthService.issueTokenPair_users (L : Lib) (s : AuthService) (env : IssueEnv)
    (userID role : String) (db : DB) :
    (s.issueTokenPair L env userID role db).2.users = db.users := by
  by_cases hany : db.refresh_tokens.any (fun r => decide (r.ID = env.rowID)) = true <;>
    simp [AuthService.issueTokenPair, auth.TokenManager.GenerateAccessToken,
      auth.TokenManager.GenerateRefreshToken, GormRefreshTokenRepository.Create,
      gorm.CreateRefreshToken, hany]

/-- `Login` with a well-formed email that no row carries and a password that is not blank. -/
theorem AuthService.Login_unknown (L : Lib) (s : AuthService) (env : IssueEnv)
    (input : LoginInput) (db : DB)
    (hvalid : isValidEmail (normalizeEmail L input.Email) = true)
    (hpw : strings.TrimSpace input.Password ≠ "")
    (hnone : ∀ u ∈ db.users, u.Email ≠ normalizeEmail L input.Email) :
    s.Login L env input db = (Except.error ErrInvalidCredentials, db) := by
  have hget : GormUserRepository.GetByEmail L (normalizeEmail L input.Email) db =
      Except.error ErrNotFound := by
    apply GormUserRepository.GetByEmail_notFound
    rw [← normalizeEmail, normalizeEmail_idem]
    exact hnone
  unfold AuthService.Login
  dsimp only
  simp [hvalid, hpw, hget, errors.Is, ErrNotFound]

/-- `Login` when the only row with the email is `user`: the password decides. -/
theorem AuthService.Login_known (L : Lib) (s : AuthService) (env : IssueEnv)
    (input : LoginInput) (db : DB) (user : models.User)
    (hvalid : isValidEmail (normalizeEmail L input.Email) = true)
    (hpw : strings.TrimSpace input.Password ≠ "")
    (hget : GormUserRepository.GetByEmail L (normalizeEmail L input.Email) db =
      Except.ok user) :
    s.Login L env input db =
      if auth.VerifyPassword L user.PasswordHash input.Password = true then
        match s.issueTokenPair L env user.ID user.Role db with
        | (Except.error err, db1) => (Except.error err, db1)
        | (Except.ok pair, db1) =>
          (Except.ok ({ ID := user.ID, Email := user.Email, Role := user.Role }, pair), db1)
      else (Except.error ErrInvalidCredentials, db) := by
  unfold AuthService.Login
  dsimp only
  simp only [hvalid, hpw, hget, Bool.not_true, decide_False, Bool.or_self, Bool.false_eq_true,
    if_false]
  cases hv : auth.VerifyPassword L user.PasswordHash input.Password <;> simp

/-- After a successful `Register`, the lookup of the registered email returns the new row. -/
theorem AuthService.Register_then_GetByEmail (L : Lib) (s : AuthService) (env : RegisterEnv)
    (input : RegisterInput) (db db1 : DB) (user : RegisteredUser) (pair : TokenPair)
    (h : s.Register L env input db = (Except.ok (user, pair), db1)) :
    ∃ hashed, auth.HashPassword L env.hashRand input.Password = Except.ok hashed ∧
      db1.users = db.users ++ [s.newUser L env input hashed] ∧
      GormUserRepository.GetByEmail L (normalizeEmail L input.Email) db1 =
        Except.ok (s.newUser L env input hashed) := by
  obtain ⟨-, -, hnew, -, hashed, hhash, -, hissue⟩ := AuthService.Register_ok L s env input db db1
    user pair h
  have husers : db1.users = db.users ++ [s.newUser L env input hashed] := by
    have := AuthService.issueTokenPair_users L s env.issue env.userID s.defaultRole
      { db with users := db.users ++ [s.newUser L env input hashed] }
    rw [hissue] at this
    exact this
  refine ⟨hashed, hhash, husers, ?_⟩
  unfold GormUserRepository.GetByEmail
  rw [← normalizeEmail, normalizeEmail_idem, husers, List.filter_append]
  have h1 : db.users.filter (fun u => decide (u.Email = normalizeEmail L input.Email)) = [] := by
    rw [List.filter_eq_nil_iff]
    intro u hu
    simpa using hnew u hu
  rw [h1]
  simp [AuthService.newUser, gorm.First]

end service

namespace repository

namespace GormPasswordResetTokenRepository

theorem GetActiveByHash_ok (now : Time) (h : String) (db : DB) (t : models.PasswordResetToken)
    (hget : GetActiveByHash now h db = Except.ok t) :
    t ∈ db.password_reset_tokens ∧ t.TokenHash = h ∧ t.UsedAt = none ∧ t.ExpiresAt > now := by
  unfold GetActiveByHash at hget
  split at hget
  · simp at hget
  · rename_i u hsome
    simp only [Except.ok.injEq] at hget
    subst hget
    have := gorm.First_filter_some _ _ _ _ hsome
    simp only [Bool.and_eq_true, decide_eq_true_eq, Option.isNone_iff_eq_none] at this
    exact ⟨this.1, this.2.1.1, this.2.1.2, this.2.2⟩

/-- When some unused, unexpired row has the fingerprint, `GetActiveByHash` returns one. -/
theorem GetActiveByHash_found (now : Time) (h : String) (db : DB)
    (r : models.PasswordResetToken) (hr : r ∈ db.password_reset_tokens)
    (hh : r.TokenHash = h) (hu : r.UsedAt = none) (he : r.ExpiresAt > now) :
    ∃ t, GetActiveByHash now h db = Except.ok t := by
  unfold GetActiveByHash
  split
  · rename_i hnone
    rw [gorm.First_filter_none] at hnone
    have := hnone r hr
    simp [hh, hu, he] at this
  · exact ⟨_, rfl⟩

theorem GetActiveByHash_none_unused (now : Time) (h : String) (db : DB)
    (hno : ∀ r ∈ db.password_reset_tokens, r.TokenHash = h → r.UsedAt ≠ none) :
    GetActiveByHash now h db = Except.error ErrNotFound := by
  unfold GetActiveByHash
  have : gorm.First models.PasswordResetToken.ID (db.password_reset_tokens.filter (fun t =>
      decide (t.TokenHash = h) && t.UsedAt.isNone && decide (t.ExpiresAt > now))) = none := by
    rw [gorm.First_filter_none]
    intro r hr
    by_cases c : r.TokenHash = h
    · have := hno r hr c
      cases hu : r.UsedAt with
      | none => exact absurd hu this
      | some _ => simp
    · simp [c]
  rw [this]

/-- The store left by `MarkUsedByID`. -/
theorem MarkUsedByID_db (now : Time) (id : String) (db : DB) :
    (MarkUsedByID now id db).2 =
      { db with password_reset_tokens := db.password_reset_tokens.map (fun t =>
          if decide (t.ID = id) && t.UsedAt.isNone then { t with UsedAt := some now } else t) } := by
  unfold MarkUsedByID gorm.Updates
  dsimp only
  split <;> rfl

/-- `MarkUsedByID` returns nil when an unused row has the key. -/
theorem MarkUsedByID_nil (now : Time) (id : String) (db : DB) (r : models.PasswordResetToken)
    (hr : r ∈ db.password_reset_tokens) (hid : r.ID = id) (hu : r.UsedAt = none) :
    (MarkUsedByID now id db).1 = none := by
  unfold MarkUsedByID gorm.Updates
  dsimp only
  have : (db.password_reset_tokens.filter
      (fun t => decide (t.ID = id) && t.UsedAt.isNone)).length ≠ 0 := by
    intro h0
    have hnil := List.length_eq_zero.mp h0
    rw [List.filter_eq_nil_iff] at hnil
    have := hnil r hr
    simp [hid, hu] at this
  rw [if_neg this]

end GormPasswordResetTokenRepository

namespace GormUserRepository

/-- The store left by `UpdatePasswordHash`. -/
theorem UpdatePasswordHash_db (now : Time) (id hash : String) (db : DB) :
    (UpdatePasswordHash now id hash db).2 =
      { db with users := db.users.map (fun u =>
          if decide (u.ID = id) then { u with PasswordHash := hash, UpdatedAt := now } else u) } := by
  unfold UpdatePasswordHash gorm.Updates
  dsimp only
  split <;> rfl

/-- `UpdatePasswordHash` returns nil when a row has the key. -/
theorem UpdatePasswordHash_nil (now : Time) (id hash : String) (db : DB) (u : models.User)
    (hu : u ∈ db.users) (hid : u.ID = id) : (UpdatePasswordHash now id hash db).1 = none := by
  unfold UpdatePasswordHash gorm.Updates
  dsimp only
  have : (db.users.filter (fun u => decide (u.ID = id))).length ≠ 0 := by
    intro h0
    have hnil := List.length_eq_zero.mp h0
    rw [List.filter_eq_nil_iff] at hnil
    have := hnil u hu
    simp [hid] at this
  rw [if_neg this]

end GormUserRepository

end repository

namespace service

open repository

/-- `ConfirmPasswordReset` on a token whose fingerprint is carried by exactly one unused row,
unexpired and owned by an existing user, with a password that hashes: the result is nil,
the owner has the new hash, the row is marked used. -/
theorem AuthService.ConfirmPasswordReset_success (L : Lib) (s : AuthService)
    (env : ConfirmResetEnv) (input : ConfirmResetInput) (db : DB)
    (r : models.PasswordResetToken) (hashed : String)
    (hne : strings.TrimSpace input.Token ≠ "")
    (hpw : 8 ≤ strings.len input.NewPassword)
    (hr : r ∈ db.password_reset_tokens)
    (hrh : r.TokenHash = auth.HashToken L (strings.TrimSpace input.Token))
    (hru : r.UsedAt = none) (hre : r.ExpiresAt > env.lookupNow)
    (hunique : ∀ r2 ∈ db.password_reset_tokens,
      r2.TokenHash = auth.HashToken L (strings.TrimSpace input.Token) → r2.UsedAt = none →
        r2 = r)
    (howner : ∃ u ∈ db.users, u.ID = r.UserID)
    (hhash : auth.HashPassword L env.hashRand input.NewPassword = Except.ok hashed) :
    s.ConfirmPasswordReset L env input db = (none, confirmedStore env r hashed db) := by
  have hget : GormPasswordResetTokenRepository.GetActiveByHash env.lookupNow
      (auth.HashToken L (strings.TrimSpace input.Token)) db = Except.ok r := by
    obtain ⟨t, ht⟩ := GormPasswordResetTokenRepository.GetActiveByHash_found env.lookupNow _ db
      r hr hrh hru hre
    obtain ⟨h1, h2, h3, -⟩ := GormPasswordResetTokenRepository.GetActiveByHash_ok _ _ _ _ ht
    rw [ht, hunique t h1 h2 h3]
  obtain ⟨u, hu, huid⟩ := howner
  have hupd := GormUserRepository.UpdatePasswordHash_nil env.updateNow r.UserID hashed db u hu huid
  have hupd2 : GormUserRepository.UpdatePasswordHash env.updateNow r.UserID hashed db =
      (none, (GormUserRepository.UpdatePasswordHash env.updateNow r.UserID hashed db).2) := by
    rw [← hupd]
  have hr2 : r ∈ (GormUserRepository.UpdatePasswordHash env.updateNow r.UserID hashed
      db).2.password_reset_tokens := by
    rw [GormUserRepository.UpdatePasswordHash_db]
    exact hr
  have hmark := GormPasswordResetTokenRepository.MarkUsedByID_nil env.markNow r.ID _ r hr2 rfl hru
  have hmark2 : GormPasswordResetTokenRepository.MarkUsedByID env.markNow r.ID
      (GormUserRepository.UpdatePasswordHash env.updateNow r.UserID hashed db).2 =
      (none, confirmedStore env r hashed db) := by
    unfold confirmedStore
    rw [← hmark]
  have hlen : ¬ strings.len input.NewPassword < 8 := by omega
  unfold AuthService.ConfirmPasswordReset AuthService.ConfirmPasswordResetWith
  dsimp only
  simp only [hne, hlen, decide_False, Bool.or_self, Bool.false_eq_true, if_false, hget, hhash]
  rw [hupd2]
  dsimp only
  rw [hmark2]

/-- In the store left by a confirmation that consumed `r`, no unused row has a fingerprint
that `r` was the only unused row to carry. -/
theorem confirmedStore_used (env : ConfirmResetEnv) (r : models.PasswordResetToken)
    (hashed h : String) (db : DB)
    (hunique : ∀ r2 ∈ db.password_reset_tokens, r2.TokenHash = h → r2.UsedAt = none → r2 = r) :
    ∀ t ∈ (confirmedStore env r hashed db).password_reset_tokens,
      t.TokenHash = h → t.UsedAt ≠ none := by
  unfold confirmedStore
  rw [GormPasswordResetTokenRepository.MarkUsedByID_db, GormUserRepository.UpdatePasswordHash_db]
  intro t ht hh
  simp only [List.mem_map] at ht
  obtain ⟨t0, ht0, rfl⟩ := ht
  by_cases c : (decide (t0.ID = r.ID) && t0.UsedAt.isNone) = true
  · simp [c]
  · simp only [c, Bool.false_eq_true, if_false] at hh ⊢
    intro hnone
    have := hunique t0 ht0 hh hnone
    subst this
    simp [hnone] at c

/-- In the store left by a confirmation that consumed `r`, the owner of `r` has the hash. -/
theorem confirmedStore_hash (env : ConfirmResetEnv) (r : models.PasswordResetToken)
    (hashed : String) (db : DB) :
    ∀ u ∈ (confirmedStore env r hashed db).users, u.ID = r.UserID → u.PasswordHash = hashed := by
  unfold confirmedStore
  rw [GormPasswordResetTokenRepository.MarkUsedByID_db, GormUserRepository.UpdatePasswordHash_db]
  intro u hu hid
  simp only [List.mem_map] at hu
  obtain ⟨u0, -, rfl⟩ := hu
  by_cases c : u0.ID = r.UserID
  · simp [c]
  · simp only [c, decide_False, Bool.false_eq_true, if_false] at hid

/-- With no unused row for the fingerprint of the token, `ConfirmPasswordReset` fails: with
the validation error when the new password is shorter than eight bytes, else with
`ErrInvalidToken`; the store is left as it is. -/
theorem AuthService.ConfirmPasswordReset_no_active (L : Lib) (s : AuthService)
    (env : ConfirmResetEnv) (input : ConfirmResetInput) (db : DB)
    (hne : strings.TrimSpace input.Token ≠ "")
    (hno : ∀ t ∈ db.password_reset_tokens,
      t.TokenHash = auth.HashToken L (strings.TrimSpace input.Token) → t.UsedAt ≠ none) :
    s.ConfirmPasswordReset L env input db =
      (some (if strings.len input.NewPassword < 8 then
          GoError.wrap "password reset confirm invalid" ErrValidation
        else ErrInvalidToken), db) := by
  unfold AuthService.ConfirmPasswordReset AuthService.ConfirmPasswordResetWith
  dsimp only
  by_cases hlen : strings.len input.NewPassword < 8
  · simp [hne, hlen]
  · simp [hne, hlen, GormPasswordResetTokenRepository.GetActiveByHash_none_unused _ _ _ hno,
      errors.Is, ErrNotFound]

end service

namespace auth

/-- A password verifies against the hash `HashPassword` made of it. -/
theorem VerifyPassword_of_HashPassword (L : Lib) (rand : Entropy) (password hashed : String)
    (h : HashPassword L rand password = Except.ok hashed) :
    VerifyPassword L hashed password = true := by
  unfold HashPassword bcrypt.GenerateFromPassword at h
  split at h
  · simp at h
  · rename_i hash hgen
    simp only [Except.ok.injEq] at h
    subst h
    split at hgen
    · simp at hgen
    · exact L.bcrypt_accepts _ _ _ hgen

end auth


/-! ## Facts about the steps of the service functions -/

namespace service

open repository

theorem AuthService.refreshRotate_eq_revoked (L : Lib) (s : AuthService) (revokeNow : Time)
    (issue : IssueEnv) (user : models.User) (hashed : String) (db : DB) :
    s.refreshRotate L revokeNow issue user hashed db =
      s.refreshRevoked L issue user
        (GormRefreshTokenRepository.RevokeByHash revokeNow hashed db) := by
  unfold AuthService.refreshRotate AuthService.refreshRevoked
  rfl

theorem AuthService.Register_eq_phases (L : Lib) (s : AuthService) (env : RegisterEnv)
    (input : RegisterInput) (db : DB) :
    s.Register L env input db =
      match AuthService.registerCheck L env.hashRand input db with
      | Except.error err => (Except.error err, db)
      | Except.ok hashed => s.registerCreate L env input hashed db := by
  unfold AuthService.Register AuthService.registerCheck AuthService.registerCreate
  dsimp only
  by_cases hv : (!isValidEmail (normalizeEmail L input.Email) ||
      decide (strings.len input.Password < 8)) = true
  · simp only [hv, if_true]
  · simp only [hv, if_false]
    cases hget : GormUserRepository.GetByEmail L (normalizeEmail L input.Email) db with
    | ok u => rfl
    | error err =>
      dsimp only
      by_cases hnf : (!errors.Is err ErrNotFound) = true
      · simp [hnf]
      · simp only [hnf, if_false, Bool.false_eq_true]
        cases hh : auth.HashPassword L env.hashRand input.Password with
        | error e => rfl
        | ok hashed => rfl

theorem AuthService.ConfirmPasswordReset_eq_phases (L : Lib) (s : AuthService)
    (env : ConfirmResetEnv) (input : ConfirmResetInput) (db : DB) :
    s.ConfirmPasswordReset L env input db =
      match AuthService.confirmCheck L env.lookupNow env.hashRand input db with
      | Except.error err => (some err, db)
      | Except.ok (stored, hashed) => AuthService.confirmWrite env stored hashed db := by
  unfold AuthService.ConfirmPasswordReset AuthService.ConfirmPasswordResetWith
    AuthService.confirmCheck AuthService.confirmWrite
    AuthService.confirmUpdated AuthService.confirmMarked
  dsimp only
  by_cases hv : (decide (strings.TrimSpace input.Token = "") ||
      decide (strings.len input.NewPassword < 8)) = true
  · simp only [hv, if_true]
  · simp only [hv, if_false]
    cases hget : GormPasswordResetTokenRepository.GetActiveByHash env.lookupNow
        (auth.HashToken L (strings.TrimSpace input.Token)) db with
    | error err =>
      dsimp only
      by_cases hnf : errors.Is err ErrNotFound = true
      · simp [hnf]
      · simp [hnf]
    | ok stored =>
      dsimp only
      cases hh : auth.HashPassword L env.hashRand input.NewPassword with
      | error e => rfl
      | ok hashed => rfl

end service

namespace strings

/-- On a text of ASCII characters `ToLower` is the ASCII case mapping. -/
theorem ToLower_of_ascii (L : Lib) (s : String) (h : ∀ c ∈ s.data, c.toNat < 128) :
    ToLower L s = String.mk (s.data.map Char.toLower) := by
  unfold ToLower
  congr 1
  apply List.map_congr_left
  intro c hc
  exact L.lowerRune_ascii c (h c hc)

end strings

namespace repository

namespace GormUserRepository

/-- The text of a unique-constraint violation on table `users` contains `duplicate`. -/
theorem uniqueViolation_duplicate (L : Lib) (constraint : String)
    (h : constraint = "users_pkey" ∨ constraint = "idx_users_email") :
    strings.Contains (strings.ToLower L (gorm.uniqueViolation constraint).Error) "duplicate" =
      true := by
  rcases h with rfl | rfl
  · rw [strings.ToLower_of_ascii L _ (by decide)]
    decide
  · rw [strings.ToLower_of_ascii L _ (by decide)]
    decide

/-- A failed `Create` leaves the store as it was, and the only failures of the store are the
two uniqueness conflicts, which the repository reports as `ErrDuplicate`. -/
theorem Create_error (L : Lib) (uuid : String) (now : Time) (user : models.User) (db db1 : DB)
    (err : GoError) (h : Create L uuid now user db = (Except.error err, db1)) :
    db1 = db ∧ err = GoError.wrap "create user" ErrDuplicate ∧
    ((∃ u ∈ db.users, u.ID = gorm.newID user.ID uuid) ∨ ∃ u ∈ db.users, u.Email = user.Email) := by
  unfold Create gorm.CreateUser at h
  dsimp only at h
  by_cases hid : db.users.any (fun u => decide (u.ID = gorm.newID user.ID uuid)) = true
  · simp only [hid, if_true,
      uniqueViolation_duplicate L "users_pkey" (Or.inl rfl), Bool.true_or, Prod.mk.injEq,
      Except.error.injEq] at h
    refine ⟨h.2.symm, h.1.symm, Or.inl ?_⟩
    simpa using hid
  · by_cases hemail : db.users.any (fun u => decide (u.Email = user.Email)) = true
    · simp only [hid, hemail, if_true, if_false, Bool.false_eq_true,
        uniqueViolation_duplicate L "idx_users_email" (Or.inr rfl), Bool.true_or, Prod.mk.injEq,
        Except.error.injEq] at h
      refine ⟨h.2.symm, h.1.symm, Or.inr ?_⟩
      simpa using hemail
    · simp [hid, hemail] at h

/-- When the primary key or the email of the new row is taken, `Create` reports
`ErrDuplicate` and writes nothing. -/
theorem Create_duplicate (L : Lib) (uuid : String) (now : Time) (user : models.User) (db : DB)
    (h : (∃ u ∈ db.users, u.ID = gorm.newID user.ID uuid) ∨
      ∃ u ∈ db.users, u.Email = user.Email) :
    Create L uuid now user db = (Except.error (GoError.wrap "create user" ErrDuplicate), db) := by
  unfold Create gorm.CreateUser
  dsimp only
  by_cases hid : db.users.any (fun u => decide (u.ID = gorm.newID user.ID uuid)) = true
  · simp only [hid, if_true, uniqueViolation_duplicate L "users_pkey" (Or.inl rfl), Bool.true_or]
  · have hemail : db.users.any (fun u => decide (u.Email = user.Email)) = true := by
      rcases h with h | h
      · exact absurd (by simpa using h) hid
      · simpa using h
    simp only [hid, hemail, if_true, if_false, Bool.false_eq_true,
      uniqueViolation_duplicate L "idx_users_email" (Or.inr rfl), Bool.true_or]

end GormUserRepository

end repository

namespace service

open repository

/-- What a successful `Login` went through. -/
theorem AuthService.Login_ok (L : Lib) (s : AuthService) (env : IssueEnv)
    (input : LoginInput) (db db1 : DB) (user : RegisteredUser) (pair : TokenPair)
    (h : s.Login L env input db = (Except.ok (user, pair), db1)) :
    ∃ u, GormUserRepository.GetByEmail L (normalizeEmail L input.Email) db = Except.ok u ∧
      auth.VerifyPassword L u.PasswordHash input.Password = true ∧
      user = { ID := u.ID, Email := u.Email, Role := u.Role } ∧
      s.issueTokenPair L env u.ID u.Role db = (Except.ok pair, db1) := by
  unfold AuthService.Login at h
  dsimp only at h
  by_cases hv : (!isValidEmail (normalizeEmail L input.Email) ||
      decide (strings.TrimSpace input.Password = "")) = true
  · simp [hv] at h
  · simp only [hv, if_false, Bool.false_eq_true] at h
    cases hget : GormUserRepository.GetByEmail L (normalizeEmail L input.Email) db with
    | error err =>
      rw [hget] at h
      dsimp only at h
      by_cases hnf : errors.Is err ErrNotFound = true
      · simp [hnf] at h
      · simp [hnf] at h
    | ok u =>
      rw [hget] at h
      dsimp only at h
      by_cases hver : auth.VerifyPassword L u.PasswordHash input.Password = true
      · simp only [hver, Bool.not_true, Bool.false_eq_true, if_false] at h
        rcases hissue : s.issueTokenPair L env u.ID u.Role db with ⟨r, d⟩
        rw [hissue] at h
        cases r with
        | error e => simp at h
        | ok p =>
          simp only [Prod.mk.injEq, Except.ok.injEq] at h
          obtain ⟨⟨hu, hp⟩, hd⟩ := h
          subst hp hd
          exact ⟨u, rfl, hver, hu.symm, hissue⟩
      · simp [hver] at h

end service

namespace repository

namespace GormPasswordResetTokenRepository

/-- When no row with the key is unused, `MarkUsedByID` changes nothing and reports
`ErrNotFound`. -/
theorem MarkUsedByID_noop (now : Time) (id : String) (db : DB)
    (hno : ∀ r ∈ db.password_reset_tokens, r.ID = id → r.UsedAt ≠ none) :
    MarkUsedByID now id db = (some ErrNotFound, db) := by
  have hf : ∀ r ∈ db.password_reset_tokens,
      (decide (r.ID = id) && r.UsedAt.isNone) = false := by
    intro r hr
    by_cases c : r.ID = id
    · have := hno r hr c
      cases hu : r.UsedAt with
      | none => exact absurd hu this
      | some t => simp [c]
    · simp [c]
  have hmap : db.password_reset_tokens.map (fun t =>
      if (decide (t.ID = id) && t.UsedAt.isNone) = true then
        { t with UsedAt := some now } else t) = db.password_reset_tokens := by
    conv_rhs => rw [← List.map_id db.password_reset_tokens]
    apply List.map_congr_left
    intro r hr
    simp [hf r hr]
  have hfil : db.password_reset_tokens.filter
      (fun t => decide (t.ID = id) && t.UsedAt.isNone) = [] := by
    rw [List.filter_eq_nil_iff]
    intro r hr
    simp [hf r hr]
  unfold MarkUsedByID gorm.Updates
  simp only [hmap, hfil, List.length_nil, if_true]

/-- When `MarkUsedByID` returns nil, the store it leaves holds a row with the key that
carries the time of the call as its time of use. -/
theorem MarkUsedByID_marked (now : Time) (id : String) (db db1 : DB)
    (h : MarkUsedByID now id db = (none, db1)) :
    ∃ r ∈ db1.password_reset_tokens, r.ID = id ∧ r.UsedAt = some now := by
  have hdb : db1 = (MarkUsedByID now id db).2 := by rw [h]
  rw [MarkUsedByID_db] at hdb
  by_cases hno : ∀ r ∈ db.password_reset_tokens, r.ID = id → r.UsedAt ≠ none
  · rw [MarkUsedByID_noop now id db hno] at h
    simp at h
  · push_neg at hno
    obtain ⟨r, hr, hid, hu⟩ := hno
    refine ⟨{ r with UsedAt := some now }, ?_, hid, rfl⟩
    rw [hdb]
    simp only [List.mem_map]
    exact ⟨r, hr, by simp [hid, hu]⟩

end GormPasswordResetTokenRepository

namespace GormUserRepository

/-- After `UpdatePasswordHash`, every row with the key carries the new hash. -/
theorem UpdatePasswordHash_written (now : Time) (id hash : String) (db : DB) :
    ∀ u ∈ (UpdatePasswordHash now id hash db).2.users, u.ID = id → u.PasswordHash = hash := by
  intro u hu hid
  rw [UpdatePasswordHash_db] at hu
  simp only [List.mem_map] at hu
  obtain ⟨v, _, rfl⟩ := hu
  by_cases c : v.ID = id
  · simp [c]
  · simp only [c, decide_False, Bool.false_eq_true, if_false] at hid

/-- `UpdatePasswordHash` leaves the reset records as they were. -/
theorem UpdatePasswordHash_resets (now : Time) (id hash : String) (db : DB) :
    (UpdatePasswordHash now id hash db).2.password_reset_tokens = db.password_reset_tokens := by
  rw [UpdatePasswordHash_db]

/-- The store left by `UpdateRole`. -/
theorem UpdateRole_db (now : Time) (id : String) (role : models.Role) (db : DB) :
    (UpdateRole now id role db).2 =
      { db with users := db.users.map (fun u =>
          if decide (u.ID = id) then { u with Role := role, UpdatedAt := now } else u) } := by
  unfold UpdateRole gorm.Updates
  dsimp only
  split <;> rfl

end GormUserRepository

end repository

namespace service

open repository

/-- After a successful `UpdateUserRole`, every credential with the user id carries the role
that the call returned. -/
theorem AdminService.UpdateUserRole_ok (L : Lib) (updateNow : Time) (userID role : String)
    (db db1 : DB) (summary : UserSummary)
    (h : AdminService.UpdateUserRole L updateNow userID role db = (Except.ok summary, db1)) :
    ∀ u ∈ db1.users, u.ID = userID → u.Role = summary.Role := by
  unfold AdminService.UpdateUserRole at h
  cases hrole : normalizeRole L role with
  | error e => simp [hrole] at h
  | ok nr =>
    rw [hrole] at h
    dsimp only at h
    by_cases hid : strings.TrimSpace userID = ""
    · simp [hid] at h
    · simp only [hid, if_false] at h
      rcases hupd : GormUserRepository.UpdateRole updateNow userID nr db with ⟨e, d⟩
      have hd : d = (GormUserRepository.UpdateRole updateNow userID nr db).2 := by rw [hupd]
      rw [GormUserRepository.UpdateRole_db] at hd
      rw [hupd] at h
      cases e with
      | some err =>
        dsimp only at h
        by_cases hnf : errors.Is err ErrNotFound = true
        · simp [hnf] at h
        · simp [hnf] at h
      | none =>
        dsimp only at h
        have hall : ∀ u ∈ d.users, u.ID = userID → u.Role = nr := by
          intro u hu huid
          rw [hd] at hu
          simp only [List.mem_map] at hu
          obtain ⟨v, _, rfl⟩ := hu
          by_cases c : v.ID = userID
          · simp [c]
          · simp only [c, decide_False, Bool.false_eq_true, if_false] at huid
        cases hget : GormUserRepository.GetByID userID d with
        | error err =>
          rw [hget] at h
          dsimp only at h
          by_cases hnf : errors.Is err ErrNotFound = true
          · simp [hnf] at h
          · simp [hnf] at h
        | ok user =>
          rw [hget] at h
          simp only [Prod.mk.injEq, Except.ok.injEq] at h
          obtain ⟨hs, rfl⟩ := h
          obtain ⟨hmem, huid⟩ := GormUserRepository.GetByID_ok userID d user hget
          intro u hu hu2
          rw [← hs]
          dsimp only
          rw [hall u hu hu2, hall user hmem huid]

/-- What a successful `Refresh` went through. -/
theorem AuthService.Refresh_ok (L : Lib) (s : AuthService) (env : RefreshEnv)
    (input : RefreshInput) (db db1 : DB) (pair : TokenPair)
    (h : s.Refresh L env input db = (Except.ok pair, db1)) :
    ∃ claims user,
      s.tokenManager.ParseRefreshToken L env.parseNow (strings.TrimSpace input.RefreshToken) =
        Except.ok claims ∧
      GormUserRepository.GetByID claims.Subject db = Except.ok user ∧
      s.issueTokenPair L env.issue user.ID user.Role
        (GormRefreshTokenRepository.RevokeByHash env.revokeNow
          (auth.HashToken L (strings.TrimSpace input.RefreshToken)) db).2 =
        (Except.ok pair, db1) := by
  rw [AuthService.Refresh_eq_phases] at h
  split at h
  · simp at h
  · rename_i user hashed hcheck
    obtain ⟨-, rfl, claims, stored, hparse, -, -, hget⟩ :=
      AuthService.refreshCheck_ok L s _ _ _ _ _ _ hcheck
    rw [AuthService.refreshRotate_eq] at h
    exact ⟨claims, user, hparse, hget, h⟩

end service

namespace auth

/-- A refresh token that parses has a subject. -/
theorem TokenManager.ParseRefreshToken_subject (L : Lib) (m : TokenManager) (now : Time)
    (token : String) (claims : RefreshClaims)
    (h : m.ParseRefreshToken L now token = Except.ok claims) : claims.Subject ≠ "" := by
  unfold TokenManager.ParseRefreshToken at h
  cases hp : jwt.ParseWithClaims L now token (keyFunc m.refreshSecret) with
  | error e => simp [hp] at h
  | ok json =>
    rw [hp] at h
    dsimp only at h
    by_cases hk : (RefreshClaims.ofJSON json).TokenType ≠ TokenTypeRefresh
    · simp [hk] at h
    · by_cases he : ((RefreshClaims.ofJSON json).Subject = "" ||
          (RefreshClaims.ofJSON json).ID = "") = true
      · simp [hk, he] at h
      · simp only [hk, he, if_false, Bool.false_eq_true, Except.ok.injEq] at h
        subst h
        intro h0
        simp [h0] at he

end auth

namespace repository

/-- The two lookups by fingerprint fail with `ErrNotFound` only. -/
theorem GormRefreshTokenRepository.GetActiveByHash_error (now : Time) (h : String) (db : DB)
    (err : GoError)
    (hget : GormRefreshTokenRepository.GetActiveByHash now h db = Except.error err) :
    err = ErrNotFound := by
  unfold GormRefreshTokenRepository.GetActiveByHash at hget
  split at hget
  · simpa using hget.symm
  · simp at hget

/-- `GetByID` reports `ErrNotFound` when no credential has the id. -/
theorem GormUserRepository.GetByID_notFound (id : String) (db : DB)
    (h : ∀ u ∈ db.users, u.ID ≠ id) : GormUserRepository.GetByID id db = Except.error ErrNotFound := by
  unfold GormUserRepository.GetByID
  have : gorm.First models.User.ID (db.users.filter (fun u => decide (u.ID = id))) = none := by
    rw [gorm.First_filter_none]
    intro u hu
    simp [h u hu]
  rw [this]

end repository

/-! ## Facts about the middleware -/

namespace utf8

/-- Reading runes off a string yields at most one rune per byte. -/
theorem rangeRunes_length_le : ∀ (fuel : Nat) (p : List Nat), (rangeRunes fuel p).length ≤ p.length
  | 0, _ => by simp [rangeRunes]
  | _ + 1, [] => by simp [rangeRunes]
  | fuel + 1, s0 :: rest => by
    have ih := rangeRunes_length_le fuel (rest.drop ((DecodeRune (s0 :: rest)).2 - 1))
    have hdrop : (rest.drop ((DecodeRune (s0 :: rest)).2 - 1)).length ≤ rest.length := by
      rw [List.length_drop]
      exact Nat.sub_le _ _
    simp only [rangeRunes, List.length_cons]
    omega

/-- The encoding of a rune is not empty, and when its first byte is an ASCII byte it has no
other byte. -/
theorem AppendRune_head (r : Nat) :
    ∃ b tail, AppendRune r = b :: tail ∧ (b < 0x80 → tail = []) := by
  unfold AppendRune
  split
  · exact ⟨_, _, rfl, fun _ => rfl⟩
  · split
    · exact ⟨_, _, rfl, fun h => by omega⟩
    · split
      · exact ⟨_, _, rfl, fun h => by omega⟩
      · split
        · exact ⟨_, _, rfl, fun h => by omega⟩
        · exact ⟨_, _, rfl, fun h => by omega⟩

end utf8

namespace strings

namespace bytes

/-- A run of ASCII bytes at the start of the encoding of a sequence of runes is no longer than
the sequence. -/
theorem ascii_prefix_length_le (mapping : Nat → Nat) :
    ∀ (rs pre : List Nat), (∀ b ∈ pre, b < 0x80) →
      pre <+: rs.flatMap (fun r => utf8.AppendRune (mapping r)) → pre.length ≤ rs.length
  | [], pre, _, hpre => by
    simp only [List.flatMap_nil, List.prefix_nil] at hpre
    simp [hpre]
  | r :: rs, [], _, _ => by simp
  | r :: rs, p0 :: pre, hascii, hpre => by
    obtain ⟨b, tail, henc, htail⟩ := utf8.AppendRune_head (mapping r)
    simp only [List.flatMap_cons, henc, List.cons_append] at hpre
    rw [List.cons_prefix_cons] at hpre
    obtain ⟨hb, hrest⟩ := hpre
    have hb0 : b < 0x80 := by
      rw [← hb]
      exact hascii p0 (List.mem_cons_self _ _)
    rw [htail hb0, List.nil_append] at hrest
    have ih := ascii_prefix_length_le mapping rs pre
      (fun x hx => hascii x (List.mem_cons_of_mem _ hx)) hrest
    simp only [List.length_cons]
    omega

/-- A string whose lower-case form starts with a run of ASCII bytes has at least as many
bytes as the run. -/
theorem ToLower_prefix_length (L : Lib) (s pre : List Nat) (hascii : ∀ b ∈ pre, b < 0x80)
    (h : HasPrefix (ToLower L s) pre = true) : pre.length ≤ s.length := by
  unfold HasPrefix at h
  rw [List.isPrefixOf_iff_prefix] at h
  unfold ToLower at h
  split at h
  · have := h.length_le
    simpa using this
  · unfold Map at h
    exact le_trans (ascii_prefix_length_le _ _ pre hascii h)
      (utf8.rangeRunes_length_le s.length s)

/-- The slice of `AuthRequired` is in range: a header whose lower-case form starts with
`bearer ` has at least seven bytes. -/
theorem sliceFrom_bearer (L : Lib) (header : List Nat)
    (h : HasPrefix (ToLower L header) (utf8.bytes "bearer ") = true) :
    sliceFrom header (strings.len "Bearer ") = some (header.drop 7) := by
  have hlen : (utf8.bytes "bearer ").length ≤ header.length :=
    ToLower_prefix_length L header _ (by decide) h
  have h7 : (utf8.bytes "bearer ").length = 7 := by decide
  have hl : strings.len "Bearer " = 7 := by decide
  unfold sliceFrom
  rw [hl, if_pos (by omega)]

end bytes

end strings

namespace gin

theorem Context.Get_Set_self (c : Context) (key : String) (value : Any) :
    (c.Set key value).Get key = some value := by
  simp [Context.Set, Context.Get, List.lookup]

theorem lookup_filter_ne (key other : String) :
    ∀ kvs : List (String × Any), other ≠ key →
      List.lookup other (kvs.filter (fun kv => decide (kv.1 ≠ key))) = List.lookup other kvs
  | [], _ => rfl
  | (k, v) :: kvs, h => by
    have ih := lookup_filter_ne key other kvs h
    by_cases hk : k = key
    · subst hk
      have hne : (other == k) = false := by simpa using h
      simpa [List.filter, List.lookup, hne] using ih
    · by_cases ho : other = k
      · subst ho
        simp [List.filter, hk, List.lookup]
      · have hne : (other == k) = false := by simpa using ho
        simpa [List.filter, hk, List.lookup, hne] using ih

theorem Context.Get_Set_other (c : Context) (key other : String) (value : Any)
    (h : other ≠ key) : (c.Set key value).Get other = c.Get other := by
  have hne : (other == key) = false := by simpa using h
  simp only [Context.Set, Context.Get, List.lookup, hne]
  exact lookup_filter_ne key other c.Keys h

end gin

/-! ## Facts about pagination, posts and roles -/

namespace int

theorem wrap_of_InRange (x : Int) (h : InRange x) : wrap x = x := by
  unfold InRange at h
  unfold wrap
  omega

theorem wrap_InRange (x : Int) : InRange (wrap x) := by
  unfold InRange wrap
  omega

theorem wrap_wrap_sub (x y : Int) : wrap (wrap x - y) = wrap (x - y) := by
  unfold wrap
  omega

theorem wrap_eq_iff (x : Int) : wrap x = x ↔ InRange x := by
  unfold InRange wrap
  omega

end int

namespace service

theorem normalizePagination_eq (page limit : Int) :
    normalizePagination page limit =
      (if page ≥ 1 then page else 1,
        if limit ≤ 0 then 10 else if limit > 50 then 50 else limit) := by
  unfold normalizePagination
  by_cases hp : page ≤ 0 <;> by_cases hl : limit ≤ 0 <;> by_cases hl2 : limit > 50 <;>
    simp [hp, hl, hl2] <;> omega

theorem normalizePagination_bounds (page limit : Int) :
    1 ≤ (normalizePagination page limit).1 ∧ 1 ≤ (normalizePagination page limit).2 ∧
      (normalizePagination page limit).2 ≤ 50 := by
  rw [normalizePagination_eq]
  by_cases hp : page ≥ 1 <;> by_cases hl : limit ≤ 0 <;> by_cases hl2 : limit > 50 <;>
    simp [hp, hl, hl2] <;> omega

theorem normalizePagination_page_le (page limit : Int) (h : int.InRange page) :
    int.InRange (normalizePagination page limit).1 := by
  rw [normalizePagination_eq]
  unfold int.InRange at *
  by_cases hp : page ≥ 1 <;> simp [hp]; omega

theorem pageOffset_eq (page limit : Int) (h1 : 1 ≤ page) (hp : int.InRange page) :
    pageOffset page limit = int.wrap ((page - 1) * limit) := by
  unfold pageOffset
  rw [int.wrap_of_InRange (page - 1) (by unfold int.InRange at *; omega)]

theorem totalPages_eq (total limit : Int) (ht : 0 ≤ total) (hl : 1 ≤ limit)
    (hsum : total + limit ≤ 2 ^ 63) : totalPages total limit = (total + limit - 1) / limit := by
  unfold totalPages
  rw [int.wrap_wrap_sub, int.wrap_of_InRange (total + limit - 1) (by unfold int.InRange; omega)]
  rw [Int.tdiv_eq_ediv (by omega) (by omega)]
  apply int.wrap_of_InRange
  unfold int.InRange
  constructor
  · have := Int.ediv_nonneg (show 0 ≤ total + limit - 1 by omega) (show 0 ≤ limit by omega)
    omega
  · have := Int.ediv_le_self limit (show 0 ≤ total + limit - 1 by omega)
    omega

theorem ceiling_spec (total limit : Int) (ht : 0 ≤ total) (hl : 1 ≤ limit) :
    0 ≤ (total + limit - 1) / limit ∧ total ≤ (total + limit - 1) / limit * limit ∧
      (∀ m : Int, total ≤ m * limit → (total + limit - 1) / limit ≤ m) ∧
      (total = 0 → (total + limit - 1) / limit = 0) := by
  have hdm := Int.ediv_add_emod (total + limit - 1) limit
  have hr0 := Int.emod_nonneg (total + limit - 1) (show limit ≠ 0 by omega)
  have hr1 := Int.emod_lt_of_pos (total + limit - 1) (show 0 < limit by omega)
  have hq := Int.ediv_nonneg (show 0 ≤ total + limit - 1 by omega) (show 0 ≤ limit by omega)
  refine ⟨hq, ?_, ?_, ?_⟩
  · nlinarith
  · intro m hm
    by_contra hlt
    have h1 : m + 1 ≤ (total + limit - 1) / limit := by omega
    have h2 : (m + 1) * limit ≤ (total + limit - 1) / limit * limit :=
      Int.mul_le_mul_of_nonneg_right h1 (by omega)
    nlinarith
  · intro h0
    subst h0
    apply Int.ediv_eq_zero_of_lt <;> omega

end service

namespace strings

/-- A text that folds to `admin` has the lower case `admin`. -/
theorem equalFold_admin (L : Lib) (s : String) (h : L.equalFold s models.RoleAdmin = true) :
    ToLower L s = models.RoleAdmin := by
  rw [L.equalFold_ascii s models.RoleAdmin (by decide)] at h
  have hmap : s.data.map Char.toLower = "admin".data := by simpa using h
  have hascii : ∀ c ∈ s.data, c.toNat < 128 := by
    intro c hc
    have hmem : c.toLower ∈ "admin".data := by
      rw [← hmap]
      exact List.mem_map_of_mem _ hc
    have hlow : c.toLower.toNat < 128 := by
      have hall : ∀ d ∈ "admin".data, d.toNat < 128 := by decide
      exact hall _ hmem
    by_cases hu : c.toNat ≥ 65 ∧ c.toNat ≤ 90
    · omega
    · have e : c.toLower = c := by simp [Char.toLower, hu]
      rwa [e] at hlow
  rw [ToLower_of_ascii L s hascii, hmap]
  rfl

end strings

namespace service

/-- An actor whose role does not fold to `admin` and whose id is blank or differs from the
author id may not modify the post. -/
theorem canModifyPost_false (L : Lib) (actorRole actorID authorID : String)
    (hrole : L.equalFold (strings.TrimSpace actorRole) models.RoleAdmin = false)
    (howner : ¬ (strings.TrimSpace actorID ≠ "" ∧
      strings.TrimSpace actorID = strings.TrimSpace authorID)) :
    canModifyPost L actorRole actorID authorID = false := by
  unfold canModifyPost
  simp only [hrole, Bool.false_eq_true, if_false]
  by_cases h1 : strings.TrimSpace actorID = ""
  · simp [h1]
  · have h2 : strings.TrimSpace actorID ≠ strings.TrimSpace authorID := fun e => howner ⟨h1, e⟩
    simp [h2]

/-- A role whose trimmed lower case is neither `admin` nor `author` may not write posts. -/
theorem canWritePosts_false (L : Lib) (role : String)
    (h1 : strings.ToLower L (strings.TrimSpace role) ≠ models.RoleAdmin)
    (h2 : strings.ToLower L (strings.TrimSpace role) ≠ models.RoleAuthor) :
    canWritePosts L role = false := by
  simp [canWritePosts, h1, h2]

end service

namespace service

open repository


/-- What `normalizeRole` returns. -/
theorem normalizeRole_eq (L : Lib) (role : String) :
    (strings.ToLower L (strings.TrimSpace role) ∈
        [models.RoleAdmin, models.RoleAuthor, models.RoleReader] →
      normalizeRole L role = Except.ok (strings.ToLower L (strings.TrimSpace role))) ∧
    (strings.ToLower L (strings.TrimSpace role) ∉
        [models.RoleAdmin, models.RoleAuthor, models.RoleReader] →
      normalizeRole L role =
        Except.error (GoError.wrap "role must be admin, author, or reader" ErrValidation)) := by
  unfold normalizeRole
  constructor
  · intro h
    have h1 : strings.ToLower L (strings.TrimSpace role) = models.RoleAdmin ∨
        strings.ToLower L (strings.TrimSpace role) = models.RoleAuthor ∨
        strings.ToLower L (strings.TrimSpace role) = models.RoleReader := by
      simpa using h
    simp only [h1, if_true]
  · intro h
    have h1 : ¬ (strings.ToLower L (strings.TrimSpace role) = models.RoleAdmin ∨
        strings.ToLower L (strings.TrimSpace role) = models.RoleAuthor ∨
        strings.ToLower L (strings.TrimSpace role) = models.RoleReader) := by
      simpa using h
    simp only [h1, if_false]

/-- The method `UpdateUserRole` as its steps: the role is normalized, the user id checked,
and the store called with the normalized role. -/
theorem AdminService.UpdateUserRole_eq_phases (L : Lib) (updateNow : Time)
    (userID role : String) (db : DB) :
    AdminService.UpdateUserRole L updateNow userID role db =
      match normalizeRole L role with
      | Except.error err => (Except.error err, db)
      | Except.ok normalizedRole =>
        if strings.TrimSpace userID = "" then
          (Except.error (GoError.wrap "user id is required" ErrValidation), db)
        else
          AdminService.roleUpdated userID
            (GormUserRepository.UpdateRole updateNow userID normalizedRole db) := by
  unfold AdminService.UpdateUserRole AdminService.roleUpdated
  rfl

/-- The users of the store after `Register`, whatever its outcome: those before, or those
before and one new row with the default role of the service. -/
theorem AuthService.Register_users (L : Lib) (s : AuthService) (env : RegisterEnv)
    (input : RegisterInput) (db : DB) :
    (s.Register L env input db).2.users = db.users ∨
      ∃ row : models.User, row.Role = s.defaultRole ∧
        (s.Register L env input db).2.users = db.users ++ [row] := by
  rw [AuthService.Register_eq_phases]
  cases hcheck : AuthService.registerCheck L env.hashRand input db with
  | error err => exact Or.inl rfl
  | ok hashed =>
    dsimp only
    unfold AuthService.registerCreate
    rcases hcreate : GormUserRepository.Create L env.userID env.userNow
        { ID := "", Email := normalizeEmail L input.Email, PasswordHash := hashed,
          Role := s.defaultRole, CreatedAt := 0, UpdatedAt := 0 } db with ⟨r, db1⟩
    cases r with
    | error err =>
      obtain ⟨rfl, -, -⟩ := GormUserRepository.Create_error L _ _ _ _ _ _ hcreate
      left
      dsimp only
      split <;> rfl
    | ok row =>
      obtain ⟨hrow, hdb, -, -⟩ := GormUserRepository.Create_ok L _ _ _ _ _ _ hcreate
      right
      refine ⟨row, by rw [hrow], ?_⟩
      dsimp only
      have husers := AuthService.issueTokenPair_users L s env.issue row.ID row.Role db1
      rcases hissue : s.issueTokenPair L env.issue row.ID row.Role db1 with ⟨p, db2⟩
      rw [hissue] at husers
      cases p with
      | error err => dsimp only at husers ⊢; rw [husers, hdb]
      | ok pair => dsimp only at husers ⊢; rw [husers, hdb]

end service

/-! ## Facts about errors, passwords and random tokens -/

namespace errors

/-- An error that wraps nothing is in a chain exactly when it is the innermost error. -/
theorem Is_eq_root (err target : GoError) (h : target.isWrap = false) :
    Is err target = decide (err.root = target) := by
  induction err with
  | wrap ctx cause ih =>
    have hne : GoError.wrap ctx cause ≠ target := by
      intro e; rw [← e] at h; simp [GoError.isWrap] at h
    simp only [Is, GoError.root, hne, decide_False, Bool.false_or, ih]
  | _ => simp [Is, GoError.root]

/-- Wrapping does not change which unwrapped errors are in the chain. -/
theorem Is_wrap (ctx : String) (err target : GoError) (h : target.isWrap = false) :
    Is (GoError.wrap ctx err) target = Is err target := by
  rw [Is_eq_root _ _ h, Is_eq_root _ _ h]
  rfl

end errors

namespace utf8

theorem bytes_append (s t : String) : bytes (s ++ t) = bytes s ++ bytes t := by
  simp [bytes, String.data_append, List.flatMap_append]

end utf8

namespace bcrypt

/-- Of a password of 72 bytes or more, the key holds the first 72 bytes only. -/
theorem key_append (p suffix : String) (h : 72 ≤ (utf8.bytes p).length) :
    key (p ++ suffix) = key p := by
  unfold key
  apply List.map_congr_left
  intro i hi
  have hi72 : i < 72 := List.mem_range.mp hi
  have h1 : i % (utf8.bytes p ++ [0]).length = i := by
    apply Nat.mod_eq_of_lt
    simp only [List.length_append, List.length_singleton]
    omega
  have h2 : i % (utf8.bytes (p ++ suffix) ++ [0]).length = i := by
    apply Nat.mod_eq_of_lt
    simp only [utf8.bytes_append, List.length_append, List.length_singleton]
    omega
  rw [h1, h2, utf8.bytes_append, List.append_assoc]
  rw [List.getD_append _ _ _ _ (by omega), List.getD_append _ _ _ _ (by omega)]

end bcrypt

namespace auth

/-- A hash made by `HashPassword` starts with the version and the cost of bcrypt. -/
theorem HashPassword_version (L : Lib) (rand : Entropy) (password hashed : String)
    (h : HashPassword L rand password = Except.ok hashed) :
    "$2a$10$".data.isPrefixOf hashed.data = true := by
  unfold HashPassword bcrypt.GenerateFromPassword at h
  split at h
  · simp at h
  · rename_i hash hgen
    simp only [Except.ok.injEq] at h
    subst h
    split at hgen
    · simp at hgen
    · exact L.bcrypt_version _ _ _ hgen

end auth

namespace base64

/-- Three bytes give four characters, a rest of one byte two and a rest of two bytes three:
the encoding of `n` bytes has `⌈4n/3⌉` characters. -/
theorem encodeBytes_length : ∀ bytes : List Nat,
    (encodeBytes bytes).length = (4 * bytes.length + 2) / 3
  | [] => rfl
  | [_] => by simp [encodeBytes]
  | [_, _] => by simp [encodeBytes]
  | _ :: _ :: _ :: rest => by
    have ih := encodeBytes_length rest
    simp only [encodeBytes, List.length_cons, ih]
    omega

/-- Every digit is a character of the alphabet. -/
theorem digit_mem (n : Nat) : digit n ∈ alphabet := by
  unfold digit
  have h : n % 64 < alphabet.length := by
    have : alphabet.length = 64 := by decide
    omega
  rw [List.getD_eq_getElem _ _ h]
  exact List.getElem_mem h

/-- The encoding is written in the alphabet. -/
theorem encodeBytes_alphabet : ∀ (bytes : List Nat), ∀ c ∈ encodeBytes bytes, c ∈ alphabet
  | [], c, h => by simp [encodeBytes] at h
  | [_], c, h => by
    simp only [encodeBytes, List.mem_cons, List.mem_singleton, List.not_mem_nil, or_false] at h
    rcases h with rfl | rfl <;> exact digit_mem _
  | [_, _], c, h => by
    simp only [encodeBytes, List.mem_cons, List.mem_singleton, List.not_mem_nil, or_false] at h
    rcases h with rfl | rfl | rfl <;> exact digit_mem _
  | _ :: _ :: _ :: rest, c, h => by
    simp only [encodeBytes, List.mem_cons] at h
    rcases h with rfl | rfl | rfl | rfl | h
    · exact digit_mem _
    · exact digit_mem _
    · exact digit_mem _
    · exact digit_mem _
    · exact encodeBytes_alphabet rest c h

end base64

namespace service

open repository

/-- What a successful `ConfirmPasswordReset` did: it found an active reset record for the
fingerprint of the trimmed token, hashed the new password, and left the store of the two
writes. -/
theorem AuthService.ConfirmPasswordReset_ok (L : Lib) (s : AuthService)
    (env : ConfirmResetEnv) (input : ConfirmResetInput) (db db1 : DB)
    (h : s.ConfirmPasswordReset L env input db = (none, db1)) :
    ∃ stored hashed,
      GormPasswordResetTokenRepository.GetActiveByHash env.lookupNow
          (auth.HashToken L (strings.TrimSpace input.Token)) db = Except.ok stored ∧
        auth.HashPassword L env.hashRand input.NewPassword = Except.ok hashed ∧
        db1 = confirmedStore env stored hashed db := by
  rw [AuthService.ConfirmPasswordReset_eq_phases] at h
  cases hcheck : AuthService.confirmCheck L env.lookupNow env.hashRand input db with
  | error err => rw [hcheck] at h; simp at h
  | ok found =>
    obtain ⟨stored, hashed⟩ := found
    rw [hcheck] at h
    dsimp only at h
    refine ⟨stored, hashed, ?_, ?_, ?_⟩
    · unfold AuthService.confirmCheck at hcheck
      dsimp only at hcheck
      split at hcheck
      · simp at hcheck
      · split at hcheck
        · split at hcheck <;> simp at hcheck
        · rename_i st hget
          split at hcheck
          · simp at hcheck
          · simp only [Except.ok.injEq, Prod.mk.injEq] at hcheck
            rw [hget, hcheck.1]
    · unfold AuthService.confirmCheck at hcheck
      dsimp only at hcheck
      split at hcheck
      · simp at hcheck
      · split at hcheck
        · split at hcheck <;> simp at hcheck
        · split at hcheck
          · simp at hcheck
          · rename_i hp hhash
            simp only [Except.ok.injEq, Prod.mk.injEq] at hcheck
            rw [hhash, hcheck.2]
    · unfold AuthService.confirmWrite AuthService.confirmUpdated at h
      unfold confirmedStore
      rcases hupd : GormUserRepository.UpdatePasswordHash env.updateNow stored.UserID hashed db
        with ⟨e, dbu⟩
      rw [hupd] at h
      cases e with
      | some err => dsimp only at h; split at h <;> simp at h
      | none =>
        dsimp only at h ⊢
        unfold AuthService.confirmMarked at h
        rcases hmark : GormPasswordResetTokenRepository.MarkUsedByID env.markNow stored.ID dbu
          with ⟨e2, dbm⟩
        rw [hmark] at h
        cases e2 with
        | some err => dsimp only at h; split at h <;> simp at h
        | none =>
          simp only [Prod.mk.injEq, true_and] at h
          exact h.symm

/-- The tables of the store after a confirmation that consumed `r`. -/
theorem confirmedStore_eq (env : ConfirmResetEnv) (r : models.PasswordResetToken)
    (hashed : String) (db : DB) :
    confirmedStore env r hashed db =
      { db with
        users := db.users.map (fun u =>
          if decide (u.ID = r.UserID) then
            { u with PasswordHash := hashed, UpdatedAt := env.updateNow }
          else u),
        password_reset_tokens := db.password_reset_tokens.map (fun t =>
          if decide (t.ID = r.ID) && t.UsedAt.isNone then { t with UsedAt := some env.markNow }
          else t) } := by
  unfold confirmedStore
  rw [GormPasswordResetTokenRepository.MarkUsedByID_db, GormUserRepository.UpdatePasswordHash_db]

end service

namespace List

/-- A map that changes only the elements that fail a test keeps the elements that pass. -/
theorem filter_map_of_keep {α : Type} (p : α → Bool) (f : α → α) (l : List α)
    (hp : ∀ a, p (f a) = p a) (hf : ∀ a, p a = true → f a = a) :
    (l.map f).filter p = l.filter p := by
  induction l with
  | nil => rfl
  | cons a l ih =>
    simp only [List.map_cons, List.filter_cons, hp a, ih]
    by_cases h : p a = true
    · simp only [h, if_true, hf a h]
    · simp only [h, if_false, Bool.false_eq_true]

end List

/-! ## Facts about the bytes of a header -/

namespace utf8

set_option maxHeartbeats 4000000 in
/-- A rune decoded from bytes is an ASCII byte read as it is, or a Unicode scalar value
outside ASCII. -/
theorem DecodeRune_cases (s0 : Nat) (rest : List Nat) :
    (s0 < 0x80 ∧ DecodeRune (s0 :: rest) = (s0, 1)) ∨
      (0x80 ≤ (DecodeRune (s0 :: rest)).1 ∧ Nat.isValidChar (DecodeRune (s0 :: rest)).1) := by
  by_cases h0 : s0 < 0x80
  · left
    simp [DecodeRune, h0]
  · right
    unfold Nat.isValidChar
    rcases rest with _ | ⟨s1, _ | ⟨s2, _ | ⟨s3, rest3⟩⟩⟩ <;>
      simp only [DecodeRune, RuneError, h0, if_false] <;>
      split_ifs <;> dsimp only <;> omega

/-- The encoding of a rune that starts with an ASCII byte is that byte alone, the rune. -/
theorem AppendRune_ascii (r b : Nat) (tail : List Nat) (h : AppendRune r = b :: tail)
    (hb : b < 0x80) : r = b ∧ tail = [] := by
  unfold AppendRune at h
  split at h
  · simp only [List.cons.injEq] at h
    exact ⟨h.1, h.2.symm⟩
  · split at h
    · simp only [List.cons.injEq] at h; omega
    · split at h
      · simp only [List.cons.injEq] at h; omega
      · split at h
        · simp only [List.cons.injEq] at h; omega
        · simp only [List.cons.injEq] at h; omega

end utf8

namespace utf8

/-- The character of a Unicode scalar value has that value. -/
theorem toNat_ofNat (n : Nat) (h : Nat.isValidChar n) : (Char.ofNat n).toNat = n := by
  unfold Char.ofNat
  rw [dif_pos h]
  rfl

end utf8

namespace strings

namespace bytes

/-- On an ASCII byte the lower case of the character is the ASCII lower case of the byte. -/
theorem toLower_ofNat (n : Nat) (h : n < 0x80) : (Char.ofNat n).toLower.toNat = asciiLower n := by
  unfold asciiLower
  interval_cases n <;> decide

/-- A byte whose ASCII lower case is an ASCII byte is an ASCII byte. -/
theorem asciiLower_lt (b : Nat) (h : asciiLower b < 0x80) : b < 0x80 := by
  unfold asciiLower at h
  split at h <;> omega

/-- Where the rune-by-rune lower case of a string starts with ASCII bytes other than `i`
and `k`, the string has as many bytes at least, and these are the bytes of the string in
ASCII lower case. -/
theorem Map_prefix_ascii (L : Lib) :
    ∀ (pre : List Nat) (fuel : Nat) (s : List Nat),
      (∀ p ∈ pre, p < 0x80 ∧ p ≠ 0x69 ∧ p ≠ 0x6B) →
      pre <+: (utf8.rangeRunes fuel s).flatMap
        (fun r => utf8.AppendRune (L.lowerRune (Char.ofNat r)).toNat) →
      pre.length ≤ s.length ∧ (s.take pre.length).map asciiLower = pre
  | [], _, _, _, _ => by simp
  | p0 :: pre, 0, s, _, hpre => by
    simp [utf8.rangeRunes] at hpre
  | p0 :: pre, _ + 1, [], _, hpre => by
    simp [utf8.rangeRunes] at hpre
  | p0 :: pre, fuel + 1, s0 :: rest, hascii, hpre => by
    obtain ⟨hp0, hi, hk⟩ := hascii p0 (List.mem_cons_self _ _)
    simp only [utf8.rangeRunes, List.flatMap_cons] at hpre
    obtain ⟨b, tail, henc, -⟩ :=
      utf8.AppendRune_head (L.lowerRune (Char.ofNat (utf8.DecodeRune (s0 :: rest)).1)).toNat
    rw [henc, List.cons_append, List.cons_prefix_cons] at hpre
    obtain ⟨hb, hrest⟩ := hpre
    subst hb
    obtain ⟨hr, htail⟩ := utf8.AppendRune_ascii _ _ _ henc hp0
    subst htail
    rw [List.nil_append] at hrest
    have hlow : (L.lowerRune (Char.ofNat (utf8.DecodeRune (s0 :: rest)).1)).toNat < 128 := by
      rw [hr]; exact hp0
    have hni : L.lowerRune (Char.ofNat (utf8.DecodeRune (s0 :: rest)).1) ≠ 'i' := by
      intro e
      rw [e] at hr
      exact hi hr.symm
    have hnk : L.lowerRune (Char.ofNat (utf8.DecodeRune (s0 :: rest)).1) ≠ 'k' := by
      intro e
      rw [e] at hr
      exact hk hr.symm
    have hc := L.lowerRune_of_ascii _ hlow hni hnk
    rcases utf8.DecodeRune_cases s0 rest with ⟨hs0, hdec⟩ | ⟨hge, hvalid⟩
    · rw [hdec] at hr hrest
      simp only [Nat.sub_self, List.drop_zero] at hrest
      rw [L.lowerRune_ascii _ (by rw [utf8.toNat_ofNat s0 (Or.inl (by omega))]; exact hs0),
        toLower_ofNat s0 hs0] at hr
      obtain ⟨ih1, ih2⟩ := Map_prefix_ascii L pre fuel rest
        (fun x hx => hascii x (List.mem_cons_of_mem _ hx)) hrest
      refine ⟨by simp only [List.length_cons]; omega, ?_⟩
      simp only [List.length_cons, List.take_succ_cons, List.map_cons, hr, ih2]
    · rw [utf8.toNat_ofNat _ hvalid] at hc
      omega

/-- A header whose lower-case form starts with `bearer ` starts with seven ASCII bytes whose
ASCII lower case is `bearer `. -/
theorem ToLower_bearer (L : Lib) (header : List Nat)
    (h : HasPrefix (ToLower L header) (utf8.bytes "bearer ") = true) :
    7 ≤ header.length ∧ (header.take 7).map asciiLower = utf8.bytes "bearer " ∧
      ∀ b ∈ header.take 7, b < 0x80 := by
  have h7 : (utf8.bytes "bearer ").length = 7 := by decide
  have hmain : 7 ≤ header.length ∧ (header.take 7).map asciiLower = utf8.bytes "bearer " := by
    unfold HasPrefix at h
    rw [List.isPrefixOf_iff_prefix] at h
    unfold ToLower at h
    split at h
    · have hlen := h.length_le
      rw [h7, List.length_map] at hlen
      refine ⟨hlen, ?_⟩
      have := List.prefix_iff_eq_take.mp h
      rw [h7, ← List.map_take] at this
      exact this.symm
    · unfold Map at h
      have := Map_prefix_ascii L (utf8.bytes "bearer ") header.length header (by decide) h
      rw [h7] at this
      exact this
  refine ⟨hmain.1, hmain.2, ?_⟩
  intro b hb
  apply asciiLower_lt
  have hmem : asciiLower b ∈ utf8.bytes "bearer " := by
    rw [← hmain.2]
    exact List.mem_map_of_mem _ hb
  have hall : ∀ x ∈ utf8.bytes "bearer ", x < 0x80 := by decide
  exact hall _ hmem

end bytes

end strings

/-! ## Facts about the encoding of texts and the key of bcrypt -/

namespace utf8

/-- The encoding of a character decodes to the character, whatever follows. -/
theorem DecodeRune_AppendRune (c : Char) (rest : List Nat) :
    DecodeRune (AppendRune c.toNat ++ rest) = (c.toNat, (AppendRune c.toNat).length) := by
  have hv : c.toNat < 0xD800 ∨ (0xDFFF < c.toNat ∧ c.toNat < 0x110000) := c.valid
  generalize c.toNat = n at hv
  unfold AppendRune
  by_cases h1 : n < 0x80
  · simp [h1, DecodeRune]
  · by_cases h2 : n < 0x800
    · have a1 : ¬ (0xC0 + n / 64 < 0x80) := by omega
      have a2 : ¬ (0xC0 + n / 64 < 0xC2 ∨ 0xF4 < 0xC0 + n / 64) := by omega
      have a3 : ¬ (0xC0 + n / 64 = 0xE0) := by omega
      have a4 : ¬ (0xC0 + n / 64 = 0xF0) := by omega
      have a5 : ¬ (0xC0 + n / 64 = 0xED) := by omega
      have a6 : ¬ (0xC0 + n / 64 = 0xF4) := by omega
      have a7 : ¬ (0x80 + n % 64 < 0x80 ∨ 0xBF < 0x80 + n % 64) := by omega
      have a8 : 0xC0 + n / 64 < 0xE0 := by omega
      simp only [h1, h2, if_true, if_false, List.cons_append, List.nil_append, DecodeRune,
        List.length_cons, List.length_nil, a1, a2, a3, a4, a5, a6, a7, a8, Prod.mk.injEq,
        and_true]
      omega
    · by_cases h3 : 0x10FFFF < n ∨ (0xD800 ≤ n ∧ n ≤ 0xDFFF)
      · omega
      · by_cases h4 : n < 0x10000
        · have a1 : ¬ (0xE0 + n / 4096 < 0x80) := by omega
          have a2 : ¬ (0xE0 + n / 4096 < 0xC2 ∨ 0xF4 < 0xE0 + n / 4096) := by omega
          have a4 : ¬ (0xE0 + n / 4096 = 0xF0) := by omega
          have a6 : ¬ (0xE0 + n / 4096 = 0xF4) := by omega
          have a7 : ¬ (0xE0 + n / 4096 < 0xE0) := by omega
          have a8 : 0xE0 + n / 4096 < 0xF0 := by omega
          have a9 : ¬ (0x80 + n % 64 < 0x80 ∨ 0xBF < 0x80 + n % 64) := by omega
          simp only [h1, h2, h3, h4, if_true, if_false, List.cons_append, List.nil_append,
            DecodeRune, List.length_cons, List.length_nil, a1, a2, a4, a6, a7, a8, a9]
          split_ifs <;>
            first | (exfalso; omega) | (simp only [Prod.mk.injEq, and_true]; omega)
        · have a1 : ¬ (0xF0 + n / 262144 < 0x80) := by omega
          have a2 : ¬ (0xF0 + n / 262144 < 0xC2 ∨ 0xF4 < 0xF0 + n / 262144) := by omega
          have a3 : ¬ (0xF0 + n / 262144 = 0xE0) := by omega
          have a5 : ¬ (0xF0 + n / 262144 = 0xED) := by omega
          have a7 : ¬ (0xF0 + n / 262144 < 0xE0) := by omega
          have a8 : ¬ (0xF0 + n / 262144 < 0xF0) := by omega
          have a9 : ¬ (0x80 + n % 64 < 0x80 ∨ 0xBF < 0x80 + n % 64) := by omega
          have a10 : ¬ (0x80 + n / 64 % 64 < 0x80 ∨ 0xBF < 0x80 + n / 64 % 64) := by omega
          simp only [h1, h2, h3, h4, if_true, if_false, List.cons_append, List.nil_append,
            DecodeRune, List.length_cons, List.length_nil, a1, a2, a3, a5, a7, a8, a9, a10]
          split_ifs <;>
            first | (exfalso; omega) | (simp only [Prod.mk.injEq, and_true]; omega)

end utf8

namespace utf8

/-- The encoding of a rune is not empty. -/
theorem AppendRune_ne_nil (r : Nat) : AppendRune r ≠ [] := by
  obtain ⟨b, tail, h, -⟩ := AppendRune_head r
  rw [h]
  exact List.cons_ne_nil _ _

/-- Texts with the same bytes are the same text. -/
theorem bytes_injective : ∀ s t : List Char,
    s.flatMap (fun c => AppendRune c.toNat) = t.flatMap (fun c => AppendRune c.toNat) → s = t
  | [], [], _ => rfl
  | [], d :: t, h => by
    simp only [List.flatMap_nil, List.flatMap_cons] at h
    exact absurd (List.append_eq_nil.mp h.symm).1 (AppendRune_ne_nil _)
  | c :: s, [], h => by
    simp only [List.flatMap_nil, List.flatMap_cons] at h
    exact absurd (List.append_eq_nil.mp h).1 (AppendRune_ne_nil _)
  | c :: s, d :: t, h => by
    simp only [List.flatMap_cons] at h
    have hc := DecodeRune_AppendRune c (s.flatMap (fun c => AppendRune c.toNat))
    have hd := DecodeRune_AppendRune d (t.flatMap (fun c => AppendRune c.toNat))
    rw [h, hd] at hc
    simp only [Prod.mk.injEq] at hc
    have hcd : c = d := by
      apply Char.ext
      apply UInt32.ext
      exact hc.1.symm
    subst hcd
    have := List.append_cancel_left h
    rw [bytes_injective s t this]

end utf8

namespace bcrypt

/-- The byte of the key at a position. -/
theorem key_getElem (password : String) (i : Nat) (hi : i < 72) :
    (key password).getD i 0 =
      (utf8.bytes password ++ [0]).getD (i % (utf8.bytes password ++ [0]).length) 0 := by
  unfold key
  rw [List.getD_eq_getElem _ _ (by simp; exact hi)]
  simp

/-- Passwords without a zero byte, one of them shorter than 72 bytes, have the same key
only when they are the same password. -/
theorem key_injective (p q : String) (hlen : (utf8.bytes p).length < 72)
    (hp : 0 ∉ utf8.bytes p) (hq : 0 ∉ utf8.bytes q) (h : key q = key p) : q = p := by
  have hkey : ∀ i, i < 72 →
      (utf8.bytes q ++ [0]).getD (i % (utf8.bytes q ++ [0]).length) 0 =
        (utf8.bytes p ++ [0]).getD (i % (utf8.bytes p ++ [0]).length) 0 := by
    intro i hi
    rw [← key_getElem q i hi, ← key_getElem p i hi, h]
  have hnz : ∀ (s : String) (j : Nat), 0 ∉ utf8.bytes s → j < (utf8.bytes s).length →
      (utf8.bytes s ++ [0]).getD j 0 ≠ 0 := by
    intro s j hs hj hz
    rw [List.getD_append _ _ _ _ hj, List.getD_eq_getElem _ _ hj] at hz
    exact hs (hz ▸ List.getElem_mem hj)
  have hzero : ∀ (s : String), (utf8.bytes s ++ [0]).getD (utf8.bytes s).length 0 = 0 := by
    intro s
    rw [List.getD_append_right _ _ _ _ (le_refl _)]
    simp
  have hlp : (utf8.bytes p ++ [0]).length = (utf8.bytes p).length + 1 := by simp
  have hlq : (utf8.bytes q ++ [0]).length = (utf8.bytes q).length + 1 := by simp
  have hsame : (utf8.bytes q).length = (utf8.bytes p).length := by
    rcases Nat.lt_trichotomy (utf8.bytes q).length (utf8.bytes p).length with hlt | heq | hgt
    · exfalso
      have h1 := hkey (utf8.bytes q).length (by omega)
      rw [hlp, hlq, Nat.mod_eq_of_lt (by omega), Nat.mod_eq_of_lt (by omega), hzero q] at h1
      exact hnz p _ hp hlt h1.symm
    · exact heq
    · exfalso
      have h1 := hkey (utf8.bytes p).length hlen
      rw [hlp, hlq, Nat.mod_eq_of_lt (by omega), Nat.mod_eq_of_lt (by omega), hzero p] at h1
      exact hnz q _ hq hgt h1
  have hbytes : utf8.bytes q = utf8.bytes p := by
    apply List.ext_getElem hsame
    intro i h1 h2
    have hk := hkey i (by omega)
    rw [hlp, hlq, Nat.mod_eq_of_lt (by omega), Nat.mod_eq_of_lt (by omega),
      List.getD_append _ _ _ _ h1, List.getD_append _ _ _ _ h2,
      List.getD_eq_getElem _ _ h1, List.getD_eq_getElem _ _ h2] at hk
    exact hk
  have hdata : q.data = p.data := utf8.bytes_injective q.data p.data hbytes
  exact String.ext hdata

end bcrypt

/-! ## The claims -/

/-- Claim C1, as stated, fails: when the `Refresh` of the example registration's token runs
half a second after the registration and the entropy source yields the same token-id
bytes, the refresh token it issues is the token presented, with the same fingerprint, and
a second `Refresh` with that token succeeds. -/
theorem C1_counterexample :
    Example.svc.Refresh Toy.lib (Example.refreshEnv 500000000 1 "r-2")
          { RefreshToken := Example.token1 } Example.registered.2 = Example.repeated ∧
      Example.repeated.1.map (fun pair => pair.RefreshToken) = Except.ok Example.token1 ∧
      (Example.svc.Refresh Toy.lib (Example.refreshEnv (1 * Second) 3 "r-3")
          { RefreshToken := Example.token1 } Example.repeated.2).1.toBool = true ∧
      (Example.svc.Refresh Toy.lib (Example.refreshEnv (1 * Second) 3 "r-3")
          { RefreshToken := Example.token1 } Example.repeated.2).1 ≠
        Except.error service.ErrInvalidToken := by
  refine ⟨rfl, by decide, by decide, by decide⟩

/-- Claim C1, amended. Refresh tokens are single-use: when `Refresh` succeeds on a raw
token, and the refresh token it issued has a fingerprint other than that of the presented
one, then a following `Refresh` with the same raw token, at any later clock and entropy
readings, fails with `ErrInvalidToken` and leaves the store as it was. -/
theorem C1_refresh_single_use (L : Lib) (s : service.AuthService)
    (env1 env2 : service.RefreshEnv) (input : service.RefreshInput) (db db1 : DB)
    (pair : service.TokenPair)
    (h1 : s.Refresh L env1 input db = (Except.ok pair, db1))
    (hfresh : auth.HashToken L pair.RefreshToken ≠
      auth.HashToken L (strings.TrimSpace input.RefreshToken)) :
    s.Refresh L env2 input db1 = (Except.error service.ErrInvalidToken, db1) := by
  rw [service.AuthService.Refresh_eq_phases] at h1
  split at h1
  · simp at h1
  · rename_i user hashed hcheck
    obtain ⟨hne, rfl, -⟩ := service.AuthService.refreshCheck_ok L s _ _ _ _ _ _ hcheck
    rw [service.AuthService.refreshRotate_eq] at h1
    obtain ⟨rfl, -⟩ := service.AuthService.issueTokenPair_ok L s _ _ _ _ _ _ h1
    apply service.AuthService.Refresh_no_active L s env2 input _ hne
    intro r hr hh
    simp only [List.mem_append, List.mem_singleton] at hr
    rcases hr with hr | rfl
    · exact repository.GormRefreshTokenRepository.RevokeByHash_revoked _ _ _ r hr hh
    · exact absurd hh hfresh

/-- Witness for C1: the refresh token of the example registration is refreshed once, one
second after it was issued, and presented again a second later. -/
theorem C1_refresh_single_use_witness :
    Example.svc.Refresh Toy.lib (Example.refreshEnv (1 * Second) 3 "r-2")
        { RefreshToken := Example.token1 } Example.registered.2 =
      (Except.ok Example.pair2, Example.refreshed.2) ∧
    auth.HashToken Toy.lib Example.pair2.RefreshToken ≠
      auth.HashToken Toy.lib (strings.TrimSpace Example.token1) ∧
    Example.svc.Refresh Toy.lib (Example.refreshEnv (2 * Second) 5 "r-3")
        { RefreshToken := Example.token1 } Example.refreshed.2 =
      (Except.error service.ErrInvalidToken, Example.refreshed.2) :=
  ⟨by decide, by decide,
    C1_refresh_single_use Toy.lib Example.svc (Example.refreshEnv (1 * Second) 3 "r-2")
      (Example.refreshEnv (2 * Second) 5 "r-3") { RefreshToken := Example.token1 }
      Example.registered.2 Example.refreshed.2 Example.pair2 (by decide) (by decide)⟩

/-- Claim C2, as stated, fails: two `Refresh` requests for the refresh token of the example
registration, interleaved so that both find the record active before either revokes it,
both return a token pair. -/
theorem C2_counterexample :
    (Example.svc.refreshRace Toy.lib (Example.refreshEnv (1 * Second) 3 "r-2")
      (Example.refreshEnv (1 * Second) 5 "r-3") { RefreshToken := Example.token1 }
      { RefreshToken := Example.token1 } Example.registered.2).1.toBool = true ∧
    (Example.svc.refreshRace Toy.lib (Example.refreshEnv (1 * Second) 3 "r-2")
      (Example.refreshEnv (1 * Second) 5 "r-3") { RefreshToken := Example.token1 }
      { RefreshToken := Example.token1 } Example.registered.2).2.1.toBool = true := by
  decide

/-- Claim C2, amended. When two `Refresh` requests for the same raw token interleave so that
both complete their lookups on the same store before either revokes, the revocation of
the second finds at most the row the first one created and a missing row is tolerated:
both requests return a token pair, provided the store accepts the two new rows (their
primary keys are new and differ). -/
theorem C2_refresh_race_both_succeed (L : Lib) (s : service.AuthService)
    (envA envB : service.RefreshEnv) (input : service.RefreshInput) (db : DB)
    (userA userB : models.User) (hashedA hashedB : String)
    (hA : s.refreshCheck L envA.parseNow envA.lookupNow input db = Except.ok (userA, hashedA))
    (hB : s.refreshCheck L envB.parseNow envB.lookupNow input db = Except.ok (userB, hashedB))
    (hrowA : ∀ r ∈ db.refresh_tokens, r.ID ≠ envA.issue.rowID)
    (hrowB : ∀ r ∈ db.refresh_tokens, r.ID ≠ envB.issue.rowID)
    (hrows : envA.issue.rowID ≠ envB.issue.rowID) :
    ∃ pairA pairB db2,
      s.refreshRace L envA envB input input db = (Except.ok pairA, Except.ok pairB, db2) := by
  unfold service.AuthService.refreshRace
  rw [hA, hB]
  dsimp only
  rw [service.AuthService.refreshRotate_eq]
  obtain ⟨pairA, db1, hissueA⟩ := service.AuthService.issueTokenPair_fresh L s envA.issue
    userA.ID userA.Role _
    (repository.GormRefreshTokenRepository.RevokeByHash_ids envA.revokeNow hashedA db _ hrowA)
  rw [hissueA, service.AuthService.refreshRotate_eq]
  obtain ⟨hdb1, -⟩ := service.AuthService.issueTokenPair_ok L s _ _ _ _ _ _ hissueA
  have hfreshB : ∀ r ∈ db1.refresh_tokens, r.ID ≠ envB.issue.rowID := by
    rw [hdb1]
    intro r hr
    simp only [List.mem_append, List.mem_singleton] at hr
    rcases hr with hr | rfl
    · exact repository.GormRefreshTokenRepository.RevokeByHash_ids _ _ db _ hrowB r hr
    · exact hrows
  obtain ⟨pairB, db2, hissueB⟩ := service.AuthService.issueTokenPair_fresh L s envB.issue
    userB.ID userB.Role _
    (repository.GormRefreshTokenRepository.RevokeByHash_ids envB.revokeNow hashedB db1 _ hfreshB)
  exact ⟨pairA, pairB, db2, by rw [hissueB]⟩

/-- Witness for C2: two racing `Refresh` requests for the refresh token of the example
registration. -/
theorem C2_refresh_race_both_succeed_witness :
    Example.svc.refreshCheck Toy.lib (1 * Second) (1 * Second)
        { RefreshToken := Example.token1 } Example.registered.2 =
      Except.ok (Example.user1, auth.HashToken Toy.lib Example.token1) ∧
    (∀ r ∈ Example.registered.2.refresh_tokens, r.ID ≠ "r-2") ∧
    (∀ r ∈ Example.registered.2.refresh_tokens, r.ID ≠ "r-3") ∧
    ("r-2" : String) ≠ "r-3" ∧
    ∃ pairA pairB db2,
      Example.svc.refreshRace Toy.lib (Example.refreshEnv (1 * Second) 3 "r-2")
          (Example.refreshEnv (1 * Second) 5 "r-3") { RefreshToken := Example.token1 }
          { RefreshToken := Example.token1 } Example.registered.2 =
        (Except.ok pairA, Except.ok pairB, db2) :=
  ⟨by decide, by decide, by decide, by decide,
    C2_refresh_race_both_succeed Toy.lib Example.svc (Example.refreshEnv (1 * Second) 3 "r-2")
      (Example.refreshEnv (1 * Second) 5 "r-3") { RefreshToken := Example.token1 }
      Example.registered.2 Example.user1 Example.user1 (auth.HashToken Toy.lib Example.token1)
      (auth.HashToken Toy.lib Example.token1) (by decide) (by decide) (by decide) (by decide)
      (by decide)⟩

/-- Claim C3, as stated, fails. After a successful confirmation with the reset token of the
example, a second confirmation with the same token and a new password shorter than eight
bytes fails with the validation error, not with `ErrInvalidToken`. On a store where two
unused rows carry the fingerprint of the token, the second confirmation succeeds as well.
On a store where the owner of the row does not exist, the first confirmation fails. -/
theorem C3_counterexample :
    ((Example.svc.ConfirmPasswordReset Toy.lib (Example.confirmEnv (2 * Second))
        { Token := Example.resetToken, NewPassword := "new-password" }
        Example.resetRequested.2.1).1 = none ∧
      (Example.svc.ConfirmPasswordReset Toy.lib (Example.confirmEnv (3 * Second))
        { Token := Example.resetToken, NewPassword := "short" }
        (Example.svc.ConfirmPasswordReset Toy.lib (Example.confirmEnv (2 * Second))
          { Token := Example.resetToken, NewPassword := "new-password" }
          Example.resetRequested.2.1).2).1 =
        some (GoError.wrap "password reset confirm invalid" service.ErrValidation)) ∧
    ((Example.svc.ConfirmPasswordReset Toy.lib (Example.confirmEnv (2 * Second))
        { Token := Example.resetToken, NewPassword := "new-password" }
        { users := [Example.user1], refresh_tokens := [],
          password_reset_tokens :=
            [Example.resetRow, { Example.resetRow with ID := "p-2" }] }).1 = none ∧
      (Example.svc.ConfirmPasswordReset Toy.lib (Example.confirmEnv (3 * Second))
        { Token := Example.resetToken, NewPassword := "other-password" }
        (Example.svc.ConfirmPasswordReset Toy.lib (Example.confirmEnv (2 * Second))
          { Token := Example.resetToken, NewPassword := "new-password" }
          { users := [Example.user1], refresh_tokens := [],
            password_reset_tokens :=
              [Example.resetRow, { Example.resetRow with ID := "p-2" }] }).2).1 = none) ∧
    (Example.svc.ConfirmPasswordReset Toy.lib (Example.confirmEnv (2 * Second))
        { Token := Example.resetToken, NewPassword := "new-password" }
        { users := [], refresh_tokens := [],
          password_reset_tokens := [Example.resetRow] }).1 = some service.ErrInvalidToken := by
  decide

/-- Claim C3, amended. When the store holds exactly one unused reset row with the fingerprint
of the raw token (the input trimmed of white space, not empty), that row is unexpired and
its owner exists, and the new password `p` has at least eight characters and hashes:
`ConfirmPasswordReset(t, p)` succeeds; a following `ConfirmPasswordReset(t, p2)` fails for
every `p2`, with `ErrInvalidToken` when `p2` has at least eight bytes and with the
validation error when it is shorter, and leaves the store unchanged; and the owner's
stored password hash is still the one written by the first call. -/
theorem C3_reset_single_use (L : Lib) (s : service.AuthService)
    (env1 env2 : service.ConfirmResetEnv) (token p p2 : String) (db : DB)
    (r : models.PasswordResetToken) (hashed : String)
    (hne : strings.TrimSpace token ≠ "")
    (hp : 8 ≤ p.length)
    (hr : r ∈ db.password_reset_tokens)
    (hrh : r.TokenHash = auth.HashToken L (strings.TrimSpace token))
    (hru : r.UsedAt = none) (hre : r.ExpiresAt > env1.lookupNow)
    (hunique : ∀ r2 ∈ db.password_reset_tokens,
      r2.TokenHash = auth.HashToken L (strings.TrimSpace token) → r2.UsedAt = none → r2 = r)
    (howner : ∃ u ∈ db.users, u.ID = r.UserID)
    (hhash : auth.HashPassword L env1.hashRand p = Except.ok hashed) :
    (s.ConfirmPasswordReset L env1 { Token := token, NewPassword := p } db).1 = none ∧
    s.ConfirmPasswordReset L env2 { Token := token, NewPassword := p2 }
        (s.ConfirmPasswordReset L env1 { Token := token, NewPassword := p } db).2 =
      (some (if strings.len p2 < 8 then
          GoError.wrap "password reset confirm invalid" service.ErrValidation
        else service.ErrInvalidToken),
        (s.ConfirmPasswordReset L env1 { Token := token, NewPassword := p } db).2) ∧
    (∃ u ∈ (s.ConfirmPasswordReset L env1 { Token := token, NewPassword := p } db).2.users,
      u.ID = r.UserID) ∧
    ∀ u ∈ (s.ConfirmPasswordReset L env1 { Token := token, NewPassword := p } db).2.users,
      u.ID = r.UserID → u.PasswordHash = hashed := by
  have hlen : 8 ≤ strings.len p := le_trans hp (strings.length_le_len p)
  rw [service.AuthService.ConfirmPasswordReset_success L s env1
    { Token := token, NewPassword := p } db r hashed hne hlen hr hrh hru hre hunique howner hhash]
  refine ⟨rfl, ?_, ?_, service.confirmedStore_hash env1 r hashed db⟩
  · exact service.AuthService.ConfirmPasswordReset_no_active L s env2
      { Token := token, NewPassword := p2 } _ hne
      (service.confirmedStore_used env1 r hashed _ db hunique)
  · obtain ⟨u, hu, hid⟩ := howner
    refine ⟨{ u with PasswordHash := hashed, UpdatedAt := env1.updateNow }, ?_, hid⟩
    unfold service.confirmedStore
    rw [repository.GormPasswordResetTokenRepository.MarkUsedByID_db,
      repository.GormUserRepository.UpdatePasswordHash_db]
    simp only [List.mem_map]
    exact ⟨u, hu, by simp [hid]⟩

/-- Witness for C3: the reset token of the example request is confirmed with a new password
one second after the request, and presented again a second later. -/
theorem C3_reset_single_use_witness :
    strings.TrimSpace Example.resetToken ≠ "" ∧
    8 ≤ ("new-password" : String).length ∧
    Example.resetRow ∈ Example.resetRequested.2.1.password_reset_tokens ∧
    Example.resetRow.ExpiresAt > (Example.confirmEnv (2 * Second)).lookupNow ∧
    (∃ u ∈ Example.resetRequested.2.1.users, u.ID = Example.resetRow.UserID) ∧
    auth.HashPassword Toy.lib (Example.confirmEnv (2 * Second)).hashRand "new-password" =
      Except.ok "$2a$10$new-password" ∧
    (Example.svc.ConfirmPasswordReset Toy.lib (Example.confirmEnv (2 * Second))
        { Token := Example.resetToken, NewPassword := "new-password" }
        Example.resetRequested.2.1).1 = none ∧
    Example.svc.ConfirmPasswordReset Toy.lib (Example.confirmEnv (3 * Second))
        { Token := Example.resetToken, NewPassword := "other-password" }
        (Example.svc.ConfirmPasswordReset Toy.lib (Example.confirmEnv (2 * Second))
          { Token := Example.resetToken, NewPassword := "new-password" }
          Example.resetRequested.2.1).2 =
      (some (if strings.len "other-password" < 8 then
          GoError.wrap "password reset confirm invalid" service.ErrValidation
        else service.ErrInvalidToken),
        (Example.svc.ConfirmPasswordReset Toy.lib (Example.confirmEnv (2 * Second))
          { Token := Example.resetToken, NewPassword := "new-password" }
          Example.resetRequested.2.1).2) ∧
    (∃ u ∈ (Example.svc.ConfirmPasswordReset Toy.lib (Example.confirmEnv (2 * Second))
        { Token := Example.resetToken, NewPassword := "new-password" }
        Example.resetRequested.2.1).2.users, u.ID = Example.resetRow.UserID) ∧
    ∀ u ∈ (Example.svc.ConfirmPasswordReset Toy.lib (Example.confirmEnv (2 * Second))
        { Token := Example.resetToken, NewPassword := "new-password" }
        Example.resetRequested.2.1).2.users,
      u.ID = Example.resetRow.UserID → u.PasswordHash = "$2a$10$new-password" :=
  ⟨by decide, by decide, by decide, by decide, by decide, by decide,
    C3_reset_single_use Toy.lib Example.svc (Example.confirmEnv (2 * Second))
      (Example.confirmEnv (3 * Second)) Example.resetToken "new-password" "other-password"
      Example.resetRequested.2.1 Example.resetRow "$2a$10$new-password" (by decide) (by decide)
      (by decide) (by decide) (by decide) (by decide) (by decide) (by decide) (by decide)⟩

set_option maxRecDepth 8192 in
/-- Claim C4, as stated, fails on a blank password and on a malformed email, which `Login`
refuses as invalid input before it looks anything up, and on a wrong password that bcrypt
does not tell from the registered one. After the example registration,
`Login` with the registered email and an empty password returns the validation error, not
`ErrInvalidCredentials`, and so does `Login` with the malformed email `nobody`, which no
credential carries; a user registered with a password of eight spaces cannot log in
with that password; and a user registered with a password of 72 bytes logs in with that
password followed by one more byte. -/
theorem C4_counterexample :
    (Example.svc.Login Toy.lib (Example.issueEnv (1 * Second) 3 "r-2")
        { Email := "ann@example.com", Password := "" } Example.registered.2).1 =
      Except.error (GoError.wrap "login input invalid" service.ErrValidation) ∧
    (Example.svc.Login Toy.lib (Example.issueEnv (1 * Second) 3 "r-2")
        { Email := "nobody", Password := "password123" } Example.registered.2).1 =
      Except.error (GoError.wrap "login input invalid" service.ErrValidation) ∧
    (Example.svc.Register Toy.lib
        { hashRand := Example.entropy 7, userID := "u-1", userNow := 0,
          issue := Example.issueEnv 0 1 "r-1" }
        { Email := "bob@example.com", Password := "        " } Example.emptyDB).1.toBool = true ∧
    (Example.svc.Login Toy.lib (Example.issueEnv (1 * Second) 3 "r-2")
        { Email := "bob@example.com", Password := "        " }
        (Example.svc.Register Toy.lib
          { hashRand := Example.entropy 7, userID := "u-1", userNow := 0,
            issue := Example.issueEnv 0 1 "r-1" }
          { Email := "bob@example.com", Password := "        " } Example.emptyDB).2).1 =
      Except.error (GoError.wrap "login input invalid" service.ErrValidation) ∧
    Example.registeredLong.1.toBool = true ∧
    Example.longPassword ++ "x" ≠ Example.longPassword ∧
    (Example.svc.Login Toy.lib (Example.issueEnv (1 * Second) 3 "r-2")
        { Email := "bob@example.com", Password := Example.longPassword ++ "x" }
        Example.registeredLong.2).1.toBool = true := by
  decide

/-- Claim C4, amended. For a user created by a successful `Register(email, password)`:
`Login` with the same email and password succeeds and returns that user, when the
password is not blank and the store accepts the new refresh row; `Login` with the same
email and a password `q` that is not blank and that `VerifyPassword` rejects against the
stored hash returns `ErrInvalidCredentials`, while with one that `VerifyPassword` accepts
it succeeds; and `Login` with a well-formed email that no credential carries and a
password that is not blank returns the same `ErrInvalidCredentials`. A blank password or
a malformed email gives an error wrapping `ErrValidation` instead. The failed logins
leave the store unchanged. -/
theorem C4_login_after_register (L : Lib) (s : service.AuthService)
    (envR : service.RegisterEnv) (envL : service.IssueEnv) (email password q other q2 : String)
    (db db1 : DB) (user : service.RegisteredUser) (pair : service.TokenPair)
    (hreg : s.Register L envR { Email := email, Password := password } db =
      (Except.ok (user, pair), db1))
    (hrow : ∀ r ∈ db1.refresh_tokens, r.ID ≠ envL.rowID)
    (hpw : strings.TrimSpace password ≠ "")
    (hq : strings.TrimSpace q ≠ "")
    (hwrong : ∀ u ∈ db1.users, u.Email = service.normalizeEmail L email →
      auth.VerifyPassword L u.PasswordHash q = false)
    (hother : service.isValidEmail (service.normalizeEmail L other) = true)
    (hnone : ∀ u ∈ db1.users, u.Email ≠ service.normalizeEmail L other)
    (hq2 : strings.TrimSpace q2 ≠ "") :
    (∃ pair2 db2, s.Login L envL { Email := email, Password := password } db1 =
      (Except.ok (user, pair2), db2)) ∧
    s.Login L envL { Email := email, Password := q } db1 =
      (Except.error service.ErrInvalidCredentials, db1) ∧
    s.Login L envL { Email := other, Password := q2 } db1 =
      (Except.error service.ErrInvalidCredentials, db1) ∧
    (∀ input : service.LoginInput,
      service.isValidEmail (service.normalizeEmail L input.Email) = false ∨
          strings.TrimSpace input.Password = "" →
        s.Login L envL input db1 =
            (Except.error (GoError.wrap "login input invalid" service.ErrValidation), db1) ∧
          errors.Is (GoError.wrap "login input invalid" service.ErrValidation)
            service.ErrValidation = true) ∧
    (∀ q3, strings.TrimSpace q3 ≠ "" →
      (∀ u ∈ db1.users, u.Email = service.normalizeEmail L email →
        auth.VerifyPassword L u.PasswordHash q3 = true) →
      ∃ pair3 db3, s.Login L envL { Email := email, Password := q3 } db1 =
        (Except.ok (user, pair3), db3)) := by
  obtain ⟨hvalid, -, -, -, hashed0, hhash0, huser, -⟩ :=
    service.AuthService.Register_ok L s envR _ db db1 user pair hreg
  obtain ⟨hashed, hhash, husers, hget⟩ :=
    service.AuthService.Register_then_GetByEmail L s envR _ db db1 user pair hreg
  have haccepted : ∀ q3, strings.TrimSpace q3 ≠ "" →
      (∀ u ∈ db1.users, u.Email = service.normalizeEmail L email →
        auth.VerifyPassword L u.PasswordHash q3 = true) →
      ∃ pair3 db3, s.Login L envL { Email := email, Password := q3 } db1 =
        (Except.ok (user, pair3), db3) := by
    intro q3 hq3 hacc
    have hlogin := service.AuthService.Login_known L s envL
      { Email := email, Password := q3 } db1 _ hvalid hq3 hget
    have hverify : auth.VerifyPassword L (s.newUser L envR
        { Email := email, Password := password } hashed).PasswordHash q3 = true := by
      apply hacc
      · rw [husers]; simp
      · rfl
    obtain ⟨pair3, db3, hissue⟩ := service.AuthService.issueTokenPair_fresh L s envL
      (s.newUser L envR { Email := email, Password := password } hashed).ID
      (s.newUser L envR { Email := email, Password := password } hashed).Role db1 hrow
    refine ⟨pair3, db3, ?_⟩
    rw [hlogin]
    simp only [hverify, if_true, hissue, huser]
    rfl
  refine ⟨?_, ?_, service.AuthService.Login_unknown L s envL _ db1 hother hq2 hnone, ?_,
    haccepted⟩
  rotate_left 2
  · intro input hbad
    refine ⟨?_, rfl⟩
    unfold service.AuthService.Login
    rcases hbad with hbad | hbad
    · simp [hbad]
    · simp [hbad]
  · have hlogin := service.AuthService.Login_known L s envL
      { Email := email, Password := password } db1 _ hvalid hpw hget
    have hverify : auth.VerifyPassword L (s.newUser L envR
        { Email := email, Password := password } hashed).PasswordHash password = true :=
      auth.VerifyPassword_of_HashPassword L envR.hashRand password hashed hhash
    obtain ⟨pair2, db2, hissue⟩ := service.AuthService.issueTokenPair_fresh L s envL
      (s.newUser L envR { Email := email, Password := password } hashed).ID
      (s.newUser L envR { Email := email, Password := password } hashed).Role db1 hrow
    refine ⟨pair2, db2, ?_⟩
    rw [hlogin]
    simp only [hverify, if_true, hissue, huser]
    rfl
  · have hlogin := service.AuthService.Login_known L s envL
      { Email := email, Password := q } db1 _ hvalid hq hget
    have hverify : auth.VerifyPassword L (s.newUser L envR
        { Email := email, Password := password } hashed).PasswordHash q = false := by
      apply hwrong
      · rw [husers]; simp
      · rfl
    rw [hlogin]
    simp [hverify]

/-- Witness for C4: after the example registration, a login with the registered password,
one with a wrong password and one with an unknown email. -/
theorem C4_login_after_register_witness :
    Example.svc.Register Toy.lib
        { hashRand := Example.entropy 7, userID := "u-1", userNow := 0,
          issue := Example.issueEnv 0 1 "r-1" }
        { Email := " Ann@Example.com ", Password := "password123" } Example.emptyDB =
      (Except.ok ({ ID := "u-1", Email := "ann@example.com", Role := "author" }, Example.pair1),
        Example.registered.2) ∧
    strings.TrimSpace "password123" ≠ "" ∧
    strings.TrimSpace "wrong-password" ≠ "" ∧
    service.isValidEmail (service.normalizeEmail Toy.lib "nobody@example.com") = true ∧
    (∃ pair2 db2,
      Example.svc.Login Toy.lib (Example.issueEnv (1 * Second) 3 "r-2")
          { Email := " Ann@Example.com ", Password := "password123" } Example.registered.2 =
        (Except.ok ({ ID := "u-1", Email := "ann@example.com", Role := "author" }, pair2),
          db2)) ∧
    Example.svc.Login Toy.lib (Example.issueEnv (1 * Second) 3 "r-2")
        { Email := " Ann@Example.com ", Password := "wrong-password" } Example.registered.2 =
      (Except.error service.ErrInvalidCredentials, Example.registered.2) ∧
    Example.svc.Login Toy.lib (Example.issueEnv (1 * Second) 3 "r-2")
        { Email := "nobody@example.com", Password := "password123" } Example.registered.2 =
      (Except.error service.ErrInvalidCredentials, Example.registered.2) :=
  have h := C4_login_after_register Toy.lib Example.svc
      { hashRand := Example.entropy 7, userID := "u-1", userNow := 0,
        issue := Example.issueEnv 0 1 "r-1" }
      (Example.issueEnv (1 * Second) 3 "r-2") " Ann@Example.com " "password123"
      "wrong-password" "nobody@example.com" "password123" Example.emptyDB Example.registered.2
      { ID := "u-1", Email := "ann@example.com", Role := "author" } Example.pair1 (by decide)
      (by decide) (by decide) (by decide) (by decide) (by decide) (by decide) (by decide)
  ⟨by decide, by decide, by decide, by decide, h.1, h.2.1, h.2.2.1⟩

set_option maxRecDepth 8192 in
/-- Claim C5, as stated, fails: for the well-formed, unregistered email of the example and
a password of 73 characters `Register` fails, bcrypt refusing a password of more than 72
bytes, and writes nothing; and the access token of the example registration, parsed at
the instant of its expiry, is rejected. -/
theorem C5_counterexample :
    service.isValidEmail (service.normalizeEmail Toy.lib "ann@example.com") = true ∧
      8 ≤ Example.tooLongPassword.length ∧
      Example.svc.Register Toy.lib
          { hashRand := Example.entropy 7, userID := "u-1", userNow := 0,
            issue := Example.issueEnv 0 1 "r-1" }
          { Email := "ann@example.com", Password := Example.tooLongPassword }
          Example.emptyDB =
        (Except.error
          (GoError.wrap "hash password"
            (GoError.wrap "hash password"
              (GoError.external "bcrypt: password length exceeds 72 bytes"))),
          Example.emptyDB) ∧
      Example.tm.ParseAccessToken Toy.lib (2 * Second) Example.pair1.AccessToken =
        Except.error auth.ErrInvalidToken := by
  decide

/-- Claim C5, amended. For a well-formed email that no credential carries and a password of
at least eight characters that the password hasher accepts, `Register` succeeds when the
database hands out a non-empty user id and a refresh row id that are not yet in use, and
the access token it returns parses, before its `exp`, to claims whose subject is the
returned user id and whose role is `author`. -/
theorem C5_register_then_verify (L : Lib) (tm : auth.TokenManager) (passwordResetTTL : Int)
    (frontendBaseURL : String) (env : service.RegisterEnv) (input : service.RegisterInput)
    (db : DB) (parseNow : Time) (hashed : String)
    (hvalid : service.isValidEmail (service.normalizeEmail L input.Email) = true)
    (hnew : ∀ u ∈ db.users, u.Email ≠ service.normalizeEmail L input.Email)
    (hpw : 8 ≤ input.Password.length)
    (hhash : auth.HashPassword L env.hashRand input.Password = Except.ok hashed)
    (hid : env.userID ≠ "")
    (huser : ∀ u ∈ db.users, u.ID ≠ env.userID)
    (hrow : ∀ r ∈ db.refresh_tokens, r.ID ≠ env.issue.rowID)
    (hexp : parseNow <
      jwt.NumericDate.Time (jwt.NewNumericDate (env.issue.accessNow + tm.accessTTL))) :
    ∃ user pair db1 claims,
      (service.NewAuthService tm passwordResetTTL frontendBaseURL).Register L env input db =
        (Except.ok (user, pair), db1) ∧
      tm.ParseAccessToken L parseNow pair.AccessToken = Except.ok claims ∧
      claims.Subject = user.ID ∧ claims.Role = "author" := by
  have hlen : 8 ≤ strings.len input.Password :=
    le_trans hpw (strings.length_le_len input.Password)
  obtain ⟨pair, db1, hreg, hissue⟩ := service.AuthService.Register_success L
    (service.NewAuthService tm passwordResetTTL frontendBaseURL) env input db hashed hvalid hlen
    hnew hhash huser hrow
  obtain ⟨-, -, haccess, -, -⟩ := service.AuthService.issueTokenPair_ok L _ _ _ _ _ _ _ hissue
  have hp := auth.TokenManager.ParseAccessToken_encode L tm parseNow
    { Role := models.RoleAuthor, TokenType := auth.TokenTypeAccess, Subject := env.userID,
      IssuedAt := some (jwt.NewNumericDate env.issue.accessNow),
      ExpiresAt := some (jwt.NewNumericDate (env.issue.accessNow + tm.accessTTL)),
      NotBefore := none, ID := auth.generateTokenID env.issue.accessID } rfl hid
    (by simp [models.RoleAuthor]) rfl
    (by
      intro exp h
      simp only [Option.some.injEq] at h
      subst h
      exact hexp)
  simp only [auth.TokenManager.GenerateAccessToken, service.NewAuthService, Except.ok.injEq,
    Prod.mk.injEq] at haccess
  simp only [auth.AccessClaims.toJSON] at haccess
  rw [auth.AccessClaims.toJSON, haccess.1] at hp
  exact ⟨_, pair, db1, _, hreg, hp, rfl, rfl⟩

/-- Witness for C5: the example registration, its access token parsed one second later. -/
theorem C5_register_then_verify_witness :
    service.isValidEmail (service.normalizeEmail Toy.lib " Ann@Example.com ") = true ∧
    8 ≤ ("password123" : String).length ∧
    auth.HashPassword Toy.lib (Example.entropy 7) "password123" =
      Except.ok "$2a$10$password123" ∧
    ("u-1" : String) ≠ "" ∧
    (1 * Second : Time) < jwt.NumericDate.Time (jwt.NewNumericDate (0 + Example.tm.accessTTL)) ∧
    ∃ user pair db1 claims,
      (service.NewAuthService Example.tm (5 * Second) "http://localhost:5173/").Register Toy.lib
          { hashRand := Example.entropy 7, userID := "u-1", userNow := 0,
            issue := Example.issueEnv 0 1 "r-1" }
          { Email := " Ann@Example.com ", Password := "password123" } Example.emptyDB =
        (Except.ok (user, pair), db1) ∧
      Example.tm.ParseAccessToken Toy.lib (1 * Second) pair.AccessToken = Except.ok claims ∧
      claims.Subject = user.ID ∧ claims.Role = "author" :=
  ⟨by decide, by decide, by decide, by decide, by decide,
    C5_register_then_verify Toy.lib Example.tm (5 * Second) "http://localhost:5173/"
      { hashRand := Example.entropy 7, userID := "u-1", userNow := 0,
        issue := Example.issueEnv 0 1 "r-1" }
      { Email := " Ann@Example.com ", Password := "password123" } Example.emptyDB (1 * Second)
      "$2a$10$password123" (by decide) (by decide) (by decide) (by decide) (by decide)
      (by decide) (by decide) (by decide)⟩

/-- Claim C6, as stated, fails: an access token generated for an empty role, and a refresh
token generated for an empty user id, are rejected by their own parsers although they
are parsed before expiry. -/
theorem C6_counterexample :
    (∃ tok exp,
      (auth.NewTokenManager "access-secret" "refresh-secret" (2 * Second) (3 * Second)).GenerateAccessToken
        Toy.lib 0 { rand := { fails := false, bytes := fun _ => 0 }, now := 0 } "user-1" "" =
          Except.ok (tok, exp) ∧
      (auth.NewTokenManager "access-secret" "refresh-secret" (2 * Second) (3 * Second)).ParseAccessToken
        Toy.lib 0 tok = Except.error auth.ErrInvalidToken) ∧
    (∃ tok tid exp,
      (auth.NewTokenManager "access-secret" "refresh-secret" (2 * Second) (3 * Second)).GenerateRefreshToken
        Toy.lib 0 { rand := { fails := false, bytes := fun _ => 0 }, now := 0 } "" =
          Except.ok (tok, tid, exp) ∧
      (auth.NewTokenManager "access-secret" "refresh-secret" (2 * Second) (3 * Second)).ParseRefreshToken
        Toy.lib 0 tok = Except.error auth.ErrInvalidToken) := by
  refine ⟨⟨_, _, rfl, ?_⟩, ⟨_, _, _, rfl, ?_⟩⟩
  · exact auth.TokenManager.ParseAccessToken_empty Toy.lib _ _ _ _ (Or.inr rfl)
  · exact auth.TokenManager.ParseRefreshToken_empty Toy.lib _ _ _ _ rfl

/-- Claim C6, amended. For a non-empty user id and a non-empty role, the access token made by
`GenerateAccessToken` parses, at any clock reading before the instant of its `exp` claim
(the expiry cut to whole seconds), to claims with exactly that subject and role; and the
refresh token made by `GenerateRefreshToken` parses, before its `exp`, to claims with that
subject and with the returned token id, which is not empty. -/
theorem C6_token_round_trip (L : Lib) (m : auth.TokenManager) (now parseNow : Time)
    (idEnv : auth.TokenIDEnv) (userID role : String) (hid : userID ≠ "") (hrole : role ≠ "")
    (haccess : parseNow < jwt.NumericDate.Time (jwt.NewNumericDate (now + m.accessTTL)))
    (hrefresh : parseNow < jwt.NumericDate.Time (jwt.NewNumericDate (now + m.refreshTTL))) :
    (∃ tok exp claims,
      m.GenerateAccessToken L now idEnv userID role = Except.ok (tok, exp) ∧
      m.ParseAccessToken L parseNow tok = Except.ok claims ∧
      claims.Subject = userID ∧ claims.Role = role) ∧
    (∃ tok tokenID exp claims,
      m.GenerateRefreshToken L now idEnv userID = Except.ok (tok, tokenID, exp) ∧
      m.ParseRefreshToken L parseNow tok = Except.ok claims ∧
      claims.Subject = userID ∧ claims.ID = tokenID ∧ tokenID ≠ "") := by
  constructor
  · have hp := auth.TokenManager.ParseAccessToken_encode L m parseNow
      { Role := role, TokenType := auth.TokenTypeAccess, Subject := userID,
        IssuedAt := some (jwt.NewNumericDate now),
        ExpiresAt := some (jwt.NewNumericDate (now + m.accessTTL)), NotBefore := none,
        ID := auth.generateTokenID idEnv } rfl hid hrole rfl
      (by
        intro exp h
        simp only [Option.some.injEq] at h
        subst h
        exact haccess)
    exact ⟨_, _, _, rfl, hp, rfl, rfl⟩
  · have hp := auth.TokenManager.ParseRefreshToken_encode L m parseNow
      { TokenType := auth.TokenTypeRefresh, Subject := userID,
        IssuedAt := some (jwt.NewNumericDate now),
        ExpiresAt := some (jwt.NewNumericDate (now + m.refreshTTL)), NotBefore := none,
        ID := auth.generateTokenID idEnv } rfl hid (auth.generateTokenID_ne_empty idEnv) rfl
      (by
        intro exp h
        simp only [Option.some.injEq] at h
        subst h
        exact hrefresh)
    exact ⟨_, _, _, _, rfl, hp, rfl, rfl, auth.generateTokenID_ne_empty idEnv⟩

/-- Witness for C6: user `user-1` with role `author`, tokens made at time 0 with lifetimes
of two and three seconds, parsed one second later. -/
theorem C6_token_round_trip_witness :
    (∃ tok exp claims,
      (auth.NewTokenManager "access-secret" "refresh-secret" (2 * Second)
          (3 * Second)).GenerateAccessToken Toy.lib 0
        { rand := { fails := false, bytes := fun _ => 0 }, now := 0 } "user-1" "author" =
          Except.ok (tok, exp) ∧
      (auth.NewTokenManager "access-secret" "refresh-secret" (2 * Second)
          (3 * Second)).ParseAccessToken Toy.lib (1 * Second) tok = Except.ok claims ∧
      claims.Subject = "user-1" ∧ claims.Role = "author") ∧
    (∃ tok tokenID exp claims,
      (auth.NewTokenManager "access-secret" "refresh-secret" (2 * Second)
          (3 * Second)).GenerateRefreshToken Toy.lib 0
        { rand := { fails := false, bytes := fun _ => 0 }, now := 0 } "user-1" =
          Except.ok (tok, tokenID, exp) ∧
      (auth.NewTokenManager "access-secret" "refresh-secret" (2 * Second)
          (3 * Second)).ParseRefreshToken Toy.lib (1 * Second) tok = Except.ok claims ∧
      claims.Subject = "user-1" ∧ claims.ID = tokenID ∧ tokenID ≠ "") :=
  C6_token_round_trip Toy.lib
    (auth.NewTokenManager "access-secret" "refresh-secret" (2 * Second) (3 * Second)) 0
    (1 * Second) { rand := { fails := false, bytes := fun _ => 0 }, now := 0 } "user-1"
    "author" (by decide) (by decide) (by decide) (by decide)

/-- Claim C7. Whatever the two secrets of a token manager, equal or not, and whenever the
tokens are parsed: a token made by `GenerateRefreshToken` is rejected by
`ParseAccessToken`, and a token made by `GenerateAccessToken` is rejected by
`ParseRefreshToken`, both with `ErrInvalidToken`. -/
theorem C7_token_kinds_not_interchangeable (L : Lib) (m : auth.TokenManager)
    (now parseNow : Time) (idEnv : auth.TokenIDEnv) (userID role : String) :
    (∃ tok tokenID exp,
      m.GenerateRefreshToken L now idEnv userID = Except.ok (tok, tokenID, exp) ∧
      m.ParseAccessToken L parseNow tok = Except.error auth.ErrInvalidToken) ∧
    (∃ tok exp,
      m.GenerateAccessToken L now idEnv userID role = Except.ok (tok, exp) ∧
      m.ParseRefreshToken L parseNow tok = Except.error auth.ErrInvalidToken) := by
  refine ⟨⟨_, _, _, rfl, ?_⟩, ⟨_, _, rfl, ?_⟩⟩
  · exact auth.TokenManager.ParseAccessToken_wrong_kind L m parseNow _ _
      (by simp [auth.RefreshClaims.toJSON, auth.TokenTypeAccess, auth.TokenTypeRefresh])
  · exact auth.TokenManager.ParseRefreshToken_wrong_kind L m parseNow _ _
      (by simp [auth.AccessClaims.toJSON, auth.TokenTypeAccess, auth.TokenTypeRefresh])

/-- Claim C8. `Logout` is idempotent: when the presented refresh token (the input with the
surrounding white space trimmed, as `Logout` reads it) is one that `ParseRefreshToken`
accepts at the time of each call, the first `Logout` returns nil, and a second `Logout`
with the same token on the resulting store returns nil and leaves that store unchanged. -/
theorem C8_logout_idempotent (L : Lib) (s : service.AuthService)
    (env1 env2 : service.LogoutEnv) (input : service.LogoutInput) (db : DB)
    (claims1 claims2 : auth.RefreshClaims)
    (h1 : s.tokenManager.ParseRefreshToken L env1.parseNow
      (strings.TrimSpace input.RefreshToken) = Except.ok claims1)
    (h2 : s.tokenManager.ParseRefreshToken L env2.parseNow
      (strings.TrimSpace input.RefreshToken) = Except.ok claims2) :
    (s.Logout L env1 input db).1 = none ∧
    s.Logout L env2 input (s.Logout L env1 input db).2 =
      (none, (s.Logout L env1 input db).2) := by
  rw [service.AuthService.Logout_accepted L s env1 input db claims1 h1]
  refine ⟨rfl, ?_⟩
  rw [service.AuthService.Logout_accepted L s env2 input _ claims2 h2]
  dsimp only
  rw [repository.GormRefreshTokenRepository.RevokeByHash_noop]
  intro r hr hh
  exact repository.GormRefreshTokenRepository.RevokeByHash_revoked _ _ _ r hr hh

/-- Witness for C8: two logouts with the refresh token of the example registration, one and
two seconds after it was issued. -/
theorem C8_logout_idempotent_witness :
    Example.svc.tokenManager.ParseRefreshToken Toy.lib (1 * Second)
        (strings.TrimSpace Example.token1) = Except.ok Example.claims1 ∧
    Example.svc.tokenManager.ParseRefreshToken Toy.lib (2 * Second)
        (strings.TrimSpace Example.token1) = Except.ok Example.claims1 ∧
    (Example.svc.Logout Toy.lib { parseNow := 1 * Second, revokeNow := 1 * Second }
        { RefreshToken := Example.token1 } Example.registered.2).1 = none ∧
    Example.svc.Logout Toy.lib { parseNow := 2 * Second, revokeNow := 2 * Second }
        { RefreshToken := Example.token1 }
        (Example.svc.Logout Toy.lib { parseNow := 1 * Second, revokeNow := 1 * Second }
          { RefreshToken := Example.token1 } Example.registered.2).2 =
      (none, (Example.svc.Logout Toy.lib { parseNow := 1 * Second, revokeNow := 1 * Second }
          { RefreshToken := Example.token1 } Example.registered.2).2) :=
  ⟨by decide, by decide,
    C8_logout_idempotent Toy.lib Example.svc { parseNow := 1 * Second, revokeNow := 1 * Second }
      { parseNow := 2 * Second, revokeNow := 2 * Second } { RefreshToken := Example.token1 }
      Example.registered.2 Example.claims1 Example.claims1 (by decide) (by decide)⟩

/-- Claim C9. After `Logout` has returned nil for a refresh token, the store holds no
unrevoked refresh row with the fingerprint of that token (the input as `Logout` reads it,
white space trimmed), and a following `Refresh` with the same token fails with
`ErrInvalidToken`, leaving the store as it is. -/
theorem C9_logout_revokes (L : Lib) (s : service.AuthService) (envL : service.LogoutEnv)
    (envR : service.RefreshEnv) (token : String) (db db1 : DB)
    (h : s.Logout L envL { RefreshToken := token } db = (none, db1)) :
    (∀ r ∈ db1.refresh_tokens,
      r.TokenHash = auth.HashToken L (strings.TrimSpace token) → r.RevokedAt ≠ none) ∧
    s.Refresh L envR { RefreshToken := token } db1 =
      (Except.error service.ErrInvalidToken, db1) := by
  obtain ⟨hne, -, rfl⟩ := service.AuthService.Logout_nil L s envL _ db db1 h
  have hrev : ∀ r ∈ (repository.GormRefreshTokenRepository.RevokeByHash envL.revokeNow
      (auth.HashToken L (strings.TrimSpace token)) db).2.refresh_tokens,
      r.TokenHash = auth.HashToken L (strings.TrimSpace token) → r.RevokedAt.isNone = false :=
    fun r hr hh => repository.GormRefreshTokenRepository.RevokeByHash_revoked _ _ _ r hr hh
  refine ⟨?_, service.AuthService.Refresh_no_active L s envR _ _ hne hrev⟩
  intro r hr hh hnone
  have := hrev r hr hh
  rw [hnone] at this
  simp at this

/-- Witness for C9: a logout with the refresh token of the example registration, then a
`Refresh` with the same token. -/
theorem C9_logout_revokes_witness :
    Example.svc.Logout Toy.lib { parseNow := 1 * Second, revokeNow := 1 * Second }
        { RefreshToken := Example.token1 } Example.registered.2 =
      (none, (Example.svc.Logout Toy.lib { parseNow := 1 * Second, revokeNow := 1 * Second }
        { RefreshToken := Example.token1 } Example.registered.2).2) ∧
    (∀ r ∈ (Example.svc.Logout Toy.lib { parseNow := 1 * Second, revokeNow := 1 * Second }
        { RefreshToken := Example.token1 } Example.registered.2).2.refresh_tokens,
      r.TokenHash = auth.HashToken Toy.lib (strings.TrimSpace Example.token1) →
        r.RevokedAt ≠ none) ∧
    Example.svc.Refresh Toy.lib (Example.refreshEnv (2 * Second) 3 "r-2")
        { RefreshToken := Example.token1 }
        (Example.svc.Logout Toy.lib { parseNow := 1 * Second, revokeNow := 1 * Second }
          { RefreshToken := Example.token1 } Example.registered.2).2 =
      (Except.error service.ErrInvalidToken,
        (Example.svc.Logout Toy.lib { parseNow := 1 * Second, revokeNow := 1 * Second }
          { RefreshToken := Example.token1 } Example.registered.2).2) :=
  ⟨by decide,
    C9_logout_revokes Toy.lib Example.svc { parseNow := 1 * Second, revokeNow := 1 * Second }
      (Example.refreshEnv (2 * Second) 3 "r-2") Example.token1 Example.registered.2 _
      (by decide)⟩

/-- Claim C10, as stated, fails for a malformed email. For the email `ann`, take the empty
store and a store that differs from it only by a credential with that email:
`RequestPasswordReset` refuses the email with the validation error on both, it does not
return nil. -/
theorem C10_counterexample :
    (Example.svc.RequestPasswordReset Toy.lib
        { tokenRand := Example.entropy 9, now := 1 * Second, rowID := "p-1",
          rowNow := 1 * Second, sendErr := none }
        { Email := "ann" }
        { users := [{ Example.user1 with Email := "ann" }], refresh_tokens := [],
          password_reset_tokens := [] }).1 =
      some (GoError.wrap "password reset request invalid" service.ErrValidation) ∧
    (Example.svc.RequestPasswordReset Toy.lib
        { tokenRand := Example.entropy 9, now := 1 * Second, rowID := "p-1",
          rowNow := 1 * Second, sendErr := none }
        { Email := "ann" } Example.emptyDB).1 =
      some (GoError.wrap "password reset request invalid" service.ErrValidation) := by
  decide

/-- Claim C10, amended. Enumeration resistance: take any email, a store in which no
credential carries its normal form and a store in which one does. When the normal form
is well formed (it contains an at sign and has at least five bytes),
`RequestPasswordReset` returns nil on both stores, provided that on the store holding
the credential the entropy source works and the store accepts the new reset row; when
it is malformed, the call returns the same validation error on both. Either way the
result does not tell whether the email exists. -/
theorem C10_reset_request_enumeration (L : Lib) (s : service.AuthService)
    (envWithout envWith : service.RequestResetEnv) (email : String) (dbWithout dbWith : DB)
    (hwithout : ∀ u ∈ dbWithout.users, u.Email ≠ service.normalizeEmail L email)
    (hwith : ∃ u ∈ dbWith.users, u.Email = service.normalizeEmail L email)
    (hentropy : envWith.tokenRand.fails = false)
    (hrow : ∀ r ∈ dbWith.password_reset_tokens, r.ID ≠ envWith.rowID) :
    (s.RequestPasswordReset L envWithout { Email := email } dbWithout).1 =
      (s.RequestPasswordReset L envWith { Email := email } dbWith).1 ∧
    (s.RequestPasswordReset L envWith { Email := email } dbWith).1 =
      if service.isValidEmail (service.normalizeEmail L email) = true then none
      else some (GoError.wrap "password reset request invalid" service.ErrValidation) := by
  by_cases hvalid : service.isValidEmail (service.normalizeEmail L email) = true
  · have h1 : (s.RequestPasswordReset L envWithout { Email := email } dbWithout).1 = none := by
      have hget : repository.GormUserRepository.GetByEmail L (service.normalizeEmail L email)
          dbWithout = Except.error repository.ErrNotFound := by
        apply repository.GormUserRepository.GetByEmail_notFound
        rw [← service.normalizeEmail, service.normalizeEmail_idem]
        exact hwithout
      simp [service.AuthService.RequestPasswordReset, hvalid, hget, errors.Is,
        repository.ErrNotFound]
    have h2 : (s.RequestPasswordReset L envWith { Email := email } dbWith).1 = none := by
      obtain ⟨user, hget⟩ := repository.GormUserRepository.GetByEmail_found L
        (service.normalizeEmail L email) dbWith
        (by rw [← service.normalizeEmail, service.normalizeEmail_idem]; exact hwith)
      have hany : ¬ ∃ x ∈ dbWith.password_reset_tokens, x.ID = envWith.rowID := by
        rintro ⟨x, hx, hid⟩
        exact hrow x hx hid
      simp [service.AuthService.RequestPasswordReset, hvalid, hget, auth.GenerateRandomToken,
        Entropy.Read, hentropy, repository.GormPasswordResetTokenRepository.Create,
        gorm.CreatePasswordResetToken, hany]
    rw [h1, h2, if_pos hvalid]
    exact ⟨rfl, rfl⟩
  · have h : ∀ env db, (s.RequestPasswordReset L env { Email := email } db).1 =
        some (GoError.wrap "password reset request invalid" service.ErrValidation) := by
      intro env db
      simp [service.AuthService.RequestPasswordReset, hvalid]
    rw [h, h, if_neg hvalid]
    exact ⟨rfl, rfl⟩

/-- Witness for C10: a reset request for the registered email of the example, on the empty
store and on the store of the example registration. -/
theorem C10_reset_request_enumeration_witness :
    (∀ u ∈ Example.emptyDB.users, u.Email ≠ service.normalizeEmail Toy.lib "Ann@Example.com") ∧
    (∃ u ∈ Example.registered.2.users,
      u.Email = service.normalizeEmail Toy.lib "Ann@Example.com") ∧
    (∀ r ∈ Example.registered.2.password_reset_tokens, r.ID ≠ "p-1") ∧
    (Example.svc.RequestPasswordReset Toy.lib
        { tokenRand := Example.entropy 8, now := 1 * Second, rowID := "p-0",
          rowNow := 1 * Second, sendErr := none }
        { Email := "Ann@Example.com" } Example.emptyDB).1 =
      (Example.svc.RequestPasswordReset Toy.lib
        { tokenRand := Example.entropy 9, now := 1 * Second, rowID := "p-1",
          rowNow := 1 * Second, sendErr := none }
        { Email := "Ann@Example.com" } Example.registered.2).1 ∧
    (Example.svc.RequestPasswordReset Toy.lib
        { tokenRand := Example.entropy 9, now := 1 * Second, rowID := "p-1",
          rowNow := 1 * Second, sendErr := none }
        { Email := "Ann@Example.com" } Example.registered.2).1 =
      if service.isValidEmail (service.normalizeEmail Toy.lib "Ann@Example.com") = true then none
      else some (GoError.wrap "password reset request invalid" service.ErrValidation) :=
  ⟨by decide, by decide, by decide,
    C10_reset_request_enumeration Toy.lib Example.svc
      { tokenRand := Example.entropy 8, now := 1 * Second, rowID := "p-0", rowNow := 1 * Second,
        sendErr := none }
      { tokenRand := Example.entropy 9, now := 1 * Second, rowID := "p-1", rowNow := 1 * Second,
        sendErr := none }
      "Ann@Example.com" Example.emptyDB Example.registered.2 (by decide) (by decide) (by decide)
      (by decide)⟩

/-- Claim C11, as stated, fails. `ParseRefreshToken` rejects a string of two spaces, and
`Refresh` on it fails with the validation error, which is not `ErrInvalidToken`; and
`ParseRefreshToken` rejects the refresh token of the example registration written between
two spaces, while `Refresh`, which trims its input, accepts it. -/
theorem C11_counterexample :
    Example.svc.tokenManager.ParseRefreshToken Toy.lib (1 * Second) "  " =
      Except.error auth.ErrInvalidToken ∧
    (Example.svc.Refresh Toy.lib (Example.refreshEnv (1 * Second) 3 "r-2")
        { RefreshToken := "  " } Example.registered.2).1 =
      Except.error (GoError.wrap "refresh input invalid" service.ErrValidation) ∧
    errors.Is (GoError.wrap "refresh input invalid" service.ErrValidation)
      service.ErrInvalidToken = false ∧
    Example.svc.tokenManager.ParseRefreshToken Toy.lib (1 * Second)
        (" " ++ Example.token1 ++ " ") = Except.error auth.ErrInvalidToken ∧
    (Example.svc.Refresh Toy.lib (Example.refreshEnv (1 * Second) 3 "r-2")
        { RefreshToken := " " ++ Example.token1 ++ " " } Example.registered.2).1.toBool = true := by
  decide

/-- Claim C11, amended. When `ParseRefreshToken` rejects the raw token as `Refresh` reads it,
that is the input trimmed of white space, `Refresh` fails and leaves the store unchanged:
with `ErrInvalidToken` when the trimmed input is not empty, and with an error wrapping
`ErrValidation` when it is empty. -/
theorem C11_refresh_rejected_token (L : Lib) (s : service.AuthService)
    (env : service.RefreshEnv) (input : service.RefreshInput) (db : DB) (err : GoError)
    (hrej : s.tokenManager.ParseRefreshToken L env.parseNow
      (strings.TrimSpace input.RefreshToken) = Except.error err) :
    s.Refresh L env input db =
      (Except.error (if strings.TrimSpace input.RefreshToken = "" then
          GoError.wrap "refresh input invalid" service.ErrValidation
        else service.ErrInvalidToken), db) := by
  unfold service.AuthService.Refresh service.AuthService.RefreshWith
  dsimp only
  by_cases hblank : strings.TrimSpace input.RefreshToken = ""
  · simp only [hblank, if_true]
  · simp only [hblank, if_false, hrej]

/-- Witness for C11: the refresh token of the example registration presented after its
expiry, the access token of that registration presented as a refresh token, and a text
that is no token. -/
theorem C11_refresh_rejected_token_witness :
    Example.svc.Refresh Toy.lib (Example.refreshEnv (10 * Second) 3 "r-2")
        { RefreshToken := Example.token1 } Example.registered.2 =
      (Except.error service.ErrInvalidToken, Example.registered.2) ∧
    Example.svc.Refresh Toy.lib (Example.refreshEnv (1 * Second) 3 "r-2")
        { RefreshToken := Example.pair1.AccessToken } Example.registered.2 =
      (Except.error service.ErrInvalidToken, Example.registered.2) ∧
    Example.svc.Refresh Toy.lib (Example.refreshEnv (1 * Second) 3 "r-2")
        { RefreshToken := "not a token" } Example.registered.2 =
      (Except.error service.ErrInvalidToken, Example.registered.2) :=
  ⟨C11_refresh_rejected_token Toy.lib Example.svc (Example.refreshEnv (10 * Second) 3 "r-2")
      { RefreshToken := Example.token1 } Example.registered.2 auth.ErrInvalidToken (by decide),
    C11_refresh_rejected_token Toy.lib Example.svc (Example.refreshEnv (1 * Second) 3 "r-2")
      { RefreshToken := Example.pair1.AccessToken } Example.registered.2 auth.ErrInvalidToken
      (by decide),
    C11_refresh_rejected_token Toy.lib Example.svc (Example.refreshEnv (1 * Second) 3 "r-2")
      { RefreshToken := "not a token" } Example.registered.2 auth.ErrInvalidToken (by decide)⟩

/-- Claim C12, as stated, fails: the password `pässwör` has seven characters, yet `Register`
accepts it, because it measures the password in bytes and the password has nine. -/
theorem C12_counterexample :
    ("pässwör" : String).length = 7 ∧ strings.len "pässwör" = 9 ∧
    (Example.svc.Register Toy.lib
        { hashRand := Example.entropy 7, userID := "u-1", userNow := 0,
          issue := Example.issueEnv 0 1 "r-1" }
        { Email := "ann@example.com", Password := "pässwör" } Example.emptyDB).1.toBool = true := by
  decide

/-- Claim C12, amended. For every input whose trimmed and lower-cased email is malformed or
whose password has fewer than eight bytes, `Register` fails with an error wrapping
`ErrValidation` and leaves the store as it was; the error is the same whatever the store
holds and whatever the environment yields, so the store is not read. -/
theorem C12_register_validation (L : Lib) (s : service.AuthService)
    (env env2 : service.RegisterEnv) (input : service.RegisterInput) (db db2 : DB)
    (hbad : service.isValidEmail (service.normalizeEmail L input.Email) = false ∨
      strings.len input.Password < 8) :
    s.Register L env input db =
      (Except.error (GoError.wrap "register input invalid" service.ErrValidation), db) ∧
    (s.Register L env2 input db2).1 = (s.Register L env input db).1 ∧
    errors.Is (GoError.wrap "register input invalid" service.ErrValidation)
      service.ErrValidation = true := by
  have key : ∀ (e : service.RegisterEnv) (d : DB), s.Register L e input d =
      (Except.error (GoError.wrap "register input invalid" service.ErrValidation), d) := by
    intro e d
    unfold service.AuthService.Register
    dsimp only
    rcases hbad with h | h
    · simp [h]
    · simp [h]
  refine ⟨key env db, ?_, ?_⟩
  · rw [key env db, key env2 db2]
  · simp [errors.Is, service.ErrValidation]

/-- Witness for C12: a registration with an email without at sign, and one with a password
of five bytes, on the store of the example, which holds a credential, and on the empty
store. -/
theorem C12_register_validation_witness :
    (Example.svc.Register Toy.lib
        { hashRand := Example.entropy 7, userID := "u-2", userNow := 0,
          issue := Example.issueEnv 0 1 "r-2" }
        { Email := "ann.example.com", Password := "password123" } Example.registered.2 =
      (Except.error (GoError.wrap "register input invalid" service.ErrValidation),
        Example.registered.2)) ∧
    (Example.svc.Register Toy.lib
        { hashRand := Example.entropy 7, userID := "u-2", userNow := 0,
          issue := Example.issueEnv 0 1 "r-2" }
        { Email := "ann@example.com", Password := "short" } Example.registered.2 =
      (Except.error (GoError.wrap "register input invalid" service.ErrValidation),
        Example.registered.2)) :=
  ⟨(C12_register_validation Toy.lib Example.svc
      { hashRand := Example.entropy 7, userID := "u-2", userNow := 0,
        issue := Example.issueEnv 0 1 "r-2" }
      { hashRand := Example.entropy 7, userID := "u-2", userNow := 0,
        issue := Example.issueEnv 0 1 "r-2" }
      { Email := "ann.example.com", Password := "password123" } Example.registered.2
      Example.emptyDB (Or.inl (by decide))).1,
    (C12_register_validation Toy.lib Example.svc
      { hashRand := Example.entropy 7, userID := "u-2", userNow := 0,
        issue := Example.issueEnv 0 1 "r-2" }
      { hashRand := Example.entropy 7, userID := "u-2", userNow := 0,
        issue := Example.issueEnv 0 1 "r-2" }
      { Email := "ann@example.com", Password := "short" } Example.registered.2
      Example.emptyDB (Or.inr (by decide))).1⟩

/-- Claim C13, as stated, fails: on the store of the example, which holds a credential with
email `ann@example.com`, a registration with that email and a password of five bytes
returns the validation error, not `ErrEmailAlreadyUsed`. -/
theorem C13_counterexample :
    (∃ u ∈ Example.registered.2.users,
      u.Email = service.normalizeEmail Toy.lib "ann@example.com") ∧
    (Example.svc.Register Toy.lib
        { hashRand := Example.entropy 7, userID := "u-2", userNow := 0,
          issue := Example.issueEnv 0 1 "r-2" }
        { Email := "ann@example.com", Password := "short" } Example.registered.2).1 =
      Except.error (GoError.wrap "register input invalid" service.ErrValidation) ∧
    errors.Is (GoError.wrap "register input invalid" service.ErrValidation)
      service.ErrEmailAlreadyUsed = false := by
  decide

/-- Claim C13, amended. For an input that passes the validation of `Register` (well-formed
normalized email, password of at least eight bytes): when the store holds a credential
with the normalized email, `Register` returns `ErrEmailAlreadyUsed` and leaves the store
unchanged; and when the existence check found none on store `db` but `Create`, run on the
store `db2` of that later moment, reports an error that is `ErrDuplicate`, the remaining
steps return `ErrEmailAlreadyUsed` and leave `db2` unchanged. `Create` reports such an
error whenever `db2` holds a credential with the normalized email. -/
theorem C13_register_email_taken (L : Lib) (s : service.AuthService)
    (env : service.RegisterEnv) (input : service.RegisterInput) (db db2 : DB)
    (hvalid : service.isValidEmail (service.normalizeEmail L input.Email) = true)
    (hpw : 8 ≤ strings.len input.Password) :
    ((∃ u ∈ db.users, u.Email = service.normalizeEmail L input.Email) →
      s.Register L env input db = (Except.error service.ErrEmailAlreadyUsed, db)) ∧
    (∀ hashed err db3,
      service.AuthService.registerCheck L env.hashRand input db = Except.ok hashed →
      repository.GormUserRepository.Create L env.userID env.userNow
          { ID := "", Email := service.normalizeEmail L input.Email, PasswordHash := hashed,
            Role := s.defaultRole, CreatedAt := 0, UpdatedAt := 0 } db2 =
        (Except.error err, db3) →
      errors.Is err repository.ErrDuplicate = true →
      s.registerCreate L env input hashed db2 =
        (Except.error service.ErrEmailAlreadyUsed, db2)) ∧
    (∀ hashed, (∃ u ∈ db2.users, u.Email = service.normalizeEmail L input.Email) →
      repository.GormUserRepository.Create L env.userID env.userNow
          { ID := "", Email := service.normalizeEmail L input.Email, PasswordHash := hashed,
            Role := s.defaultRole, CreatedAt := 0, UpdatedAt := 0 } db2 =
        (Except.error (GoError.wrap "create user" repository.ErrDuplicate), db2)) := by
  refine ⟨?_, ?_, ?_⟩
  · intro htaken
    have hnorm : strings.ToLower L (strings.TrimSpace (service.normalizeEmail L input.Email)) =
        service.normalizeEmail L input.Email := service.normalizeEmail_idem L input.Email
    obtain ⟨user, hget⟩ := repository.GormUserRepository.GetByEmail_found L
      (service.normalizeEmail L input.Email) db (by rw [hnorm]; exact htaken)
    unfold service.AuthService.Register
    have hlen : ¬ strings.len input.Password < 8 := Nat.not_lt.mpr hpw
    simp [hvalid, hlen, hget]
  · intro hashed err db3 _ hcreate hdup
    obtain ⟨rfl, -, -⟩ := repository.GormUserRepository.Create_error L _ _ _ _ _ _ hcreate
    unfold service.AuthService.registerCreate
    rw [hcreate]
    simp [hdup]
  · intro hashed htaken
    exact repository.GormUserRepository.Create_duplicate L _ _ _ _ (Or.inr htaken)

/-- Witness for C13: a second registration with the email of the example, and a registration
whose existence check ran on the empty store while its `Create` runs on the store left by
the example registration, which came first. -/
theorem C13_register_email_taken_witness :
    service.isValidEmail (service.normalizeEmail Toy.lib "ANN@example.com") = true ∧
    8 ≤ strings.len "password456" ∧
    Example.svc.Register Toy.lib
        { hashRand := Example.entropy 7, userID := "u-2", userNow := 1 * Second,
          issue := Example.issueEnv (1 * Second) 3 "r-2" }
        { Email := "ANN@example.com", Password := "password456" } Example.registered.2 =
      (Except.error service.ErrEmailAlreadyUsed, Example.registered.2) ∧
    service.AuthService.registerCheck Toy.lib (Example.entropy 7)
        { Email := "ANN@example.com", Password := "password456" } Example.emptyDB =
      Except.ok "$2a$10$password456" ∧
    Example.svc.registerCreate Toy.lib
        { hashRand := Example.entropy 7, userID := "u-2", userNow := 1 * Second,
          issue := Example.issueEnv (1 * Second) 3 "r-2" }
        { Email := "ANN@example.com", Password := "password456" } "$2a$10$password456"
        Example.registered.2 =
      (Except.error service.ErrEmailAlreadyUsed, Example.registered.2) :=
  ⟨by decide, by decide,
    (C13_register_email_taken Toy.lib Example.svc
      { hashRand := Example.entropy 7, userID := "u-2", userNow := 1 * Second,
        issue := Example.issueEnv (1 * Second) 3 "r-2" }
      { Email := "ANN@example.com", Password := "password456" } Example.registered.2
      Example.registered.2 (by decide) (by decide)).1 ⟨Example.user1, by decide, by decide⟩,
    by decide,
    (C13_register_email_taken Toy.lib Example.svc
      { hashRand := Example.entropy 7, userID := "u-2", userNow := 1 * Second,
        issue := Example.issueEnv (1 * Second) 3 "r-2" }
      { Email := "ANN@example.com", Password := "password456" } Example.emptyDB
      Example.registered.2 (by decide) (by decide)).2.1 "$2a$10$password456"
      (GoError.wrap "create user" repository.ErrDuplicate) Example.registered.2 (by decide)
      (by decide) (by decide)⟩

/-- Claim C14. A successful `Login` leaves the credentials and the reset records as they
were and appends exactly one refresh record to the refresh records it found: its owner
is the user returned, who is the credential found under the normalized email, its
fingerprint is `HashToken` of the refresh token returned and is not that token itself, its
expiry the one returned, and it carries no revocation time. The pair returned has token
type `Bearer`. -/
theorem C14_login_adds_one_refresh_record (F : LibFormat) (s : service.AuthService)
    (env : service.IssueEnv) (input : service.LoginInput) (db db1 : DB)
    (user : service.RegisteredUser) (pair : service.TokenPair)
    (h : s.Login F.toLib env input db = (Except.ok (user, pair), db1)) :
    db1.refresh_tokens = db.refresh_tokens ++
      [{ ID := env.rowID, UserID := user.ID,
         TokenHash := auth.HashToken F.toLib pair.RefreshToken,
         ExpiresAt := pair.RefreshExpiresAt, RevokedAt := none, CreatedAt := env.rowNow }] ∧
    auth.HashToken F.toLib pair.RefreshToken ≠ pair.RefreshToken ∧
    (∀ r ∈ db1.refresh_tokens, r ∉ db.refresh_tokens → r.TokenHash ≠ pair.RefreshToken) ∧
    db1.users = db.users ∧
    db1.password_reset_tokens = db.password_reset_tokens ∧
    pair.TokenType = "Bearer" ∧
    ∃ u ∈ db.users, u.Email = service.normalizeEmail F.toLib input.Email ∧ u.ID = user.ID := by
  obtain ⟨u, hget, -, rfl, hissue⟩ :=
    service.AuthService.Login_ok F.toLib s env input db db1 user pair h
  obtain ⟨rfl, htype, -, ⟨tokenID, hgen⟩, -⟩ :=
    service.AuthService.issueTokenPair_ok F.toLib s _ _ _ _ _ _ hissue
  obtain ⟨hmem, hemail⟩ := repository.GormUserRepository.GetByEmail_ok F.toLib _ db u hget
  have hraw : auth.HashToken F.toLib pair.RefreshToken ≠ pair.RefreshToken := by
    simp only [auth.TokenManager.GenerateRefreshToken, Except.ok.injEq, Prod.mk.injEq] at hgen
    rw [← hgen.1]
    exact F.digest_ne_token _ _
  refine ⟨rfl, hraw, ?_, rfl, rfl, htype, u, hmem, ?_, rfl⟩
  · intro r hr hnot
    simp only [List.mem_append, List.mem_singleton] at hr
    rcases hr with hr | rfl
    · exact absurd hr hnot
    · exact hraw
  · rw [hemail]
    exact service.normalizeEmail_idem F.toLib input.Email

/-- Witness for C14: the login of the registered user of the example, one second after the
registration. -/
theorem C14_login_adds_one_refresh_record_witness :
    Example.svc.Login Toy.lib (Example.issueEnv (1 * Second) 3 "r-2")
        { Email := " Ann@Example.com", Password := "password123" } Example.registered.2 =
      (Except.ok ({ ID := "u-1", Email := "ann@example.com", Role := "author" },
        Example.loginPair), Example.loggedIn.2) ∧
    (Example.loggedIn.2.refresh_tokens = Example.registered.2.refresh_tokens ++
      [{ ID := "r-2", UserID := "u-1",
         TokenHash := auth.HashToken Toy.lib Example.loginPair.RefreshToken,
         ExpiresAt := Example.loginPair.RefreshExpiresAt, RevokedAt := none,
         CreatedAt := 1 * Second }] ∧
    auth.HashToken Toy.lib Example.loginPair.RefreshToken ≠ Example.loginPair.RefreshToken ∧
    (∀ r ∈ Example.loggedIn.2.refresh_tokens, r ∉ Example.registered.2.refresh_tokens →
      r.TokenHash ≠ Example.loginPair.RefreshToken) ∧
    Example.loggedIn.2.users = Example.registered.2.users ∧
    Example.loggedIn.2.password_reset_tokens = Example.registered.2.password_reset_tokens ∧
    Example.loginPair.TokenType = "Bearer" ∧
    ∃ u ∈ Example.registered.2.users,
      u.Email = service.normalizeEmail Toy.lib " Ann@Example.com" ∧ u.ID = "u-1") :=
  ⟨by decide,
    C14_login_adds_one_refresh_record Toy.libFormat Example.svc
      (Example.issueEnv (1 * Second) 3 "r-2")
      { Email := " Ann@Example.com", Password := "password123" } Example.registered.2
      Example.loggedIn.2 { ID := "u-1", Email := "ann@example.com", Role := "author" }
      Example.loginPair (by decide)⟩

/-- Claim C15. When `ParseRefreshToken` accepts the raw token (the input trimmed of white
space), and the active record found under its fingerprint belongs to a user other than
the subject of the token, `Refresh` fails with `ErrInvalidToken` and leaves the store as
it was: nothing is revoked and nothing is created. -/
theorem C15_refresh_subject_mismatch (L : Lib) (s : service.AuthService)
    (env : service.RefreshEnv) (input : service.RefreshInput) (db : DB)
    (claims : auth.RefreshClaims) (stored : models.RefreshToken)
    (hparse : s.tokenManager.ParseRefreshToken L env.parseNow
      (strings.TrimSpace input.RefreshToken) = Except.ok claims)
    (hstored : repository.GormRefreshTokenRepository.GetActiveByHash env.lookupNow
      (auth.HashToken L (strings.TrimSpace input.RefreshToken)) db = Except.ok stored)
    (hne : stored.UserID ≠ claims.Subject) :
    s.Refresh L env input db = (Except.error service.ErrInvalidToken, db) := by
  have hblank : strings.TrimSpace input.RefreshToken ≠ "" := by
    intro h0
    rw [h0, auth.TokenManager.ParseRefreshToken_blank] at hparse
    simp at hparse
  unfold service.AuthService.Refresh service.AuthService.RefreshWith
  simp [hblank, hparse, hstored, hne]

/-- Witness for C15: the refresh token of the example registration, whose subject is `u-1`,
presented on a store where the record with its fingerprint belongs to `u-2`. -/
theorem C15_refresh_subject_mismatch_witness :
    Example.svc.tokenManager.ParseRefreshToken Toy.lib (1 * Second)
        (strings.TrimSpace Example.token1) = Except.ok Example.claims1 ∧
    (∃ stored, repository.GormRefreshTokenRepository.GetActiveByHash (1 * Second)
        (auth.HashToken Toy.lib (strings.TrimSpace Example.token1)) Example.foreignDB =
          Except.ok stored ∧ stored.UserID = "u-2") ∧
    Example.svc.Refresh Toy.lib (Example.refreshEnv (1 * Second) 3 "r-2")
        { RefreshToken := Example.token1 } Example.foreignDB =
      (Except.error service.ErrInvalidToken, Example.foreignDB) :=
  ⟨by decide,
    ⟨{ ID := "r-1", UserID := "u-2", TokenHash := auth.HashToken Toy.lib Example.token1,
       ExpiresAt := 3 * Second, RevokedAt := none, CreatedAt := 0 }, by decide, by decide⟩,
    C15_refresh_subject_mismatch Toy.lib Example.svc (Example.refreshEnv (1 * Second) 3 "r-2")
      { RefreshToken := Example.token1 } Example.foreignDB Example.claims1
      { ID := "r-1", UserID := "u-2", TokenHash := auth.HashToken Toy.lib Example.token1,
        ExpiresAt := 3 * Second, RevokedAt := none, CreatedAt := 0 }
      (by decide) (by decide) (by decide)⟩

/-- Claim C16, as stated, fails: in a `Refresh` of the example registration's token on a
store where another request revokes the record first, `RevokeByHash` reports `ErrNotFound`
and `Refresh` goes on to the issue of a pair, but it fails all the same when the store
refuses the new refresh row, here because its primary key is in use. -/
theorem C16_counterexample :
    Example.revokedMeanwhile (1 * Second) (auth.HashToken Toy.lib Example.token1)
          Example.registered.2 =
        (some repository.ErrNotFound,
          (repository.GormRefreshTokenRepository.RevokeByHash (1 * Second)
            (auth.HashToken Toy.lib Example.token1) Example.registered.2).2) ∧
      Example.svc.RefreshWith Toy.lib Example.revokedMeanwhile
          (Example.refreshEnv (1 * Second) 3 "r-1") { RefreshToken := Example.token1 }
          Example.registered.2 =
        (Except.error
          (GoError.wrap "store refresh token"
            (GoError.wrap "create refresh token"
              (gorm.uniqueViolation "refresh_tokens_pkey"))),
          (repository.GormRefreshTokenRepository.RevokeByHash (1 * Second)
            (auth.HashToken Toy.lib Example.token1) Example.registered.2).2) := by
  decide

/-- Claim C16, amended. Let `Refresh` have found the active record of the presented token
and its owner, and let `RevokeByHash`, whatever implements it, report error `err` and leave
store `db1`. When `err` is `ErrNotFound`, `Refresh` does not abort: its outcome is that of
the issue of the token pair on `db1`, and when the store accepts the new refresh row it
returns the pair, whose refresh record is appended to `db1`. When `err` is not
`ErrNotFound`, `Refresh` returns `err` wrapped and issues nothing. The `Refresh` of a
service on the GORM repository is this function with the GORM `RevokeByHash`. -/
theorem C16_refresh_tolerates_revoke_not_found (L : Lib) (s : service.AuthService)
    (revokeByHash : Time → String → DB → Option GoError × DB) (env : service.RefreshEnv)
    (input : service.RefreshInput) (db db1 : DB) (claims : auth.RefreshClaims)
    (stored : models.RefreshToken) (user : models.User) (err : GoError)
    (hne : strings.TrimSpace input.RefreshToken ≠ "")
    (hparse : s.tokenManager.ParseRefreshToken L env.parseNow
      (strings.TrimSpace input.RefreshToken) = Except.ok claims)
    (hget : repository.GormRefreshTokenRepository.GetActiveByHash env.lookupNow
      (auth.HashToken L (strings.TrimSpace input.RefreshToken)) db = Except.ok stored)
    (howner : stored.UserID = claims.Subject)
    (huser : repository.GormUserRepository.GetByID claims.Subject db = Except.ok user)
    (hrevoke : revokeByHash env.revokeNow
      (auth.HashToken L (strings.TrimSpace input.RefreshToken)) db = (some err, db1)) :
    (errors.Is err repository.ErrNotFound = true →
      s.RefreshWith L revokeByHash env input db =
          s.issueTokenPair L env.issue user.ID user.Role db1 ∧
        ((∀ r ∈ db1.refresh_tokens, r.ID ≠ env.issue.rowID) →
          ∃ pair, s.RefreshWith L revokeByHash env input db =
            (Except.ok pair,
              { db1 with refresh_tokens := db1.refresh_tokens ++
                [{ ID := env.issue.rowID, UserID := user.ID,
                   TokenHash := auth.HashToken L pair.RefreshToken,
                   ExpiresAt := pair.RefreshExpiresAt, RevokedAt := none,
                   CreatedAt := env.issue.rowNow }] }))) ∧
    (errors.Is err repository.ErrNotFound = false →
      s.RefreshWith L revokeByHash env input db =
        (Except.error (GoError.wrap "revoke old refresh token" err), db1)) ∧
    s.Refresh L env input db =
      s.RefreshWith L repository.GormRefreshTokenRepository.RevokeByHash env input db := by
  have hrun : s.RefreshWith L revokeByHash env input db =
      if !errors.Is err repository.ErrNotFound then
        (Except.error (GoError.wrap "revoke old refresh token" err), db1)
      else s.issueTokenPair L env.issue user.ID user.Role db1 := by
    unfold service.AuthService.RefreshWith
    simp only [hne, if_false, hparse, hget, howner, ne_eq, not_true_eq_false, huser, hrevoke]
  refine ⟨?_, ?_, rfl⟩
  · intro hnf
    have hissue : s.RefreshWith L revokeByHash env input db =
        s.issueTokenPair L env.issue user.ID user.Role db1 := by
      rw [hrun]
      simp [hnf]
    refine ⟨hissue, ?_⟩
    intro hfresh
    obtain ⟨pair, db2, hpair⟩ :=
      service.AuthService.issueTokenPair_fresh L s env.issue user.ID user.Role db1 hfresh
    obtain ⟨hdb2, -⟩ := service.AuthService.issueTokenPair_ok L s _ _ _ _ _ _ hpair
    exact ⟨pair, by rw [hissue, hpair, hdb2]⟩
  · intro hnf
    rw [hrun]
    simp [hnf]

/-- Witness for C16: a `Refresh` of the example registration's token on a store where
another request revokes the record first issues a pair all the same, and on a store that
has lost its connection it returns the error of `RevokeByHash` wrapped. -/
theorem C16_refresh_tolerates_revoke_not_found_witness :
    (∃ pair, Example.svc.RefreshWith Toy.lib Example.revokedMeanwhile
        (Example.refreshEnv (1 * Second) 3 "r-2") { RefreshToken := Example.token1 }
        Example.registered.2 =
      (Except.ok pair,
        { (repository.GormRefreshTokenRepository.RevokeByHash (1 * Second)
            (auth.HashToken Toy.lib Example.token1) Example.registered.2).2 with
          refresh_tokens :=
            (repository.GormRefreshTokenRepository.RevokeByHash (1 * Second)
              (auth.HashToken Toy.lib Example.token1)
              Example.registered.2).2.refresh_tokens ++
            [{ ID := "r-2", UserID := "u-1",
               TokenHash := auth.HashToken Toy.lib pair.RefreshToken,
               ExpiresAt := pair.RefreshExpiresAt, RevokedAt := none,
               CreatedAt := 1 * Second }] })) ∧
    Example.svc.RefreshWith Toy.lib Example.revokeFails
        (Example.refreshEnv (1 * Second) 3 "r-2") { RefreshToken := Example.token1 }
        Example.registered.2 =
      (Except.error
        (GoError.wrap "revoke old refresh token" (GoError.external "connection reset")),
        Example.registered.2) :=
  ⟨((C16_refresh_tolerates_revoke_not_found Toy.lib Example.svc Example.revokedMeanwhile
      (Example.refreshEnv (1 * Second) 3 "r-2") { RefreshToken := Example.token1 }
      Example.registered.2
      (repository.GormRefreshTokenRepository.RevokeByHash (1 * Second)
        (auth.HashToken Toy.lib Example.token1) Example.registered.2).2
      Example.claims1
      { ID := "r-1", UserID := "u-1", TokenHash := auth.HashToken Toy.lib Example.token1,
        ExpiresAt := 3 * Second, RevokedAt := none, CreatedAt := 0 }
      Example.user1 repository.ErrNotFound (by decide) (by decide) (by decide) (by decide)
      (by decide) (by decide)).1 (by decide)).2 (by decide),
    (C16_refresh_tolerates_revoke_not_found Toy.lib Example.svc Example.revokeFails
      (Example.refreshEnv (1 * Second) 3 "r-2") { RefreshToken := Example.token1 }
      Example.registered.2 Example.registered.2 Example.claims1
      { ID := "r-1", UserID := "u-1", TokenHash := auth.HashToken Toy.lib Example.token1,
        ExpiresAt := 3 * Second, RevokedAt := none, CreatedAt := 0 }
      Example.user1 (GoError.external "connection reset") (by decide) (by decide) (by decide)
      (by decide) (by decide) (by decide)).2.1 (by decide)⟩

/-- Claim C17. In `ConfirmPasswordReset`, `MarkUsedByID`, whatever implements it, is called
on the store in which the password hash has been written. When it reports an error the
call returns an error, `ErrInvalidToken` when the report is `ErrNotFound` and the report
wrapped otherwise, the hash staying written. The call reports success only when
`MarkUsedByID` did, and then returns the store `MarkUsedByID` left; with the GORM
repository that store holds the record found marked used and the new hash. The
`ConfirmPasswordReset` of a service on the GORM repository is this function with the GORM
`MarkUsedByID`. -/
theorem C17_confirm_mark_failure_surfaces (L : Lib) (s : service.AuthService)
    (markUsedByID : Time → String → DB → Option GoError × DB)
    (env : service.ConfirmResetEnv) (input : service.ConfirmResetInput) (db : DB) :
    (∀ stored hashed db1 err db2,
      strings.TrimSpace input.Token ≠ "" → 8 ≤ strings.len input.NewPassword →
      repository.GormPasswordResetTokenRepository.GetActiveByHash env.lookupNow
        (auth.HashToken L (strings.TrimSpace input.Token)) db = Except.ok stored →
      auth.HashPassword L env.hashRand input.NewPassword = Except.ok hashed →
      repository.GormUserRepository.UpdatePasswordHash env.updateNow stored.UserID hashed db =
        (none, db1) →
      markUsedByID env.markNow stored.ID db1 = (some err, db2) →
      s.ConfirmPasswordResetWith L markUsedByID env input db =
          (some (if errors.Is err repository.ErrNotFound = true then service.ErrInvalidToken
            else GoError.wrap "mark reset token used" err), db2) ∧
        (s.ConfirmPasswordResetWith L markUsedByID env input db).1 ≠ none ∧
        ∀ u ∈ db1.users, u.ID = stored.UserID → u.PasswordHash = hashed) ∧
    (∀ db3, s.ConfirmPasswordResetWith L markUsedByID env input db = (none, db3) →
      ∃ stored hashed db1,
        repository.GormPasswordResetTokenRepository.GetActiveByHash env.lookupNow
          (auth.HashToken L (strings.TrimSpace input.Token)) db = Except.ok stored ∧
        auth.HashPassword L env.hashRand input.NewPassword = Except.ok hashed ∧
        repository.GormUserRepository.UpdatePasswordHash env.updateNow stored.UserID hashed
          db = (none, db1) ∧
        markUsedByID env.markNow stored.ID db1 = (none, db3)) ∧
    (∀ db3, s.ConfirmPasswordReset L env input db = (none, db3) →
      ∃ stored hashed,
        repository.GormPasswordResetTokenRepository.GetActiveByHash env.lookupNow
          (auth.HashToken L (strings.TrimSpace input.Token)) db = Except.ok stored ∧
        auth.HashPassword L env.hashRand input.NewPassword = Except.ok hashed ∧
        (∃ r ∈ db3.password_reset_tokens, r.ID = stored.ID ∧ r.UsedAt = some env.markNow) ∧
        ∀ u ∈ db3.users, u.ID = stored.UserID → u.PasswordHash = hashed) ∧
    s.ConfirmPasswordReset L env input db =
      s.ConfirmPasswordResetWith L repository.GormPasswordResetTokenRepository.MarkUsedByID
        env input db := by
  have hsuccess : ∀ (mark : Time → String → DB → Option GoError × DB) (db3 : DB),
      s.ConfirmPasswordResetWith L mark env input db = (none, db3) →
      ∃ stored hashed db1,
        repository.GormPasswordResetTokenRepository.GetActiveByHash env.lookupNow
          (auth.HashToken L (strings.TrimSpace input.Token)) db = Except.ok stored ∧
        auth.HashPassword L env.hashRand input.NewPassword = Except.ok hashed ∧
        repository.GormUserRepository.UpdatePasswordHash env.updateNow stored.UserID hashed
          db = (none, db1) ∧
        mark env.markNow stored.ID db1 = (none, db3) := by
    intro mark db3 h
    unfold service.AuthService.ConfirmPasswordResetWith at h
    dsimp only at h
    split at h
    · simp at h
    · split at h
      · split at h <;> simp at h
      · rename_i stored hget
        split at h
        · simp at h
        · rename_i hashed hhash
          split at h
          · split at h <;> simp at h
          · rename_i db1 hupd
            split at h
            · split at h <;> simp at h
            · rename_i db2 hmark
              simp only [Prod.mk.injEq, true_and] at h
              subst h
              exact ⟨stored, hashed, db1, hget, hhash, hupd, hmark⟩
  refine ⟨?_, hsuccess markUsedByID, ?_, rfl⟩
  · intro stored hashed db1 err db2 hne hlen hget hhash hupd hmark
    have hrun : s.ConfirmPasswordResetWith L markUsedByID env input db =
        (some (if errors.Is err repository.ErrNotFound = true then service.ErrInvalidToken
          else GoError.wrap "mark reset token used" err), db2) := by
      have hshort : ¬ strings.len input.NewPassword < 8 := by omega
      unfold service.AuthService.ConfirmPasswordResetWith
      simp only [hne, hshort, decide_False, Bool.or_self, Bool.false_eq_true, if_false, hget,
        hhash, hupd, hmark]
      split <;> rfl
    refine ⟨hrun, by rw [hrun]; simp, ?_⟩
    have hdb1 : db1 = (repository.GormUserRepository.UpdatePasswordHash env.updateNow
        stored.UserID hashed db).2 := by rw [hupd]
    rw [hdb1]
    exact repository.GormUserRepository.UpdatePasswordHash_written _ _ _ _
  · intro db3 h
    obtain ⟨stored, hashed, db1, hget, hhash, hupd, hmark⟩ :=
      hsuccess repository.GormPasswordResetTokenRepository.MarkUsedByID db3 h
    refine ⟨stored, hashed, hget, hhash,
      repository.GormPasswordResetTokenRepository.MarkUsedByID_marked _ _ _ _ hmark, ?_⟩
    have hdb3 : db3 = (repository.GormPasswordResetTokenRepository.MarkUsedByID env.markNow
        stored.ID db1).2 := by rw [hmark]
    have hdb1 : db1 = (repository.GormUserRepository.UpdatePasswordHash env.updateNow
        stored.UserID hashed db).2 := by rw [hupd]
    rw [repository.GormPasswordResetTokenRepository.MarkUsedByID_db] at hdb3
    intro u hu hid
    rw [hdb3] at hu
    rw [hdb1] at hu
    exact repository.GormUserRepository.UpdatePasswordHash_written _ _ _ _ u hu hid

/-- Witness for C17: the confirmation of the example on a store where another request
marks the record first returns `ErrInvalidToken`, the new hash being written; on a store
that loses its connection at the marking it returns the error wrapped; and on the GORM
store it succeeds and leaves the record marked. -/
theorem C17_confirm_mark_failure_surfaces_witness :
    Example.svc.ConfirmPasswordResetWith Toy.lib Example.usedMeanwhile
        (Example.confirmEnv (2 * Second))
        { Token := Example.resetToken, NewPassword := "new-password" }
        Example.resetRequested.2.1 =
      (some service.ErrInvalidToken,
        (repository.GormPasswordResetTokenRepository.MarkUsedByID (2 * Second) "p-1"
          (repository.GormUserRepository.UpdatePasswordHash (2 * Second) "u-1"
            "$2a$10$new-password" Example.resetRequested.2.1).2).2) ∧
    (∀ u ∈ (repository.GormUserRepository.UpdatePasswordHash (2 * Second) "u-1"
        "$2a$10$new-password" Example.resetRequested.2.1).2.users,
      u.ID = "u-1" → u.PasswordHash = "$2a$10$new-password") ∧
    Example.svc.ConfirmPasswordResetWith Toy.lib Example.markFails
        (Example.confirmEnv (2 * Second))
        { Token := Example.resetToken, NewPassword := "new-password" }
        Example.resetRequested.2.1 =
      (some (GoError.wrap "mark reset token used" (GoError.external "connection reset")),
        (repository.GormUserRepository.UpdatePasswordHash (2 * Second) "u-1"
          "$2a$10$new-password" Example.resetRequested.2.1).2) ∧
    ∃ stored hashed,
      repository.GormPasswordResetTokenRepository.GetActiveByHash (2 * Second)
          (auth.HashToken Toy.lib (strings.TrimSpace Example.resetToken))
          Example.resetRequested.2.1 = Except.ok stored ∧
        auth.HashPassword Toy.lib (Example.entropy 11) "new-password" = Except.ok hashed ∧
        (∃ r ∈ Example.confirmed.2.password_reset_tokens,
          r.ID = stored.ID ∧ r.UsedAt = some (2 * Second)) ∧
        ∀ u ∈ Example.confirmed.2.users, u.ID = stored.UserID → u.PasswordHash = hashed :=
  have hused := (C17_confirm_mark_failure_surfaces Toy.lib Example.svc Example.usedMeanwhile
    (Example.confirmEnv (2 * Second))
    { Token := Example.resetToken, NewPassword := "new-password" }
    Example.resetRequested.2.1).1 Example.resetRow "$2a$10$new-password"
    (repository.GormUserRepository.UpdatePasswordHash (2 * Second) "u-1"
      "$2a$10$new-password" Example.resetRequested.2.1).2
    repository.ErrNotFound
    (repository.GormPasswordResetTokenRepository.MarkUsedByID (2 * Second) "p-1"
      (repository.GormUserRepository.UpdatePasswordHash (2 * Second) "u-1"
        "$2a$10$new-password" Example.resetRequested.2.1).2).2
    (by decide) (by decide) (by decide) (by decide) (by decide) (by decide)
  have hfails := (C17_confirm_mark_failure_surfaces Toy.lib Example.svc Example.markFails
    (Example.confirmEnv (2 * Second))
    { Token := Example.resetToken, NewPassword := "new-password" }
    Example.resetRequested.2.1).1 Example.resetRow "$2a$10$new-password"
    (repository.GormUserRepository.UpdatePasswordHash (2 * Second) "u-1"
      "$2a$10$new-password" Example.resetRequested.2.1).2
    (GoError.external "connection reset")
    (repository.GormUserRepository.UpdatePasswordHash (2 * Second) "u-1"
      "$2a$10$new-password" Example.resetRequested.2.1).2
    (by decide) (by decide) (by decide) (by decide) (by decide) (by decide)
  ⟨hused.1, hused.2.2, hfails.1,
    (C17_confirm_mark_failure_surfaces Toy.lib Example.svc
      repository.GormPasswordResetTokenRepository.MarkUsedByID
      (Example.confirmEnv (2 * Second))
      { Token := Example.resetToken, NewPassword := "new-password" }
      Example.resetRequested.2.1).2.2.1 Example.confirmed.2 (by decide)⟩

/-- Claim C18. When `Refresh` succeeds, the access token it returns is signed over claims
whose subject is the subject of the presented refresh token and whose role is the role of
the credential stored under that subject in the store `Refresh` ran on; so it parses to
these claims before its expiry when that role is not empty, and after a successful
`UpdateUserRole` for the subject the role is the one that call returned. When the refresh
token parses and no credential has its subject as id, `Refresh` fails with
`ErrInvalidToken` and leaves the store as it was. -/
theorem C18_refresh_carries_stored_role (L : Lib) (s : service.AuthService)
    (env : service.RefreshEnv) (input : service.RefreshInput) (db : DB) :
    (∀ pair db1, s.Refresh L env input db = (Except.ok pair, db1) →
      ∃ claims user access,
        s.tokenManager.ParseRefreshToken L env.parseNow
          (strings.TrimSpace input.RefreshToken) = Except.ok claims ∧
        repository.GormUserRepository.GetByID claims.Subject db = Except.ok user ∧
        user ∈ db.users ∧ user.ID = claims.Subject ∧
        pair.AccessToken = L.jwtEncode s.tokenManager.accessSecret access.toJSON ∧
        L.jwtDecode pair.AccessToken = some ("HS256", access.toJSON) ∧
        access.Subject = claims.Subject ∧ access.Role = user.Role ∧
        (∀ now, now < jwt.NumericDate.Time
            (jwt.NewNumericDate (env.issue.accessNow + s.tokenManager.accessTTL)) →
          user.Role ≠ "" →
          s.tokenManager.ParseAccessToken L now pair.AccessToken = Except.ok access) ∧
        (∀ updateNow role db0 summary,
          service.AdminService.UpdateUserRole L updateNow claims.Subject role db0 =
            (Except.ok summary, db) → access.Role = summary.Role)) ∧
    (∀ claims,
      s.tokenManager.ParseRefreshToken L env.parseNow
        (strings.TrimSpace input.RefreshToken) = Except.ok claims →
      (∀ u ∈ db.users, u.ID ≠ claims.Subject) →
      s.Refresh L env input db = (Except.error service.ErrInvalidToken, db)) := by
  constructor
  · intro pair db1 h
    obtain ⟨claims, user, hparse, hget, hissue⟩ :=
      service.AuthService.Refresh_ok L s env input db db1 pair h
    obtain ⟨hmem, hid⟩ := repository.GormUserRepository.GetByID_ok _ db user hget
    obtain ⟨-, -, haccess, -, -⟩ := service.AuthService.issueTokenPair_ok L s _ _ _ _ _ _ hissue
    simp only [auth.TokenManager.GenerateAccessToken, Except.ok.injEq, Prod.mk.injEq] at haccess
    have hsub : claims.Subject ≠ "" :=
      auth.TokenManager.ParseRefreshToken_subject L _ _ _ claims hparse
    refine ⟨claims, user,
      { Role := user.Role, TokenType := auth.TokenTypeAccess, Subject := user.ID,
        IssuedAt := some (jwt.NewNumericDate env.issue.accessNow),
        ExpiresAt := some (jwt.NewNumericDate (env.issue.accessNow + s.tokenManager.accessTTL)),
        NotBefore := none, ID := auth.generateTokenID env.issue.accessID },
      hparse, hget, hmem, hid, haccess.1.symm, ?_, hid, rfl, ?_, ?_⟩
    · rw [← haccess.1]
      exact L.jwt_decode_encode _ _
    · intro now hnow hrole
      rw [← haccess.1]
      exact auth.TokenManager.ParseAccessToken_encode L s.tokenManager now _ rfl
        (by rw [hid]; exact hsub) hrole rfl
        (by
          intro exp hexp
          simp only [Option.some.injEq] at hexp
          subst hexp
          exact hnow)
    · intro updateNow role db0 summary hupdate
      exact service.AdminService.UpdateUserRole_ok L updateNow claims.Subject role db0 db
        summary hupdate user hmem hid
  · intro claims hparse hnone
    have hblank : strings.TrimSpace input.RefreshToken ≠ "" := by
      intro h0
      rw [h0, auth.TokenManager.ParseRefreshToken_blank] at hparse
      simp at hparse
    have hget := repository.GormUserRepository.GetByID_notFound claims.Subject db hnone
    unfold service.AuthService.Refresh service.AuthService.RefreshWith
    simp only [hblank, if_false, hparse]
    cases hact : repository.GormRefreshTokenRepository.GetActiveByHash env.lookupNow
        (auth.HashToken L (strings.TrimSpace input.RefreshToken)) db with
    | error err =>
      have := repository.GormRefreshTokenRepository.GetActiveByHash_error _ _ _ _ hact
      subst this
      simp [errors.Is, repository.ErrNotFound]
    | ok stored =>
      dsimp only
      by_cases hne : stored.UserID ≠ claims.Subject
      · simp [hne]
      · simp [hne, hget, errors.Is, repository.ErrNotFound]

/-- Witness for C18: the user of the example registered as `author`; after the role is
changed to `admin`, a `Refresh` with the refresh token of the registration returns an
access token that parses to subject `u-1` and role `admin`. On the store without the
credential the same `Refresh` fails with `ErrInvalidToken`. -/
theorem C18_refresh_carries_stored_role_witness :
    Example.promoted.1 =
      Except.ok { ID := "u-1", Email := "ann@example.com", Role := "admin" } ∧
    Example.svc.Refresh Toy.lib (Example.refreshEnv (1 * Second) 3 "r-2")
        { RefreshToken := Example.token1 } Example.promoted.2 =
      (Except.ok Example.promotedPair, Example.promotedRefresh.2) ∧
    (∃ access, Example.svc.tokenManager.ParseAccessToken Toy.lib (2 * Second)
        Example.promotedPair.AccessToken = Except.ok access ∧
      access.Subject = "u-1" ∧ access.Role = "admin") ∧
    Example.svc.Refresh Toy.lib (Example.refreshEnv (1 * Second) 3 "r-2")
        { RefreshToken := Example.token1 } { Example.registered.2 with users := [] } =
      (Except.error service.ErrInvalidToken, { Example.registered.2 with users := [] }) := by
  refine ⟨by decide, by decide, ?_, ?_⟩
  · obtain ⟨claims, user, access, hparse, -, -, -, -, -, hsub, hrole, hp, hupd⟩ :=
      (C18_refresh_carries_stored_role Toy.lib Example.svc
        (Example.refreshEnv (1 * Second) 3 "r-2") { RefreshToken := Example.token1 }
        Example.promoted.2).1 Example.promotedPair Example.promotedRefresh.2 (by decide)
    have hclaims : claims = Example.claims1 :=
      Except.ok.inj (hparse.symm.trans (by decide))
    have hadmin : access.Role = "admin" :=
      hupd (1 * Second) " Admin " Example.registered.2
        { ID := "u-1", Email := "ann@example.com", Role := "admin" }
        (by rw [hclaims]; decide)
    refine ⟨access, hp (2 * Second) (by decide) ?_, ?_, hadmin⟩
    · rw [← hrole, hadmin]
      decide
    · rw [hsub, hclaims]
      rfl
  · exact (C18_refresh_carries_stored_role Toy.lib Example.svc
      (Example.refreshEnv (1 * Second) 3 "r-2") { RefreshToken := Example.token1 }
      { Example.registered.2 with users := [] }).2 Example.claims1 (by decide) (by decide)

/-- Claim C19. `AuthRequired` with a verifier hands the request to the next handler exactly
when the lower-case form of the `Authorization` header starts with `bearer `, the rest of
the header trimmed of white space is not empty, and the verifier accepts it; the context
handed on holds the subject and the role of the claims under the two context keys and is
otherwise the context received. When the header is absent or lacks the prefix or the
token is blank, the request is aborted with status 401 and code `missing_token`, whatever
the verifier; when the verifier rejects the token, with status 401 and code
`invalid_token`. The handler never panics on the slice. -/
theorem C19_auth_required_gate (L : Lib) (verifier : http.AccessTokenVerifier)
    (next : gin.Context → gin.Context) (c : gin.Context) :
    (∀ claims, http.hasBearerPrefix L (c.GetHeader "Authorization") = true →
      http.bearerToken (c.GetHeader "Authorization") ≠ [] →
      verifier (http.bearerToken (c.GetHeader "Authorization")) = Except.ok claims →
      http.AuthRequired L (some verifier) next c =
        next ((c.Set http.ContextKeyUserID (gin.Any.string claims.Subject)).Set
          http.ContextKeyRole (gin.Any.string claims.Role)) ∧
      ((c.Set http.ContextKeyUserID (gin.Any.string claims.Subject)).Set
          http.ContextKeyRole (gin.Any.string claims.Role)).Get http.ContextKeyUserID =
        some (gin.Any.string claims.Subject) ∧
      ((c.Set http.ContextKeyUserID (gin.Any.string claims.Subject)).Set
          http.ContextKeyRole (gin.Any.string claims.Role)).Get http.ContextKeyRole =
        some (gin.Any.string claims.Role) ∧
      ∀ key, key ≠ http.ContextKeyUserID → key ≠ http.ContextKeyRole →
        ((c.Set http.ContextKeyUserID (gin.Any.string claims.Subject)).Set
          http.ContextKeyRole (gin.Any.string claims.Role)).Get key = c.Get key) ∧
    ((http.hasBearerPrefix L (c.GetHeader "Authorization") = false ∨
        http.bearerToken (c.GetHeader "Authorization") = []) →
      ∀ verifier2 next2, http.AuthRequired L (some verifier2) next2 c =
        http.rejected c 401 "missing_token" "Authorization token is required") ∧
    (∀ err, http.hasBearerPrefix L (c.GetHeader "Authorization") = true →
      http.bearerToken (c.GetHeader "Authorization") ≠ [] →
      verifier (http.bearerToken (c.GetHeader "Authorization")) = Except.error err →
      ∀ next2, http.AuthRequired L (some verifier) next2 c =
        http.rejected c 401 "invalid_token"
          (if errors.Is err auth.ErrInvalidToken = true then "Access token is invalid or expired"
            else "Access token is invalid")) ∧
    (c.headers.lookup "Authorization" = none →
      http.hasBearerPrefix L (c.GetHeader "Authorization") = false) := by
  refine ⟨?_, ?_, ?_, ?_⟩
  · intro claims hpre htok hver
    have hslice := strings.bytes.sliceFrom_bearer L _ hpre
    unfold http.hasBearerPrefix at hpre
    unfold http.bearerToken at htok hver
    refine ⟨?_, ?_, gin.Context.Get_Set_self _ _ _, ?_⟩
    · unfold http.AuthRequired
      simp only [hpre, hslice, Bool.not_true, Bool.false_eq_true, if_false, htok, hver]
    · rw [gin.Context.Get_Set_other _ _ _ _ (by decide)]
      exact gin.Context.Get_Set_self _ _ _
    · intro key h1 h2
      rw [gin.Context.Get_Set_other _ _ _ _ h2, gin.Context.Get_Set_other _ _ _ _ h1]
  · intro h verifier2 next2
    unfold http.AuthRequired
    by_cases hpre : http.hasBearerPrefix L (c.GetHeader "Authorization") = true
    · have hslice := strings.bytes.sliceFrom_bearer L _ hpre
      have htok : http.bearerToken (c.GetHeader "Authorization") = [] := by
        rcases h with h | h
        · rw [hpre] at h
          simp at h
        · exact h
      unfold http.hasBearerPrefix at hpre
      unfold http.bearerToken at htok
      simp only [hpre, hslice, Bool.not_true, Bool.false_eq_true, if_false, htok, if_true]
      rfl
    · unfold http.hasBearerPrefix at hpre
      simp only [hpre, Bool.not_false, if_true]
      rfl
  · intro err hpre htok hver next2
    have hslice := strings.bytes.sliceFrom_bearer L _ hpre
    unfold http.hasBearerPrefix at hpre
    unfold http.bearerToken at htok hver
    unfold http.AuthRequired
    simp only [hpre, hslice, Bool.not_true, Bool.false_eq_true, if_false, htok, hver]
    by_cases hinv : errors.Is err auth.ErrInvalidToken = true
    · simp only [hinv, if_true]
      rfl
    · simp only [hinv, if_false]
      rfl
  · intro habsent
    simp [gin.Context.GetHeader, habsent, http.hasBearerPrefix, strings.bytes.ToLower,
      strings.bytes.HasPrefix]
    decide

set_option maxRecDepth 8192 in
/-- Witness for C19: the access token of the example registration, presented one second
after it was issued under the prefix `bEARER` and between spaces, is accepted by the token
manager, and the final handler runs on a context holding `u-1` and `author`; a request
without the header, one with another scheme and one with a blank token are aborted with
`missing_token`, one with a text that is no token with `invalid_token`. -/
theorem C19_auth_required_gate_witness :
    http.AuthRequired Toy.lib (some (http.tokenVerifier Toy.lib (1 * Second) Example.tm))
        Example.handler (Example.request ("bEARER  " ++ Example.pair1.AccessToken ++ " ")) =
      Example.handler
        (((Example.request ("bEARER  " ++ Example.pair1.AccessToken ++ " ")).Set
          "auth_user_id" (gin.Any.string "u-1")).Set "auth_role" (gin.Any.string "author")) ∧
    http.AuthRequired Toy.lib (some (http.tokenVerifier Toy.lib (1 * Second) Example.tm))
        Example.handler { Example.request "" with headers := [] } =
      http.rejected { Example.request "" with headers := [] } 401 "missing_token"
        "Authorization token is required" ∧
    http.AuthRequired Toy.lib (some (http.tokenVerifier Toy.lib (1 * Second) Example.tm))
        Example.handler (Example.request "Basic dXNlcjpwYXNz") =
      http.rejected (Example.request "Basic dXNlcjpwYXNz") 401 "missing_token"
        "Authorization token is required" ∧
    http.AuthRequired Toy.lib (some (http.tokenVerifier Toy.lib (1 * Second) Example.tm))
        Example.handler (Example.request "Bearer   ") =
      http.rejected (Example.request "Bearer   ") 401 "missing_token"
        "Authorization token is required" ∧
    http.AuthRequired Toy.lib (some (http.tokenVerifier Toy.lib (1 * Second) Example.tm))
        Example.handler (Example.request "Bearer not-a-token") =
      http.rejected (Example.request "Bearer not-a-token") 401 "invalid_token"
        "Access token is invalid or expired" :=
  ⟨((C19_auth_required_gate Toy.lib (http.tokenVerifier Toy.lib (1 * Second) Example.tm)
      Example.handler (Example.request ("bEARER  " ++ Example.pair1.AccessToken ++ " "))).1
      { Role := "author", TokenType := "access", Subject := "u-1", IssuedAt := some 0,
        ExpiresAt := some 2, NotBefore := none, ID := "AQEBAQEBAQEBAQEBAQEBAQEB" }
      (by decide) (by decide) (by decide)).1,
    (C19_auth_required_gate Toy.lib (http.tokenVerifier Toy.lib (1 * Second) Example.tm)
      Example.handler { Example.request "" with headers := [] }).2.1 (Or.inl (by decide)) _ _,
    (C19_auth_required_gate Toy.lib (http.tokenVerifier Toy.lib (1 * Second) Example.tm)
      Example.handler (Example.request "Basic dXNlcjpwYXNz")).2.1 (Or.inl (by decide)) _ _,
    (C19_auth_required_gate Toy.lib (http.tokenVerifier Toy.lib (1 * Second) Example.tm)
      Example.handler (Example.request "Bearer   ")).2.1 (Or.inr (by decide)) _ _,
    (C19_auth_required_gate Toy.lib (http.tokenVerifier Toy.lib (1 * Second) Example.tm)
      Example.handler (Example.request "Bearer not-a-token")).2.2.1 auth.ErrInvalidToken
      (by decide) (by decide) (by decide) _⟩

/-- Claim C20. `RequireRoles` hands the request to the next handler exactly when the context
holds, under the role key, a string whose lower-case form is the lower-case form of one
of the listed roles trimmed of white space. In every other case, that is when the string
matches none of the roles, when the key is missing and when its value is not a string,
it writes status 403 with code `forbidden` and aborts. -/
theorem C20_require_roles_gate (L : Lib) (roles : List String)
    (next : gin.Context → gin.Context) (c : gin.Context) :
    (∀ role, c.Get http.ContextKeyRole = some (gin.Any.string role) →
      (∃ r ∈ roles, strings.ToLower L role = strings.ToLower L (strings.TrimSpace r)) →
      http.RequireRoles L roles next c = next c) ∧
    (∀ role, c.Get http.ContextKeyRole = some (gin.Any.string role) →
      (∀ r ∈ roles, strings.ToLower L role ≠ strings.ToLower L (strings.TrimSpace r)) →
      ∀ next2, http.RequireRoles L roles next2 c =
        http.rejected c 403 "forbidden" "Insufficient permissions") ∧
    (c.Get http.ContextKeyRole = none →
      ∀ next2, http.RequireRoles L roles next2 c =
        http.rejected c 403 "forbidden" "Insufficient permissions") ∧
    (∀ description, c.Get http.ContextKeyRole = some (gin.Any.other description) →
      ∀ next2, http.RequireRoles L roles next2 c =
        http.rejected c 403 "forbidden" "Insufficient permissions") := by
  refine ⟨?_, ?_, ?_, ?_⟩
  · intro role hget hmem
    have hcontains : (roles.map (fun r => strings.ToLower L (strings.TrimSpace r))).contains
        (strings.ToLower L role) = true := by
      obtain ⟨r, hr, heq⟩ := hmem
      rw [List.elem_iff, List.mem_map]
      exact ⟨r, hr, heq.symm⟩
    unfold http.RequireRoles
    simp only [hget, hcontains, Bool.not_true, Bool.false_eq_true, if_false]
  · intro role hget hno next2
    have hcontains : (roles.map (fun r => strings.ToLower L (strings.TrimSpace r))).contains
        (strings.ToLower L role) = false := by
      rw [Bool.eq_false_iff]
      intro hc
      rw [List.elem_iff, List.mem_map] at hc
      obtain ⟨r, hr, heq⟩ := hc
      exact hno r hr heq.symm
    unfold http.RequireRoles
    simp only [hget, hcontains, Bool.not_false, if_true]
    rfl
  · intro hget next2
    unfold http.RequireRoles
    simp only [hget]
    rfl
  · intro description hget next2
    unfold http.RequireRoles
    simp only [hget]
    rfl

/-- Witness for C20: on a context whose role is `Author`, `RequireRoles` with the one role
` author ` lets the request through, and `RequireRoles` with the roles `admin` and
`reader` answers 403; so it does when the context holds no role, and when it holds a
role that is not a string. -/
theorem C20_require_roles_gate_witness :
    http.RequireRoles Toy.lib [" author "] Example.handler
        ((Example.request "Bearer test").Set "auth_role" (gin.Any.string "Author")) =
      Example.handler ((Example.request "Bearer test").Set "auth_role" (gin.Any.string "Author")) ∧
    http.RequireRoles Toy.lib ["admin", "reader"] Example.handler
        ((Example.request "Bearer test").Set "auth_role" (gin.Any.string "Author")) =
      http.rejected ((Example.request "Bearer test").Set "auth_role" (gin.Any.string "Author"))
        403 "forbidden" "Insufficient permissions" ∧
    http.RequireRoles Toy.lib ["author"] Example.handler (Example.request "Bearer test") =
      http.rejected (Example.request "Bearer test") 403 "forbidden" "Insufficient permissions" ∧
    http.RequireRoles Toy.lib ["author"] Example.handler
        ((Example.request "Bearer test").Set "auth_role" (gin.Any.other "models.Role")) =
      http.rejected ((Example.request "Bearer test").Set "auth_role" (gin.Any.other "models.Role"))
        403 "forbidden" "Insufficient permissions" :=
  ⟨(C20_require_roles_gate Toy.lib [" author "] Example.handler
      ((Example.request "Bearer test").Set "auth_role" (gin.Any.string "Author"))).1 "Author"
      (by decide) ⟨" author ", by decide, by decide⟩,
    (C20_require_roles_gate Toy.lib ["admin", "reader"] Example.handler
      ((Example.request "Bearer test").Set "auth_role" (gin.Any.string "Author"))).2.1 "Author"
      (by decide) (by decide) _,
    (C20_require_roles_gate Toy.lib ["author"] Example.handler
      (Example.request "Bearer test")).2.2.1 (by decide) _,
    (C20_require_roles_gate Toy.lib ["author"] Example.handler
      ((Example.request "Bearer test").Set "auth_role" (gin.Any.other "models.Role"))).2.2.2
      "models.Role" (by decide) _⟩

/-- Claim C21. For every error value, wrapped ones included, `handleAuthError` answers 400
for `ErrValidation`, 409 for `ErrEmailAlreadyUsed`, 401 for `ErrInvalidCredentials` and for
`ErrInvalidToken`, and 500 for anything else; `handlePostError` answers 400 for
`ErrValidation`, 403 for `ErrForbidden`, 404 for `ErrPostNotFound` and 500 for anything
else; `handleAdminError` answers 400 for `ErrValidation`, 404 for `ErrUserNotFound` and 500
for anything else. Wrapping an error in a message changes none of the answers but the
reason quoted for a validation error. -/
theorem C21_error_status_mapping (c : gin.Context) (err : GoError) :
    (errors.Is err service.ErrValidation = true →
      http.handleAuthError c err =
          http.writeError c 400 "validation_error" "Request validation failed"
            (some [("reason", err.Error)]) ∧
        http.handlePostError c err =
          http.writeError c 400 "validation_error" "Request validation failed"
            (some [("reason", err.Error)]) ∧
        http.handleAdminError c err =
          http.writeError c 400 "validation_error" "Request validation failed"
            (some [("reason", err.Error)])) ∧
      (errors.Is err service.ErrEmailAlreadyUsed = true →
        http.handleAuthError c err =
          http.writeError c 409 "email_already_exists" "Email is already registered" none) ∧
      (errors.Is err service.ErrInvalidCredentials = true →
        http.handleAuthError c err =
          http.writeError c 401 "invalid_credentials" "Email or password is incorrect" none) ∧
      (errors.Is err service.ErrInvalidToken = true →
        http.handleAuthError c err =
          http.writeError c 401 "invalid_token" "Token is invalid or expired" none) ∧
      (errors.Is err service.ErrValidation = false →
        errors.Is err service.ErrEmailAlreadyUsed = false →
        errors.Is err service.ErrInvalidCredentials = false →
        errors.Is err service.ErrInvalidToken = false →
        http.handleAuthError c err =
          http.writeError c 500 "internal_error" "Unexpected server error" none) ∧
      (errors.Is err service.ErrForbidden = true →
        http.handlePostError c err =
          http.writeError c 403 "forbidden" "Insufficient permissions" none) ∧
      (errors.Is err service.ErrPostNotFound = true →
        http.handlePostError c err =
          http.writeError c 404 "post_not_found" "Post was not found" none) ∧
      (errors.Is err service.ErrValidation = false →
        errors.Is err service.ErrForbidden = false →
        errors.Is err service.ErrPostNotFound = false →
        http.handlePostError c err =
          http.writeError c 500 "internal_error" "Unexpected server error" none) ∧
      (errors.Is err service.ErrUserNotFound = true →
        http.handleAdminError c err =
          http.writeError c 404 "user_not_found" "User was not found" none) ∧
      (errors.Is err service.ErrValidation = false →
        errors.Is err service.ErrUserNotFound = false →
        http.handleAdminError c err =
          http.writeError c 500 "internal_error" "Unexpected server error" none) ∧
      ∀ ctx : String,
        http.lastStatus (http.handleAuthError c (GoError.wrap ctx err)) =
            http.lastStatus (http.handleAuthError c err) ∧
          http.lastStatus (http.handlePostError c (GoError.wrap ctx err)) =
            http.lastStatus (http.handlePostError c err) ∧
          http.lastStatus (http.handleAdminError c (GoError.wrap ctx err)) =
            http.lastStatus (http.handleAdminError c err) := by
  have hroot : ∀ target : GoError, target.isWrap = false →
      errors.Is err target = decide (err.root = target) :=
    fun target h => errors.Is_eq_root err target h
  have hV := hroot service.ErrValidation rfl
  have hE := hroot service.ErrEmailAlreadyUsed rfl
  have hC := hroot service.ErrInvalidCredentials rfl
  have hT := hroot service.ErrInvalidToken rfl
  have hF := hroot service.ErrForbidden rfl
  have hP := hroot service.ErrPostNotFound rfl
  have hU := hroot service.ErrUserNotFound rfl
  refine ⟨?_, ?_, ?_, ?_, ?_, ?_, ?_, ?_, ?_, ?_, ?_⟩
  · intro h
    simp only [http.handleAuthError, http.handlePostError, http.handleAdminError, h, if_true,
      http.StatusBadRequest, and_self]
  · intro h
    have hr : err.root = service.ErrEmailAlreadyUsed := by simpa [hE] using h
    have h1 : errors.Is err service.ErrValidation = false := by rw [hV, hr]; rfl
    simp only [http.handleAuthError, h, h1, if_true, if_false, Bool.false_eq_true,
      http.StatusConflict]
  · intro h
    have hr : err.root = service.ErrInvalidCredentials := by simpa [hC] using h
    have h1 : errors.Is err service.ErrValidation = false := by rw [hV, hr]; rfl
    have h2 : errors.Is err service.ErrEmailAlreadyUsed = false := by rw [hE, hr]; rfl
    simp only [http.handleAuthError, h, h1, h2, if_true, if_false, Bool.false_eq_true,
      http.StatusUnauthorized]
  · intro h
    have hr : err.root = service.ErrInvalidToken := by simpa [hT] using h
    have h1 : errors.Is err service.ErrValidation = false := by rw [hV, hr]; rfl
    have h2 : errors.Is err service.ErrEmailAlreadyUsed = false := by rw [hE, hr]; rfl
    have h3 : errors.Is err service.ErrInvalidCredentials = false := by rw [hC, hr]; rfl
    simp only [http.handleAuthError, h, h1, h2, h3, if_true, if_false, Bool.false_eq_true,
      http.StatusUnauthorized]
  · intro h1 h2 h3 h4
    simp only [http.handleAuthError, h1, h2, h3, h4, if_false, Bool.false_eq_true,
      http.StatusInternalServerError]
  · intro h
    have hr : err.root = service.ErrForbidden := by simpa [hF] using h
    have h1 : errors.Is err service.ErrValidation = false := by rw [hV, hr]; rfl
    simp only [http.handlePostError, h, h1, if_true, if_false, Bool.false_eq_true,
      http.StatusForbidden]
  · intro h
    have hr : err.root = service.ErrPostNotFound := by simpa [hP] using h
    have h1 : errors.Is err service.ErrValidation = false := by rw [hV, hr]; rfl
    have h2 : errors.Is err service.ErrForbidden = false := by rw [hF, hr]; rfl
    simp only [http.handlePostError, h, h1, h2, if_true, if_false, Bool.false_eq_true,
      http.StatusNotFound]
  · intro h1 h2 h3
    simp only [http.handlePostError, h1, h2, h3, if_false, Bool.false_eq_true,
      http.StatusInternalServerError]
  · intro h
    have hr : err.root = service.ErrUserNotFound := by simpa [hU] using h
    have h1 : errors.Is err service.ErrValidation = false := by rw [hV, hr]; rfl
    simp only [http.handleAdminError, h, h1, if_true, if_false, Bool.false_eq_true,
      http.StatusNotFound]
  · intro h1 h2
    simp only [http.handleAdminError, h1, h2, if_false, Bool.false_eq_true,
      http.StatusInternalServerError]
  · intro ctx
    simp only [http.handleAuthError, http.handlePostError, http.handleAdminError,
      errors.Is_wrap ctx err _ (rfl : service.ErrValidation.isWrap = false),
      errors.Is_wrap ctx err _ (rfl : service.ErrEmailAlreadyUsed.isWrap = false),
      errors.Is_wrap ctx err _ (rfl : service.ErrInvalidCredentials.isWrap = false),
      errors.Is_wrap ctx err _ (rfl : service.ErrInvalidToken.isWrap = false),
      errors.Is_wrap ctx err _ (rfl : service.ErrForbidden.isWrap = false),
      errors.Is_wrap ctx err _ (rfl : service.ErrPostNotFound.isWrap = false),
      errors.Is_wrap ctx err _ (rfl : service.ErrUserNotFound.isWrap = false)]
    refine ⟨?_, ?_, ?_⟩ <;> split_ifs <;>
      simp [http.lastStatus, http.writeError, gin.Context.JSON]

/-- Witness for C21: the error of a registration with a taken email, wrapped once more, is
answered 409; a wrapped validation error is answered 400 by the three functions, its text
quoted as the reason; an error of the store is answered 500. -/
theorem C21_error_status_mapping_witness :
    http.handleAuthError (Example.request "")
        (GoError.wrap "register" service.ErrEmailAlreadyUsed) =
      http.writeError (Example.request "") 409 "email_already_exists"
        "Email is already registered" none ∧
    http.handlePostError (Example.request "")
        (GoError.wrap "title cannot be empty" service.ErrValidation) =
      http.writeError (Example.request "") 400 "validation_error" "Request validation failed"
        (some [("reason", "title cannot be empty: validation error")]) ∧
    http.handleAdminError (Example.request "") (GoError.external "connection refused") =
      http.writeError (Example.request "") 500 "internal_error" "Unexpected server error"
        none :=
  ⟨(C21_error_status_mapping (Example.request "")
      (GoError.wrap "register" service.ErrEmailAlreadyUsed)).2.1 (by decide),
    ((C21_error_status_mapping (Example.request "")
      (GoError.wrap "title cannot be empty" service.ErrValidation)).1 (by decide)).2.1,
    (C21_error_status_mapping (Example.request "")
      (GoError.external "connection refused")).2.2.2.2.2.2.2.2.2.1 (by decide) (by decide)⟩

set_option maxRecDepth 8192 in
/-- Claim C22, as stated, fails: the hash of a password of 72 bytes is also verified by
the different password that has one more byte, as bcrypt reads 72 bytes only. -/
theorem C22_counterexample :
    auth.HashPassword Toy.lib (Example.entropy 1) Example.longPassword =
        Except.ok ("$2a$10$" ++ Example.longPassword) ∧
      Example.longPassword ++ "x" ≠ Example.longPassword ∧
      auth.VerifyPassword Toy.lib ("$2a$10$" ++ Example.longPassword)
        (Example.longPassword ++ "x") = true := by
  decide

/-- Claim C22, amended. For every password `p` for which `HashPassword` succeeds, the hash
is different from `p`, `VerifyPassword` accepts `p` against the hash, and it rejects every
`q` whose bcrypt key differs from that of `p`: every `q` different from `p` when `p` has
fewer than 72 bytes and neither holds a zero byte. It accepts a `q` with the key of `p`,
such as `p` followed by anything when `p` has 72 bytes or more. `VerifyPassword` returns a
truth value on every input, and false for a hash that does not begin with a dollar sign,
as every hash of bcrypt does. -/
theorem C22_password_round_trip (I : LibIdeal) (rand : Entropy) (p hash : String)
    (h : auth.HashPassword I.toLib rand p = Except.ok hash) :
    hash ≠ p ∧
      auth.VerifyPassword I.toLib hash p = true ∧
      (∀ q, bcrypt.key q ≠ bcrypt.key p → auth.VerifyPassword I.toLib hash q = false) ∧
      ((utf8.bytes p).length < 72 → 0 ∉ utf8.bytes p →
        ∀ q, 0 ∉ utf8.bytes q → q ≠ p → auth.VerifyPassword I.toLib hash q = false) ∧
      (∀ q, bcrypt.key q = bcrypt.key p → auth.VerifyPassword I.toLib hash q = true) ∧
      (72 ≤ (utf8.bytes p).length →
        ∀ suffix, auth.VerifyPassword I.toLib hash (p ++ suffix) = true) ∧
      ∀ anyHash q, anyHash.data.head? ≠ some '$' →
        auth.VerifyPassword I.toLib anyHash q = false := by
  have hv := auth.VerifyPassword_of_HashPassword I.toLib rand p hash h
  have hgen : ∃ salt, I.bcryptGenerate salt p = Except.ok hash := by
    unfold auth.HashPassword bcrypt.GenerateFromPassword at h
    split at h
    · simp at h
    · rename_i hash0 hgen
      simp only [Except.ok.injEq] at h
      subst h
      split at hgen
      · simp at hgen
      · rename_i salt _
        exact ⟨salt, hgen⟩
  obtain ⟨salt, hgen⟩ := hgen
  have hreject : ∀ q, bcrypt.key q ≠ bcrypt.key p →
      auth.VerifyPassword I.toLib hash q = false :=
    fun q hq => I.bcrypt_rejects salt p q hash hgen hq
  have hkey : ∀ q, bcrypt.key q = bcrypt.key p →
      auth.VerifyPassword I.toLib hash q = true := by
    intro q hq
    unfold auth.VerifyPassword at hv ⊢
    rw [I.bcrypt_key hash q p hq]
    exact hv
  refine ⟨I.bcrypt_differs salt p hash hgen, hv, hreject, ?_, hkey, ?_, ?_⟩
  · intro hlen hp q hq hne
    exact hreject q (fun e => hne (bcrypt.key_injective p q hlen hp hq e))
  · intro hlen suffix
    exact hkey _ (bcrypt.key_append p suffix hlen)
  · intro anyHash q hd
    cases hc : auth.VerifyPassword I.toLib anyHash q with
    | false => rfl
    | true => exact absurd (I.bcrypt_dollar anyHash q hc) hd

set_option maxRecDepth 8192 in
/-- Witness for C22: the hash of `password123` differs from it, verifies it and rejects
`wrong-password`, and the empty hash verifies nothing. -/
theorem C22_password_round_trip_witness :
    auth.HashPassword Toy.lib (Example.entropy 1) "password123" =
        Except.ok "$2a$10$password123" ∧
      ("$2a$10$password123" : String) ≠ "password123" ∧
      auth.VerifyPassword Toy.lib "$2a$10$password123" "password123" = true ∧
      auth.VerifyPassword Toy.lib "$2a$10$password123" "wrong-password" = false ∧
      auth.VerifyPassword Toy.lib "" "password123" = false :=
  have h := C22_password_round_trip Toy.libIdeal (Example.entropy 1) "password123"
    "$2a$10$password123" (by decide)
  ⟨by decide, h.1, h.2.1,
    h.2.2.2.1 (by decide) (by decide) "wrong-password" (by decide) (by decide),
    h.2.2.2.2.2.2 "" "password123" (by decide)⟩

/-- Claim C23. For all integers `page` and `limit`, `normalizePagination` returns `page`
when it is at least 1 and 1 otherwise, and 10 for a limit that is not positive, 50 for one
above 50 and the limit itself otherwise; so the page is at least 1, the limit between 1 and
50, and values in range come back unchanged. `PostService.List` calls the repository with
the normalized limit, its outcome being decided by what the repository answers to that
call, and reports the normalized page and limit in the metadata. -/
theorem C23_normalize_pagination (page limit : Int) :
    service.normalizePagination page limit =
        (if page ≥ 1 then page else 1,
          if limit ≤ 0 then 10 else if limit > 50 then 50 else limit) ∧
      1 ≤ (service.normalizePagination page limit).1 ∧
      1 ≤ (service.normalizePagination page limit).2 ∧
      (service.normalizePagination page limit).2 ≤ 50 ∧
      (1 ≤ page → 1 ≤ limit → limit ≤ 50 →
        service.normalizePagination page limit = (page, limit)) ∧
      ∀ list : Int → Int → Except GoError (List models.Post × Int),
        (∀ err,
          list (service.normalizePagination page limit).2
              (service.pageOffset (service.normalizePagination page limit).1
                (service.normalizePagination page limit).2) = Except.error err →
            service.PostService.List list { Page := page, Limit := limit } =
              Except.error (GoError.wrap "list posts" err)) ∧
        (∀ posts total,
          list (service.normalizePagination page limit).2
              (service.pageOffset (service.normalizePagination page limit).1
                (service.normalizePagination page limit).2) = Except.ok (posts, total) →
            ∃ pages,
              service.PostService.List list { Page := page, Limit := limit } =
                Except.ok
                  (posts.map service.toPostItem,
                    { Page := (service.normalizePagination page limit).1,
                      Limit := (service.normalizePagination page limit).2,
                      Total := total, TotalPages := pages })) := by
  refine ⟨service.normalizePagination_eq page limit,
    (service.normalizePagination_bounds page limit).1,
    (service.normalizePagination_bounds page limit).2.1,
    (service.normalizePagination_bounds page limit).2.2, ?_, ?_⟩
  · intro hp hl1 hl2
    rw [service.normalizePagination_eq]
    have h1 : page ≥ 1 := hp
    have h2 : ¬ limit ≤ 0 := by omega
    have h3 : ¬ limit > 50 := by omega
    simp [h1, h2, h3]
  · intro list
    constructor
    · intro err h
      simp only [service.PostService.List, h]
    · intro posts total h
      exact ⟨service.totalPages total (service.normalizePagination page limit).2,
        by simp only [service.PostService.List, h]⟩

/-- Witness for C23: page 0 and limit 500 are normalized to page 1 and limit 50, and the
listing of a repository that answers the query for 50 posts from offset 0 reports page 1
and limit 50. -/
theorem C23_normalize_pagination_witness :
    service.normalizePagination 0 500 = (1, 50) ∧
      service.normalizePagination 3 20 = (3, 20) ∧
      ∃ pages,
        service.PostService.List Example.listPosts { Page := 0, Limit := 500 } =
          Except.ok
            ([].map service.toPostItem,
              { Page := (service.normalizePagination 0 500).1,
                Limit := (service.normalizePagination 0 500).2,
                Total := 120, TotalPages := pages }) :=
  ⟨by decide, (C23_normalize_pagination 3 20).2.2.2.2.1 (by decide) (by decide) (by decide),
    ((C23_normalize_pagination 0 500).2.2.2.2.2 Example.listPosts).2 [] 120 (by decide)⟩

/-- Claim C24, as stated, fails: for a repository that reports 2^63 - 1 rows, the sum
`total + int64(limit) - 1` wraps around, and with the default limit of 10 both listings
report a negative number of pages, where the ceiling is 922337203685477581. -/
theorem C24_counterexample :
    (0 : Int) ≤ 2 ^ 63 - 1 ∧ int.InRange (2 ^ 63 - 1) ∧
      service.normalizePagination 1 10 = (1, 10) ∧
      service.PostService.List (fun _ _ => Except.ok ([], 2 ^ 63 - 1))
          { Page := 1, Limit := 10 } =
        Except.ok
          ([], { Page := 1, Limit := 10, Total := 2 ^ 63 - 1,
                 TotalPages := -922337203685477580 }) ∧
      service.AdminService.ListUsers (fun _ _ => Except.ok []) (Except.ok (2 ^ 63 - 1)) 1 10 =
        Except.ok
          ([], { Page := 1, Limit := 10, Total := 2 ^ 63 - 1,
                 TotalPages := -922337203685477580 }) ∧
      (2 ^ 63 - 1 : Int) ≤ 922337203685477581 * 10 ∧
      ¬ (2 ^ 63 - 1 : Int) ≤ 922337203685477580 * 10 := by
  decide

/-- Claim C24, amended. For every total that is not negative and for which
`total + limit - 1` is below 2^63, `limit` being the normalized limit, `PostService.List` and
`AdminService.ListUsers` report as `TotalPages` the ceiling of `total / limit`: a number
that is not negative, whose product with the limit reaches the total, and the least such
number; it is 0 when the total is 0. -/
theorem C24_total_pages_ceiling (page limit total : Int) (htotal : 0 ≤ total)
    (hsum : total + (service.normalizePagination page limit).2 - 1 < 2 ^ 63) :
    (∀ (list : Int → Int → Except GoError (List models.Post × Int)) posts,
        list (service.normalizePagination page limit).2
            (service.pageOffset (service.normalizePagination page limit).1
              (service.normalizePagination page limit).2) = Except.ok (posts, total) →
          ∃ items meta,
            service.PostService.List list { Page := page, Limit := limit } =
                Except.ok (items, meta) ∧
              meta.TotalPages =
                service.totalPages total (service.normalizePagination page limit).2) ∧
      (∀ (list : Int → Int → Except GoError (List models.User)) users,
        list (service.normalizePagination page limit).2
            (service.pageOffset (service.normalizePagination page limit).1
              (service.normalizePagination page limit).2) = Except.ok users →
          ∃ items meta,
            service.AdminService.ListUsers list (Except.ok total) page limit =
                Except.ok (items, meta) ∧
              meta.TotalPages =
                service.totalPages total (service.normalizePagination page limit).2) ∧
      0 ≤ service.totalPages total (service.normalizePagination page limit).2 ∧
      total ≤
        service.totalPages total (service.normalizePagination page limit).2 *
          (service.normalizePagination page limit).2 ∧
      (∀ n : Int, total ≤ n * (service.normalizePagination page limit).2 →
        service.totalPages total (service.normalizePagination page limit).2 ≤ n) ∧
      (total = 0 → service.totalPages total (service.normalizePagination page limit).2 = 0) := by
  have hb := service.normalizePagination_bounds page limit
  have heq := service.totalPages_eq total (service.normalizePagination page limit).2 htotal
    hb.2.1 (by omega)
  have hc := service.ceiling_spec total (service.normalizePagination page limit).2 htotal hb.2.1
  rw [heq]
  refine ⟨?_, ?_, hc.1, hc.2.1, hc.2.2.1, hc.2.2.2⟩
  · intro list posts h
    exact ⟨posts.map service.toPostItem,
      { Page := (service.normalizePagination page limit).1,
        Limit := (service.normalizePagination page limit).2, Total := total,
        TotalPages := service.totalPages total (service.normalizePagination page limit).2 },
      by simp only [service.PostService.List, h], heq⟩
  · intro list users h
    exact ⟨users.map (fun user => { ID := user.ID, Email := user.Email, Role := user.Role }),
      { Page := (service.normalizePagination page limit).1,
        Limit := (service.normalizePagination page limit).2, Total := total,
        TotalPages := service.totalPages total (service.normalizePagination page limit).2 },
      by simp only [service.AdminService.ListUsers, h], heq⟩

/-- Witness for C24: 120 posts in pages of 50 make 3 pages, and 12 users in pages of 10
make 2 pages. -/
theorem C24_total_pages_ceiling_witness :
    (∃ items meta,
        service.PostService.List Example.listPosts { Page := 0, Limit := 500 } =
            Except.ok (items, meta) ∧
          meta.TotalPages = service.totalPages 120 (service.normalizePagination 0 500).2) ∧
      service.totalPages 120 (service.normalizePagination 0 500).2 = 3 ∧
      service.totalPages 12 (service.normalizePagination 1 10).2 = 2 ∧
      (12 : Int) ≤
        service.totalPages 12 (service.normalizePagination 1 10).2 *
          (service.normalizePagination 1 10).2 :=
  ⟨(C24_total_pages_ceiling 0 500 120 (by decide) (by decide)).1 Example.listPosts []
      (by decide),
    by decide, by decide,
    (C24_total_pages_ceiling 1 10 12 (by decide) (by decide)).2.2.2.1⟩

/-- Claim C25. `PostService.Create`, `Update` and `Delete` return `ErrForbidden` and leave
the store as it was for every actor role whose trimmed lower case is neither `admin` nor
`author`. `Update` and `Delete` of a post that exists return `ErrForbidden` and leave the
store as it was when the trimmed actor role is not `admin` in any case variant and the
trimmed actor id is blank or differs from the trimmed author id of the post; a role whose
trimmed lower case is not `admin` is no case variant of `admin`. -/
theorem C25_post_mutations_authorized (L : Lib) (actorRole actorID : String) (db : DB) :
    (strings.ToLower L (strings.TrimSpace actorRole) ≠ models.RoleAdmin →
      strings.ToLower L (strings.TrimSpace actorRole) ≠ models.RoleAuthor →
      (∀ uuid now title content status,
        service.PostService.Create L uuid now
            { ActorID := actorID, ActorRole := actorRole, Title := title, Content := content,
              Status := status } db =
          (Except.error service.ErrForbidden, db)) ∧
      (∀ now postID title content status,
        service.PostService.Update L now
            { PostID := postID, ActorID := actorID, ActorRole := actorRole, Title := title,
              Content := content, Status := status } db =
          (Except.error service.ErrForbidden, db)) ∧
      ∀ postID,
        service.PostService.Delete L
            { PostID := postID, ActorID := actorID, ActorRole := actorRole } db =
          (some service.ErrForbidden, db)) ∧
    (∀ postID post,
      repository.GormPostRepository.GetByID (strings.TrimSpace postID) db = Except.ok post →
      L.equalFold (strings.TrimSpace actorRole) models.RoleAdmin = false →
      ¬ (strings.TrimSpace actorID ≠ "" ∧
        strings.TrimSpace actorID = strings.TrimSpace post.AuthorID) →
      (∀ now title content status,
        service.PostService.Update L now
            { PostID := postID, ActorID := actorID, ActorRole := actorRole, Title := title,
              Content := content, Status := status } db =
          (Except.error service.ErrForbidden, db)) ∧
      service.PostService.Delete L
          { PostID := postID, ActorID := actorID, ActorRole := actorRole } db =
        (some service.ErrForbidden, db)) ∧
    (strings.ToLower L (strings.TrimSpace actorRole) ≠ models.RoleAdmin →
      L.equalFold (strings.TrimSpace actorRole) models.RoleAdmin = false) := by
  refine ⟨?_, ?_, ?_⟩
  · intro h1 h2
    have hw := service.canWritePosts_false L actorRole h1 h2
    refine ⟨?_, ?_, ?_⟩
    · intro uuid now title content status
      simp [service.PostService.Create, hw]
    · intro now postID title content status
      simp [service.PostService.Update, hw]
    · intro postID
      simp [service.PostService.Delete, hw]
  · intro postID post hget hrole howner
    have hm := service.canModifyPost_false L actorRole actorID post.AuthorID hrole howner
    constructor
    · intro now title content status
      by_cases hw : service.canWritePosts L actorRole = true
      · simp [service.PostService.Update, hw, hget, hm]
      · simp [service.PostService.Update, hw]
    · by_cases hw : service.canWritePosts L actorRole = true
      · simp [service.PostService.Delete, hw, hget, hm]
      · simp [service.PostService.Delete, hw]
  · intro h
    cases hfold : L.equalFold (strings.TrimSpace actorRole) models.RoleAdmin with
    | false => rfl
    | true => exact absurd (strings.equalFold_admin L _ hfold) h

/-- Witness for C25: a reader may not create a post, and an author may neither update nor
delete the post of another author. -/
theorem C25_post_mutations_authorized_witness :
    service.PostService.Create Toy.lib "p2" 5
        { ActorID := "u1", ActorRole := " Reader ", Title := "T", Content := "C",
          Status := "" } Example.blog =
      (Except.error service.ErrForbidden, Example.blog) ∧
    service.PostService.Update Toy.lib 5
        { PostID := " p1 ", ActorID := "u2", ActorRole := "author", Title := some "Mine",
          Content := none, Status := none } Example.blog =
      (Except.error service.ErrForbidden, Example.blog) ∧
    service.PostService.Delete Toy.lib
        { PostID := " p1 ", ActorID := "u2", ActorRole := "author" } Example.blog =
      (some service.ErrForbidden, Example.blog) :=
  ⟨((C25_post_mutations_authorized Toy.lib " Reader " "u1" Example.blog).1 (by decide)
      (by decide)).1 "p2" 5 "T" "C" "",
    ((C25_post_mutations_authorized Toy.lib "author" "u2" Example.blog).2.1 " p1 "
      { ID := "p1", AuthorID := "u1", Title := "Hello", Content := "First post",
        Status := "published", CreatedAt := 1, UpdatedAt := 1 }
      (by decide) (by decide) (by decide)).1 5 (some "Mine") none none,
    ((C25_post_mutations_authorized Toy.lib "author" "u2" Example.blog).2.1 " p1 "
      { ID := "p1", AuthorID := "u1", Title := "Hello", Content := "First post",
        Status := "published", CreatedAt := 1, UpdatedAt := 1 }
      (by decide) (by decide) (by decide)).2⟩

/-- Claim C26. Roles stay in the set of `admin`, `author` and `reader`. `Register` of a
service made by `NewAuthService` adds at most one credential, with role `author`, and
returns that role. For a role whose trimmed lower case is in the set and a user id that
is not blank, `AdminService.UpdateUserRole` is what follows the call of the store with that
trimmed lower case; for every other role it returns an error wrapping `ErrValidation` and
the store as it was, whatever the store holds; and when the store reports `ErrNotFound`,
as it does when no credential has the user id, it returns `ErrUserNotFound`. -/
theorem C26_roles_closed_set (L : Lib) (role userID : String) (updateNow : Time) (db : DB) :
    (∀ tokenManager passwordResetTTL frontendBaseURL env input,
      (((service.NewAuthService tokenManager passwordResetTTL frontendBaseURL).Register L env
            input db).2.users = db.users ∨
        ∃ row : models.User, row.Role = models.RoleAuthor ∧
          ((service.NewAuthService tokenManager passwordResetTTL frontendBaseURL).Register L env
            input db).2.users = db.users ++ [row]) ∧
      ∀ user pair db1,
        (service.NewAuthService tokenManager passwordResetTTL frontendBaseURL).Register L env
            input db = (Except.ok (user, pair), db1) →
          user.Role = models.RoleAuthor) ∧
    (strings.ToLower L (strings.TrimSpace role) ∈
        [models.RoleAdmin, models.RoleAuthor, models.RoleReader] →
      strings.TrimSpace userID ≠ "" →
      service.AdminService.UpdateUserRole L updateNow userID role db =
        service.AdminService.roleUpdated userID
          (repository.GormUserRepository.UpdateRole updateNow userID
            (strings.ToLower L (strings.TrimSpace role)) db)) ∧
    (strings.ToLower L (strings.TrimSpace role) ∉
        [models.RoleAdmin, models.RoleAuthor, models.RoleReader] →
      (∀ anyNow anyDB,
        service.AdminService.UpdateUserRole L anyNow userID role anyDB =
          (Except.error
            (GoError.wrap "role must be admin, author, or reader" service.ErrValidation),
            anyDB)) ∧
      errors.Is (GoError.wrap "role must be admin, author, or reader" service.ErrValidation)
        service.ErrValidation = true) ∧
    (∀ err db1, errors.Is err repository.ErrNotFound = true →
      service.AdminService.roleUpdated userID (some err, db1) =
        (Except.error service.ErrUserNotFound, db1)) ∧
    (strings.ToLower L (strings.TrimSpace role) ∈
        [models.RoleAdmin, models.RoleAuthor, models.RoleReader] →
      strings.TrimSpace userID ≠ "" → (∀ u ∈ db.users, u.ID ≠ userID) →
      service.AdminService.UpdateUserRole L updateNow userID role db =
        (Except.error service.ErrUserNotFound, db)) := by
  refine ⟨?_, ?_, ?_, ?_, ?_⟩
  · intro tokenManager passwordResetTTL frontendBaseURL env input
    constructor
    · exact service.AuthService.Register_users L _ env input db
    · intro user pair db1 h
      obtain ⟨-, -, -, -, hashed, -, huser, -⟩ :=
        service.AuthService.Register_ok L _ env input db db1 user pair h
      rw [huser]
      rfl
  · intro hrole hid
    rw [service.AdminService.UpdateUserRole_eq_phases, (service.normalizeRole_eq L role).1 hrole]
    simp only [hid, if_false]
  · intro hrole
    constructor
    · intro anyNow anyDB
      rw [service.AdminService.UpdateUserRole_eq_phases,
        (service.normalizeRole_eq L role).2 hrole]
    · rfl
  · intro err db1 h
    simp only [service.AdminService.roleUpdated, h, if_true]
  · intro hrole hid hnone
    rw [service.AdminService.UpdateUserRole_eq_phases, (service.normalizeRole_eq L role).1 hrole]
    simp only [hid, if_false]
    have hfilter : db.users.filter (fun u => decide (u.ID = userID)) = [] := by
      rw [List.filter_eq_nil_iff]
      intro u hu
      simpa using hnone u hu
    have hmap : db.users.map (fun u =>
        if decide (u.ID = userID) = true then
          { u with Role := strings.ToLower L (strings.TrimSpace role), UpdatedAt := updateNow }
        else u) = db.users := by
      conv_rhs => rw [← List.map_id db.users]
      apply List.map_congr_left
      intro u hu
      simp [hnone u hu]
    simp only [repository.GormUserRepository.UpdateRole, gorm.Updates, hfilter, hmap,
      List.length_nil, if_true, service.AdminService.roleUpdated]
    rfl

/-- Witness for C26: on the store with the one credential `u-1`, the role `owner` is
refused with a validation error, the role ` Admin ` for the unknown user `u-9` gives
`ErrUserNotFound`, both leaving the store as it was, and for `u-1` the store is called with
the role `admin`. -/
theorem C26_roles_closed_set_witness :
    service.AdminService.UpdateUserRole Toy.lib (1 * Second) "u-1" "owner"
        Example.registered.2 =
      (Except.error
        (GoError.wrap "role must be admin, author, or reader" service.ErrValidation),
        Example.registered.2) ∧
    service.AdminService.UpdateUserRole Toy.lib (1 * Second) "u-9" " Admin "
        Example.registered.2 =
      (Except.error service.ErrUserNotFound, Example.registered.2) ∧
    service.AdminService.UpdateUserRole Toy.lib (1 * Second) "u-1" " Admin "
        Example.registered.2 =
      service.AdminService.roleUpdated "u-1"
        (repository.GormUserRepository.UpdateRole (1 * Second) "u-1"
          (strings.ToLower Toy.lib (strings.TrimSpace " Admin ")) Example.registered.2) :=
  ⟨((C26_roles_closed_set Toy.lib "owner" "u-1" (1 * Second) Example.registered.2).2.2.1
      (by decide)).1 (1 * Second) Example.registered.2,
    (C26_roles_closed_set Toy.lib " Admin " "u-9" (1 * Second) Example.registered.2).2.2.2.2
      (by decide) (by decide) (by decide),
    (C26_roles_closed_set Toy.lib " Admin " "u-1" (1 * Second) Example.registered.2).2.1
      (by decide) (by decide)⟩

/-- Claim C27. For every length `n` above zero and an entropy source that works,
`GenerateRandomToken(n)` returns the unpadded URL-safe base64 text of the `n` bytes read:
it has `⌈4n/3⌉` characters, the least number `m` with `4n ≤ 3m`, hence at least `n`, each
a letter, a digit, `-` or `_`. For `n` at most zero the call is the call with 32, whose
token has 43 characters. The call returns an error exactly when the entropy source
fails. -/
theorem C27_random_token_shape (rand : Entropy) (n : Int) :
    (0 < n → rand.fails = false →
      ∃ bytes, rand.Read n.toNat = some bytes ∧ bytes.length = n.toNat ∧
        auth.GenerateRandomToken rand n = Except.ok (base64.RawURLEncoding bytes) ∧
        (base64.RawURLEncoding bytes).length = (4 * n.toNat + 2) / 3 ∧
        4 * n.toNat ≤ 3 * (base64.RawURLEncoding bytes).length ∧
        (∀ m, 4 * n.toNat ≤ 3 * m → (base64.RawURLEncoding bytes).length ≤ m) ∧
        n.toNat ≤ (base64.RawURLEncoding bytes).length ∧
        ∀ c ∈ (base64.RawURLEncoding bytes).data,
          c.isAlphanum = true ∨ c = '-' ∨ c = '_') ∧
    (n ≤ 0 → auth.GenerateRandomToken rand n = auth.GenerateRandomToken rand 32) ∧
    (rand.fails = false →
      ∃ token, auth.GenerateRandomToken rand 32 = Except.ok token ∧ token.length = 43) ∧
    ((∃ err, auth.GenerateRandomToken rand n = Except.error err) ↔ rand.fails = true) := by
  have hread : ∀ k : Nat, rand.fails = false →
      ∃ bytes, rand.Read k = some bytes ∧ bytes.length = k := by
    intro k hf
    exact ⟨(List.range k).map (fun i => rand.bytes i % 256), by simp [Entropy.Read, hf],
      by simp⟩
  have hshape : ∀ bytes : List Nat,
      (base64.RawURLEncoding bytes).length = (4 * bytes.length + 2) / 3 := by
    intro bytes
    simp [base64.RawURLEncoding, String.length, base64.encodeBytes_length]
  refine ⟨?_, ?_, ?_, ?_⟩
  · intro hn hf
    obtain ⟨bytes, hb, hlen⟩ := hread n.toNat hf
    have hl := hshape bytes
    rw [hlen] at hl
    refine ⟨bytes, hb, hlen, ?_, hl, ?_, ?_, ?_, ?_⟩
    · unfold auth.GenerateRandomToken
      have : ¬ n ≤ 0 := by omega
      simp only [this, if_false, hb]
    · rw [hl]; omega
    · intro m hm; rw [hl]; omega
    · rw [hl]; omega
    · intro c hc
      have hmem : c ∈ base64.alphabet :=
        base64.encodeBytes_alphabet bytes c (by simpa [base64.RawURLEncoding] using hc)
      have hall : ∀ d ∈ base64.alphabet, d.isAlphanum = true ∨ d = '-' ∨ d = '_' := by decide
      exact hall c hmem
  · intro hn
    unfold auth.GenerateRandomToken
    simp [hn]
  · intro hf
    obtain ⟨bytes, hb, hlen⟩ := hread 32 hf
    refine ⟨base64.RawURLEncoding bytes, ?_, ?_⟩
    · unfold auth.GenerateRandomToken
      simp [hb]
    · rw [hshape, hlen]
  · unfold auth.GenerateRandomToken
    cases hf : rand.fails
    · simp [Entropy.Read, hf]
    · simp [Entropy.Read, hf]

/-- Witness for C27: a token of 24 bytes, as in the test of the package, has 32 characters;
a length below zero is read as 32; a failing entropy source gives an error. -/
theorem C27_random_token_shape_witness :
    (∃ token, auth.GenerateRandomToken (Example.entropy 9) 24 = Except.ok token ∧
      token.length = 32) ∧
    auth.GenerateRandomToken (Example.entropy 9) (-5) =
      auth.GenerateRandomToken (Example.entropy 9) 32 ∧
    ∃ err, auth.GenerateRandomToken { fails := true, bytes := fun _ => 0 } 24 =
      Except.error err :=
  ⟨((C27_random_token_shape (Example.entropy 9) 24).1 (by decide) rfl).elim
      (fun _ h => ⟨_, h.2.2.1, h.2.2.2.1⟩),
    (C27_random_token_shape (Example.entropy 9) (-5)).2.1 (by decide),
    (C27_random_token_shape { fails := true, bytes := fun _ => 0 } 24).2.2.2.mpr rfl⟩

/-- Claim C28. `AuthRequired` never indexes out of range. For every value of the
`Authorization` header, any sequence of bytes, whenever its lower-case form starts with
`bearer ` the header has at least seven bytes, its first seven bytes are ASCII bytes whose
lower case is `bearer `, and the slice from offset seven is defined and is what follows
these seven bytes. So the middleware does not panic, for any verifier, when the handlers
after it do not. -/
theorem C28_bearer_slice_in_range (L : Lib) (header : List Nat) :
    (strings.bytes.HasPrefix (strings.bytes.ToLower L header) (utf8.bytes "bearer ") = true →
      7 ≤ header.length ∧
        (header.take 7).map strings.bytes.asciiLower = utf8.bytes "bearer " ∧
        (∀ b ∈ header.take 7, b < 0x80) ∧
        strings.bytes.sliceFrom header (strings.len "Bearer ") = some (header.drop 7) ∧
        header = header.take 7 ++ header.drop 7) ∧
      ∀ (verifier : Option http.AccessTokenVerifier) (next : gin.Context → gin.Context)
        (c : gin.Context),
        c.GetHeader "Authorization" = header → (∀ c1, (next c1).panicked = c1.panicked) →
          (http.AuthRequired L verifier next c).panicked = c.panicked := by
  constructor
  · intro h
    obtain ⟨h1, h2, h3⟩ := strings.bytes.ToLower_bearer L header h
    exact ⟨h1, h2, h3, strings.bytes.sliceFrom_bearer L header h,
      (List.take_append_drop 7 header).symm⟩
  · intro verifier next c hheader hnext
    unfold http.AuthRequired
    cases verifier with
    | none => rfl
    | some verifier =>
      dsimp only
      rw [hheader]
      by_cases h : strings.bytes.HasPrefix (strings.bytes.ToLower L header)
          (utf8.bytes "bearer ") = true
      · rw [strings.bytes.sliceFrom_bearer L header h]
        simp only [h, Bool.not_true, Bool.false_eq_true, if_false]
        split
        · rfl
        · split
          · split <;> rfl
          · rw [hnext]
            rfl
      · simp only [h, Bool.not_false, if_true]
        rfl

/-- Witness for C28: the header `BeArEr ` followed by a two-byte letter has nine bytes, and
the slice from offset seven is that letter. -/
theorem C28_bearer_slice_in_range_witness :
    7 ≤ (utf8.bytes "BeArEr é").length ∧
      strings.bytes.sliceFrom (utf8.bytes "BeArEr é") (strings.len "Bearer ") =
        some ((utf8.bytes "BeArEr é").drop 7) ∧
      (utf8.bytes "BeArEr é").drop 7 = [0xC3, 0xA9] :=
  ⟨((C28_bearer_slice_in_range Toy.lib (utf8.bytes "BeArEr é")).1 (by decide)).1,
    ((C28_bearer_slice_in_range Toy.lib (utf8.bytes "BeArEr é")).1 (by decide)).2.2.2.1,
    by decide⟩

/-- Claim C29, as stated, fails: the confirmation of the example, two seconds after the
registration, changes the password hash of the credential and its update time as well. -/
theorem C29_counterexample :
    Example.confirmed.1 = none ∧
      Example.resetRequested.2.1.users = [Example.user1] ∧
      Example.confirmed.2.users =
        [{ Example.user1 with PasswordHash := "$2a$10$new-password",
                              UpdatedAt := 2 * Second }] ∧
      Example.user1.UpdatedAt = 0 ∧ (2 * Second : Time) ≠ 0 := by
  decide

/-- Claim C29, amended. A successful `ConfirmPasswordReset` found an active reset record
for the fingerprint of the trimmed token, and the store it leaves differs from the one
before in this only: the credentials with the user id of that record have the new password
hash and the update time of the write, and the unused reset records with the id of that
record have the use time of the write. Every credential with another id and every reset
record with another id, those of the same user included, is as before, as are all
refresh-token records and all posts. -/
theorem C29_confirm_reset_frame (L : Lib) (s : service.AuthService)
    (env : service.ConfirmResetEnv) (input : service.ConfirmResetInput) (db db1 : DB)
    (h : s.ConfirmPasswordReset L env input db = (none, db1)) :
    ∃ stored hashed,
      repository.GormPasswordResetTokenRepository.GetActiveByHash env.lookupNow
          (auth.HashToken L (strings.TrimSpace input.Token)) db = Except.ok stored ∧
        auth.HashPassword L env.hashRand input.NewPassword = Except.ok hashed ∧
        db1.refresh_tokens = db.refresh_tokens ∧
        db1.posts = db.posts ∧
        db1.users =
          db.users.map (fun u =>
            if u.ID = stored.UserID then
              { u with PasswordHash := hashed, UpdatedAt := env.updateNow }
            else u) ∧
        db1.password_reset_tokens =
          db.password_reset_tokens.map (fun t =>
            if t.ID = stored.ID ∧ t.UsedAt = none then { t with UsedAt := some env.markNow }
            else t) ∧
        db1.users.filter (fun u => decide (u.ID ≠ stored.UserID)) =
          db.users.filter (fun u => decide (u.ID ≠ stored.UserID)) ∧
        db1.password_reset_tokens.filter (fun t => decide (t.ID ≠ stored.ID)) =
          db.password_reset_tokens.filter (fun t => decide (t.ID ≠ stored.ID)) := by
  obtain ⟨stored, hashed, hget, hhash, hdb⟩ :=
    service.AuthService.ConfirmPasswordReset_ok L s env input db db1 h
  rw [service.confirmedStore_eq] at hdb
  have husers : db1.users =
      db.users.map (fun u =>
        if u.ID = stored.UserID then
          { u with PasswordHash := hashed, UpdatedAt := env.updateNow }
        else u) := by
    rw [hdb]
    apply List.map_congr_left
    intro u _
    by_cases c : u.ID = stored.UserID <;> simp [c]
  have hresets : db1.password_reset_tokens =
      db.password_reset_tokens.map (fun t =>
        if t.ID = stored.ID ∧ t.UsedAt = none then { t with UsedAt := some env.markNow }
        else t) := by
    rw [hdb]
    apply List.map_congr_left
    intro t _
    by_cases c1 : t.ID = stored.ID <;> cases hu : t.UsedAt <;> simp [c1, hu]
  refine ⟨stored, hashed, hget, hhash, by rw [hdb], by rw [hdb], husers, hresets, ?_, ?_⟩
  · rw [husers]
    apply List.filter_map_of_keep
    · intro u
      by_cases c : u.ID = stored.UserID <;> simp [c]
    · intro u hu
      have c : u.ID ≠ stored.UserID := by simpa using hu
      simp [c]
  · rw [hresets]
    apply List.filter_map_of_keep
    · intro t
      by_cases c : t.ID = stored.ID ∧ t.UsedAt = none <;> simp [c]
    · intro t ht
      have c : t.ID ≠ stored.ID := by simpa using ht
      simp [c]

/-- Witness for C29: the confirmation of the example leaves the refresh-token records of
the registration as they were. -/
theorem C29_confirm_reset_frame_witness :
    Example.svc.ConfirmPasswordReset Toy.lib (Example.confirmEnv (2 * Second))
        { Token := Example.resetToken, NewPassword := "new-password" }
        Example.resetRequested.2.1 = (none, Example.confirmed.2) ∧
      Example.confirmed.2.refresh_tokens = Example.resetRequested.2.1.refresh_tokens :=
  ⟨by decide,
    (C29_confirm_reset_frame Toy.lib Example.svc (Example.confirmEnv (2 * Second))
      { Token := Example.resetToken, NewPassword := "new-password" }
      Example.resetRequested.2.1 Example.confirmed.2 (by decide)).elim
      (fun _ h1 => h1.elim (fun _ h2 => h2.2.2.1))⟩

/-- Claim C30, as stated, fails: page 2^62 + 1 with limit 2 is in range and is returned
unchanged by the normalization, the product (page - 1) * limit is 2^63, and the offset that
both listings hand to the repository is the wrapped value -2^63. -/
theorem C30_counterexample :
    int.InRange (2 ^ 62 + 1) ∧ int.InRange 2 ∧
      service.normalizePagination (2 ^ 62 + 1) 2 = (2 ^ 62 + 1, 2) ∧
      service.pageOffset (2 ^ 62 + 1) 2 = -2 ^ 63 ∧
      service.pageOffset (2 ^ 62 + 1) 2 < 0 ∧
      service.pageOffset (2 ^ 62 + 1) 2 ≠ (2 ^ 62 + 1 - 1) * 2 ∧
      service.PostService.List Example.echoPosts { Page := 2 ^ 62 + 1, Limit := 2 } =
        Except.error
          (GoError.wrap "list posts" (GoError.external "2 offset -9223372036854775808")) ∧
      service.AdminService.ListUsers Example.echoUsers (Except.ok 0) (2 ^ 62 + 1) 2 =
        Except.error
          (GoError.wrap "list users" (GoError.external "2 offset -9223372036854775808")) := by
  decide

/-- Claim C30, amended. For every machine integer `page` and every `limit` whose normalized values
have a product `(page - 1) * limit` below 2^63, the offset that `PostService.List` and
`AdminService.ListUsers` hand to the repository is that product and is not negative; every
page up to 2^63 / 50 is within that bound. For all machine integers the offset is the
product reduced to 64 bits, and it equals the product only within the bound. -/
theorem C30_offset_exact (page limit : Int) (hpage : int.InRange page) :
    (∀ list : Int → Int → Except GoError (List models.Post × Int),
        service.PostService.List list { Page := page, Limit := limit } =
          match list (service.normalizePagination page limit).2
              (int.wrap (((service.normalizePagination page limit).1 - 1) *
                (service.normalizePagination page limit).2)) with
          | Except.error err => Except.error (GoError.wrap "list posts" err)
          | Except.ok (posts, total) =>
            Except.ok
              (posts.map service.toPostItem,
                { Page := (service.normalizePagination page limit).1,
                  Limit := (service.normalizePagination page limit).2, Total := total,
                  TotalPages :=
                    service.totalPages total (service.normalizePagination page limit).2 })) ∧
      (∀ (list : Int → Int → Except GoError (List models.User)) (count : Except GoError Int),
        (∀ err,
          list (service.normalizePagination page limit).2
              (int.wrap (((service.normalizePagination page limit).1 - 1) *
                (service.normalizePagination page limit).2)) = Except.error err →
            service.AdminService.ListUsers list count page limit =
              Except.error (GoError.wrap "list users" err)) ∧
        ∀ (other : Int → Int → Except GoError (List models.User)),
          other (service.normalizePagination page limit).2
              (int.wrap (((service.normalizePagination page limit).1 - 1) *
                (service.normalizePagination page limit).2)) =
            list (service.normalizePagination page limit).2
              (int.wrap (((service.normalizePagination page limit).1 - 1) *
                (service.normalizePagination page limit).2)) →
            service.AdminService.ListUsers other count page limit =
              service.AdminService.ListUsers list count page limit) ∧
      (((service.normalizePagination page limit).1 - 1) *
            (service.normalizePagination page limit).2 < 2 ^ 63 →
        int.wrap (((service.normalizePagination page limit).1 - 1) *
              (service.normalizePagination page limit).2) =
            ((service.normalizePagination page limit).1 - 1) *
              (service.normalizePagination page limit).2 ∧
          0 ≤ int.wrap (((service.normalizePagination page limit).1 - 1) *
              (service.normalizePagination page limit).2)) ∧
      (page ≤ 2 ^ 63 / 50 →
        ((service.normalizePagination page limit).1 - 1) *
            (service.normalizePagination page limit).2 < 2 ^ 63) ∧
      (int.wrap (((service.normalizePagination page limit).1 - 1) *
              (service.normalizePagination page limit).2) =
            ((service.normalizePagination page limit).1 - 1) *
              (service.normalizePagination page limit).2 →
        ((service.normalizePagination page limit).1 - 1) *
            (service.normalizePagination page limit).2 < 2 ^ 63) := by
  have hb := service.normalizePagination_bounds page limit
  have hp := service.normalizePagination_page_le page limit hpage
  have hoff := service.pageOffset_eq (service.normalizePagination page limit).1
    (service.normalizePagination page limit).2 hb.1 hp
  have hnn : 0 ≤ ((service.normalizePagination page limit).1 - 1) *
      (service.normalizePagination page limit).2 :=
    Int.mul_nonneg (by omega) (by omega)
  refine ⟨?_, ?_, ?_, ?_, ?_⟩
  · intro list
    simp only [service.PostService.List, hoff]
  · intro list count
    constructor
    · intro err h
      simp only [service.AdminService.ListUsers, hoff, h]
    · intro other h
      simp only [service.AdminService.ListUsers, hoff, h]
  · intro hlt
    have hw := int.wrap_of_InRange _ (show int.InRange (((service.normalizePagination page limit).1 - 1) *
      (service.normalizePagination page limit).2) from ⟨by omega, hlt⟩)
    rw [hw]
    exact ⟨rfl, hnn⟩
  · intro hle
    have h1 : (service.normalizePagination page limit).1 ≤ 2 ^ 63 / 50 := by
      rw [service.normalizePagination_eq]
      by_cases h : page ≥ 1
      · simp only [h, if_true]; exact hle
      · simp only [h, if_false]; decide
    have h2 : ((service.normalizePagination page limit).1 - 1) *
        (service.normalizePagination page limit).2 ≤
        ((service.normalizePagination page limit).1 - 1) * 50 :=
      Int.mul_le_mul_of_nonneg_left hb.2.2 (by omega)
    omega
  · intro heq
    exact ((int.wrap_eq_iff _).mp heq).2

/-- Witness for C30: for page 3 and limit 20 the offset handed to the repository is 40. -/
theorem C30_offset_exact_witness :
    int.InRange 3 ∧ int.InRange 20 ∧
      int.wrap (((service.normalizePagination 3 20).1 - 1) *
            (service.normalizePagination 3 20).2) =
          ((service.normalizePagination 3 20).1 - 1) * (service.normalizePagination 3 20).2 ∧
      0 ≤ int.wrap (((service.normalizePagination 3 20).1 - 1) *
            (service.normalizePagination 3 20).2) :=
  ⟨by decide, by decide, (C30_offset_exact 3 20 (by decide)).2.2.1 (by decide)⟩
